import Mathlib

/-!
# Succuland: terrain, cameras, scene graph and light registry

A shallow embedding of `geometry.cpp` (`TerrainMesh::generate`), `camera.cpp`
(`Camera`), `object.cpp` (`ObjectInstance`, `LightObject`,
`Particle::createParticle`), `properties.cpp` (the lights) and the light part
of `shader.cpp` (`LightingShader::addLight`, `resetLights`).

Conventions of the embedding:

* `float` values are elements of an ordered field `α` (exact arithmetic);
  the statements are instantiated at `ℚ` for concrete evaluation.
* The functions whose behaviour depends on rounding are given a second time in
  binary32 arithmetic (names ending in `F32`): a `float` is then the rational
  number it stands for and every operation rounds its exact result with `f32`.
* `unsigned int` values are natural numbers reduced modulo `2 ^ 32` wherever
  the source does arithmetic on them.
* `std::vector` is `List`; `push_back` / `emplace_back` append at the end.
* The functions of the maths library the source calls (`glm::sin`,
  `glm::cos`, `glm::inversesqrt`, the constant behind `glm::radians`) and
  the `Perlin` height function (`perlin.h`) are parameters.
-/

set_option autoImplicit false

namespace Succuland

/-! ## Vectors -/

/-- The type `glm::vec3`. -/
structure Vec3 (α : Type) where
  x : α
  y : α
  z : α
deriving DecidableEq, Repr

/-- The type `glm::vec2`. -/
structure Vec2 (α : Type) where
  x : α
  y : α
deriving DecidableEq, Repr

/-- The type `glm::mat4`. -/
abbrev Mat4 (α : Type) : Type := Matrix (Fin 4) (Fin 4) α

namespace Vec3

variable {α : Type}

/-- Componentwise sum, `a + b` on `glm::vec3`. -/
def add [Add α] (a b : Vec3 α) : Vec3 α := ⟨a.x + b.x, a.y + b.y, a.z + b.z⟩

/-- Componentwise difference, `a - b` on `glm::vec3`. -/
def sub [Sub α] (a b : Vec3 α) : Vec3 α := ⟨a.x - b.x, a.y - b.y, a.z - b.z⟩

/-- Product with a scalar, `v * s` on `glm::vec3`. -/
def scale [Mul α] (v : Vec3 α) (s : α) : Vec3 α := ⟨v.x * s, v.y * s, v.z * s⟩

/-- The function `glm::dot`. -/
def dot [Add α] [Mul α] (a b : Vec3 α) : α := a.x * b.x + a.y * b.y + a.z * b.z

/-- The function `glm::cross`:
`(a.y * b.z - b.y * a.z, a.z * b.x - b.z * a.x, a.x * b.y - b.x * a.y)`. -/
def cross [Sub α] [Mul α] (a b : Vec3 α) : Vec3 α :=
  ⟨a.y * b.z - b.y * a.z, a.z * b.x - b.z * a.x, a.x * b.y - b.x * a.y⟩

end Vec3

/-- The functions of the maths library that the sources call and that are not
part of the repository. -/
structure Glm (α : Type) where
  /-- The function `glm::sin` (argument in radians). -/
  sin : α → α
  /-- The function `glm::cos` (argument in radians). -/
  cos : α → α
  /-- The function `glm::inversesqrt`. -/
  inversesqrt : α → α
  /-- The constant π, from which `glm::radians` takes its factor. -/
  pi : α

namespace Glm

variable {α : Type}

/-- The function `glm::normalize`: `v * inversesqrt(dot(v, v))`. -/
def normalize [Add α] [Mul α] (G : Glm α) (v : Vec3 α) : Vec3 α :=
  v.scale (G.inversesqrt (v.dot v))

/-- The function `glm::radians`: degrees times π / 180. -/
def radians [Mul α] [Div α] [OfNat α 180] (G : Glm α) (degrees : α) : α :=
  degrees * (G.pi / 180)

end Glm

/-! ## Machine integers and loops -/

/-- Reduction of a natural number to the range of `unsigned int`. -/
def u32 (n : Nat) : Nat := n % 2 ^ 32

/-- The `unsigned int` difference `a - b` of two values in range: it wraps
around to `a + 2 ^ 32 - b` when `b` exceeds `a`. -/
def u32Sub (a b : Nat) : Nat := if b ≤ a then a - b else a + 2 ^ 32 - b

/-- The loop `for (unsigned int i = 0; i < n; ++i) body`, as state passing:
the body is run for `i = 0, 1, ..., n - 1` in this order. -/
def forLoop {σ : Type} (n : Nat) (body : Nat → σ → σ) (s : σ) : σ :=
  (List.range n).foldl (fun acc i => body i acc) s

/-! ## Terrain mesh (`geometry.h`, `geometry.cpp`) -/

/-- The macro `COLOR_BIT`. -/
def COLOR_BIT : Nat := 0b0001
/-- The macro `NORMAL_BIT`. -/
def NORMAL_BIT : Nat := 0b0010
/-- The macro `TEXTURE_BIT`. -/
def TEXTURE_BIT : Nat := 0b0100

/-- The test `flags & BIT` of the source, as a condition. -/
def hasFlag (flags bit : Nat) : Bool := (flags &&& bit) != 0

/-- The data members of `TerrainMesh` that `generate` reads and writes. -/
structure TerrainMesh (α : Type) where
  width : Nat
  height : Nat
  flags : Nat
  vertices : List (Vec3 α)
  normals : List (Vec3 α)
  texCoords : List (Vec2 α)
  indices : List Nat

namespace TerrainMesh

variable {α : Type}

/-- The mesh as the constructor leaves it before calling `generate`:
dimensions and flags set, all vectors empty. -/
def init (width height flags : Nat) : TerrainMesh α :=
  { width := width, height := height, flags := flags,
    vertices := [], normals := [], texCoords := [], indices := [] }

/-- The vertex emplaced at row `i`, column `j` (`geometry.cpp` lines 200-202). -/
def vertexAt [Field α] (perlin : α → α → α) (width height i j : Nat) : Vec3 α :=
  let x : α := -((width : α) / 2) + (j : α)
  let z : α := -((height : α) / 2) + (i : α)
  ⟨x, perlin x z, z⟩

/-- The loop "Fill vertices" of `generate`. -/
def fillVertices [Field α] (perlin : α → α → α) (m : TerrainMesh α) : TerrainMesh α :=
  forLoop m.height (fun i m1 =>
    forLoop m.width (fun j m2 =>
      { m2 with vertices := m2.vertices ++ [vertexAt perlin m.width m.height i j] }) m1) m

/-- The loop "Fill indices" of `generate`; `height - 1` and the two pushed
values are `unsigned int` expressions. -/
def fillIndices (m : TerrainMesh α) : TerrainMesh α :=
  forLoop (u32Sub m.height 1) (fun i m1 =>
    forLoop m.width (fun j m2 =>
      { m2 with indices := m2.indices ++ [u32 (i * m.width + j), u32 ((i + 1) * m.width + j)] })
      m1) m

/-- The subscript `i * height + j` of the vertex read in the loop
"Fill normals" (an `unsigned int` expression). -/
def normalLookupIndex (height i j : Nat) : Nat := u32 (i * height + j)

/-- The value pushed on `normals` for one vertex (`geometry.cpp` lines
227-239): four height samples at offset `off = 0.2` around the vertex, then
`normalize(cross(right - left, up - down))`. -/
def normalAt [Field α] (G : Glm α) (perlin : α → α → α) (vertex : Vec3 α) : Vec3 α :=
  let off : α := 2 / 10
  let x := vertex.x + off
  let z := vertex.z
  let up : Vec3 α := ⟨x, perlin x z, z⟩
  let x := vertex.x
  let z := vertex.z + off
  let right : Vec3 α := ⟨x, perlin x z, z⟩
  let x := vertex.x - off
  let z := vertex.z
  let down : Vec3 α := ⟨x, perlin x z, z⟩
  let x := vertex.x
  let z := vertex.z - off
  let left : Vec3 α := ⟨x, perlin x z, z⟩
  G.normalize ((right.sub left).cross (up.sub down))

/-- The vector handed to `glm::normalize` for one vertex (`geometry.cpp` lines
227-239): `cross(right - left, up - down)` of the four height samples at offset
`off = 0.2` around the vertex. -/
def crossAt [Field α] (perlin : α → α → α) (vertex : Vec3 α) : Vec3 α :=
  let off : α := 2 / 10
  let x := vertex.x + off
  let z := vertex.z
  let up : Vec3 α := ⟨x, perlin x z, z⟩
  let x := vertex.x
  let z := vertex.z + off
  let right : Vec3 α := ⟨x, perlin x z, z⟩
  let x := vertex.x - off
  let z := vertex.z
  let down : Vec3 α := ⟨x, perlin x z, z⟩
  let x := vertex.x
  let z := vertex.z - off
  let left : Vec3 α := ⟨x, perlin x z, z⟩
  (right.sub left).cross (up.sub down)

/-- The loop "Fill normals" of `generate`.  The read `vertices[i * height + j]`
is unchecked in the source; a read outside the vector has no defined result
and makes the embedding return `none`. -/
def fillNormals [Field α] (G : Glm α) (perlin : α → α → α) (m : TerrainMesh α) :
    Option (TerrainMesh α) :=
  if hasFlag m.flags NORMAL_BIT then
    forLoop m.height (fun i r1 =>
      forLoop m.width (fun j r2 =>
        r2.bind fun m2 =>
          (m2.vertices[normalLookupIndex m.height i j]?).map fun vertex =>
            { m2 with normals := m2.normals ++ [normalAt G perlin vertex] }) r1) (some m)
  else some m

/-- One row of the loop filling `texCoords`: the state is the mesh and the
accumulator `u`. -/
def texRow [Field α] (v : α) (m : TerrainMesh α) : TerrainMesh α × α :=
  forLoop m.width (fun _ s =>
    ({ s.1 with texCoords := s.1.texCoords ++ [⟨s.2, v⟩] }, s.2 + 5 / 100)) (m, 0)

/-- The loop filling `texCoords` of `generate` (`spacing = 0.05`); the state
is the mesh and the accumulator `v`, and `u` restarts at `0` in every row. -/
def fillTexCoords [Field α] (m : TerrainMesh α) : TerrainMesh α :=
  if hasFlag m.flags TEXTURE_BIT then
    (forLoop m.height (fun _ s => ((texRow s.2 s.1).1, s.2 + 5 / 100)) (m, (0 : α))).1
  else m

/-- The method `TerrainMesh::generate`. -/
def generate [Field α] (G : Glm α) (perlin : α → α → α) (m : TerrainMesh α) :
    Option (TerrainMesh α) :=
  (fillNormals G perlin (fillIndices (fillVertices perlin m))).map fillTexCoords

end TerrainMesh

/-! ## Particles (`object.h`, `object.cpp`) -/

/-- A `Particle`, recorded by the three arguments its constructor is called
with: the texture path, the animation time and `origin`, the argument
`position` of the constructor.  `origin` is not where the node is: the
constructor builds the node transform `Particle.model` from it, and the member
`position` of the node is `Particle.nodePosition`. -/
structure Particle (α : Type) where
  path : String
  animationTime : Nat
  origin : Vec3 α
deriving DecidableEq, Repr

/-- The static members of `Particle`: the shared geometry pointer (`none` is
the null pointer, the payload names the mesh) and the vector of live
particles. -/
structure ParticleSystem (α : Type) where
  partGeometry : Option Nat
  particles : List (Particle α)
deriving DecidableEq, Repr

namespace Particle

variable {α : Type}

/-- The static method `Particle::init`. -/
def init (geometry : Option Nat) (ps : ParticleSystem α) : ParticleSystem α :=
  { ps with partGeometry := geometry }

/-- The static method `Particle::createParticle`; the thrown
`std::runtime_error` is the `error` result.  The pushed object is
`new Particle(texturePath, 1000, position)`, recorded by these arguments. -/
def createParticle (texturePath : String) (position : Vec3 α) (ps : ParticleSystem α) :
    Except String (ParticleSystem α) :=
  if ps.partGeometry.isNone then
    .error "Particle geometry not initialized"
  else
    .ok { ps with particles := ps.particles ++ [⟨texturePath, 1000, position⟩] }

end Particle

/-! ## Camera (`camera.h`, `camera.cpp`) -/

/-- The function `glm::mod` on floating-point arguments, `x - y * floor(x / y)`,
in exact arithmetic; `glmModF32` is the same expression in binary32. -/
def glmMod {α : Type} [LinearOrderedField α] [FloorRing α] (x y : α) : α :=
  x - y * (⌊x / y⌋ : α)

/-- The function `glm::min`: `(y < x) ? y : x`. -/
def glmMin {α : Type} [LinearOrder α] (x y : α) : α := if y < x then y else x

/-- The function `glm::max`: `(x < y) ? y : x`. -/
def glmMax {α : Type} [LinearOrder α] (x y : α) : α := if x < y then y else x

/-- The data members of `Camera`.  A `Camera*` is the index of a camera
(`none` is the null pointer); the `const Perlin*` is the height function it
points to. -/
structure Camera (α : Type) where
  lastActive : Option Nat
  angle : α
  farPlane : α
  nearPlane : α
  yaw : α
  pitch : α
  sensitivity : α
  speed : α
  circling : Bool
  point : Vec3 α
  elevation : α
  radius : α
  locked : Bool
  view : Mat4 α
  projection : Mat4 α
  widthBoundary : α
  lengthBoundary : α
  upBoundary : α
  downBoundary : α → α → α
  freeMode : Bool
  up : Vec3 α
  direction : Vec3 α
  position : Vec3 α

namespace Camera

variable {α : Type}

/-- The method `Camera::checkBoundariesAndMove`, on the camera and the
particle statics, in exact arithmetic (the margin `0.1f` read as `1 / 10`);
`checkBoundariesAndMoveF32` is the same method in binary32. -/
def checkBoundariesAndMove [LinearOrderedField α] (c : Camera α) (newPos : Vec3 α)
    (ps : ParticleSystem α) : Except String (Camera α × ParticleSystem α) :=
  let leftright : Bool :=
    decide (newPos.x < c.widthBoundary / 2) && decide (newPos.x > -c.widthBoundary / 2)
  let frontback : Bool :=
    decide (newPos.z < c.lengthBoundary / 2) && decide (newPos.z > -c.lengthBoundary / 2)
  let down : Bool := decide (newPos.y > c.downBoundary newPos.x newPos.z + 1 / 10)
  let up : Bool := decide (newPos.y < c.upBoundary)
  if leftright && frontback && up && down then
    .ok ({ c with position := newPos }, ps)
  else if !up then
    (Particle.createParticle "textures/cloud.png" c.position ps).map fun ps' => (c, ps')
  else
    .ok (c, ps)

/-- The method `Camera::initBoundaries`. -/
def initBoundaries (c : Camera α) (width length up : α) (down : α → α → α) : Camera α :=
  { c with widthBoundary := width, lengthBoundary := length, upBoundary := up,
           downBoundary := down }

/-- The method `Camera::rotateView`, in exact arithmetic; `rotateViewF32` is the
same method in binary32. -/
def rotateView [LinearOrderedField α] [FloorRing α] (G : Glm α) (c : Camera α)
    (dyaw dpitch : α) : Camera α :=
  let yaw := glmMod (c.yaw + dyaw) 360
  let pitch := glmMax (glmMin (c.pitch + dpitch) 90) (-90)
  { c with
    yaw := yaw
    pitch := pitch
    direction :=
      ⟨G.sin (G.radians yaw) * G.cos (G.radians pitch),
       G.sin (G.radians pitch),
       G.cos (G.radians yaw) * G.cos (G.radians pitch)⟩
    up :=
      ⟨-G.sin (G.radians yaw) * G.sin (G.radians pitch),
       G.cos (G.radians pitch),
       -G.cos (G.radians yaw) * G.sin (G.radians pitch)⟩ }

/-- A sequence of `rotateView` calls, in order. -/
def rotateViews [LinearOrderedField α] [FloorRing α] (G : Glm α) (c : Camera α)
    (calls : List (α × α)) : Camera α :=
  calls.foldl (fun acc d => rotateView G acc d.1 d.2) c

/-- The candidate position of `moveLeft`; `refreshRate` is the static
`int Camera::refreshRate`. -/
def leftCandidate [LinearOrderedField α] (G : Glm α) (refreshRate : Int) (c : Camera α) :
    Vec3 α :=
  c.position.sub ((G.normalize (c.direction.cross c.up)).scale (c.speed / (refreshRate : α)))

/-- The candidate position of `moveRight`. -/
def rightCandidate [LinearOrderedField α] (G : Glm α) (refreshRate : Int) (c : Camera α) :
    Vec3 α :=
  c.position.add ((G.normalize (c.direction.cross c.up)).scale (c.speed / (refreshRate : α)))

/-- The candidate position of `moveForward`. -/
def forwardCandidate [LinearOrderedField α] (G : Glm α) (refreshRate : Int) (c : Camera α) :
    Vec3 α :=
  c.position.add ((G.normalize c.direction).scale (c.speed / (refreshRate : α)))

/-- The candidate position of `moveBackward`. -/
def backwardCandidate [LinearOrderedField α] (G : Glm α) (refreshRate : Int) (c : Camera α) :
    Vec3 α :=
  c.position.sub ((G.normalize c.direction).scale (c.speed / (refreshRate : α)))

/-- The method `Camera::moveLeft`. -/
def moveLeft [LinearOrderedField α] (G : Glm α) (refreshRate : Int) (c : Camera α)
    (ps : ParticleSystem α) : Except String (Camera α × ParticleSystem α) :=
  if c.freeMode && !c.locked then
    checkBoundariesAndMove c (leftCandidate G refreshRate c) ps
  else .ok (c, ps)

/-- The method `Camera::moveRight`. -/
def moveRight [LinearOrderedField α] (G : Glm α) (refreshRate : Int) (c : Camera α)
    (ps : ParticleSystem α) : Except String (Camera α × ParticleSystem α) :=
  if c.freeMode && !c.locked then
    checkBoundariesAndMove c (rightCandidate G refreshRate c) ps
  else .ok (c, ps)

/-- The method `Camera::moveForward`. -/
def moveForward [LinearOrderedField α] (G : Glm α) (refreshRate : Int) (c : Camera α)
    (ps : ParticleSystem α) : Except String (Camera α × ParticleSystem α) :=
  if c.freeMode && !c.locked then
    checkBoundariesAndMove c (forwardCandidate G refreshRate c) ps
  else .ok (c, ps)

/-- The method `Camera::moveBackward`. -/
def moveBackward [LinearOrderedField α] (G : Glm α) (refreshRate : Int) (c : Camera α)
    (ps : ParticleSystem α) : Except String (Camera α × ParticleSystem α) :=
  if c.freeMode && !c.locked then
    checkBoundariesAndMove c (backwardCandidate G refreshRate c) ps
  else .ok (c, ps)

/-- The method `Camera::circlingParameters`. -/
def circlingParameters (c : Camera α) (point : Vec3 α) (elevation radius : α) : Camera α :=
  { c with point := point, elevation := elevation, radius := radius }

/-- The constructor of the dynamic camera with bounds (`camera.cpp` lines
25-34): the member initialisers, then `circlingParameters((0, 0, 0), 20, 40)`
and `initBoundaries(width, length, up, down)`.  It has no test of its
arguments and no `throw`, so it is a total function.  `raw` is the storage the
object is built in: the members `view` and `projection`, which the constructor
does not write, keep what the storage holds. -/
def bounded [Field α] (G : Glm α) (raw : Camera α) (position direction : Vec3 α)
    (nearPlane farPlane captureAngle movementSpeed width length up : α)
    (down : α → α → α) : Camera α :=
  initBoundaries
    (circlingParameters
      { raw with
        position := position, direction := direction, up := ⟨0, 1, 0⟩
        yaw := 0, pitch := 0, sensitivity := 3 / 2, speed := movementSpeed, freeMode := false
        angle := G.radians captureAngle, nearPlane := nearPlane, farPlane := farPlane
        elevation := 0, radius := 0, circling := false
        lastActive := none, locked := false }
      ⟨0, 0, 0⟩ 20 40)
    width length up down

end Camera

/-- The four movement methods of `Camera`. -/
inductive Move where
  | left
  | right
  | forward
  | backward
deriving DecidableEq, Repr

namespace Move

variable {α : Type}

/-- The candidate position the movement method computes. -/
def candidate [LinearOrderedField α] (G : Glm α) (refreshRate : Int) (c : Camera α) :
    Move → Vec3 α
  | left => Camera.leftCandidate G refreshRate c
  | right => Camera.rightCandidate G refreshRate c
  | forward => Camera.forwardCandidate G refreshRate c
  | backward => Camera.backwardCandidate G refreshRate c

/-- The movement method itself. -/
def run [LinearOrderedField α] (G : Glm α) (refreshRate : Int) (c : Camera α)
    (ps : ParticleSystem α) : Move → Except String (Camera α × ParticleSystem α)
  | left => Camera.moveLeft G refreshRate c ps
  | right => Camera.moveRight G refreshRate c ps
  | forward => Camera.moveForward G refreshRate c ps
  | backward => Camera.moveBackward G refreshRate c ps

end Move

/-! ## The cameras of the program and the static `Camera::active` -/

/-- The cameras of the program with the process-wide state their methods
share: the camera objects by index, the static pointer `Camera::active`, and
what the window system was last told (cursor hidden by `glutSetCursor`,
`freeModeMotionCallback` installed by `glutPassiveMotionFunc`, number of
`circleTimerCallback` ticks scheduled by `glutTimerFunc` and not yet fired). -/
structure CameraSystem (α : Type) where
  cameras : Nat → Camera α
  active : Option Nat
  cursorHidden : Bool
  motionCallback : Bool
  circleTimers : Nat

namespace CameraSystem

variable {α : Type}

/-- The body of `Camera::toggleFreeMode` for camera `x`, with the call
`makeActive()` of its second branch as a parameter.  (`glutWarpPointer` moves
the pointer, which is not part of the state.) -/
def toggleFreeModeWith (makeActive : Nat → CameraSystem α → Option (CameraSystem α))
    (x : Nat) (s : CameraSystem α) : Option (CameraSystem α) :=
  if (s.cameras x).freeMode = true then
    some { s with
      cameras := Function.update s.cameras x { s.cameras x with freeMode := false }
      cursorHidden := false
      active := (s.cameras x).lastActive
      motionCallback := false }
  else
    (makeActive x s).map fun s1 =>
      { s1 with
        cameras := Function.update s1.cameras x
          { s1.cameras x with freeMode := true, lastActive := s1.active }
        cursorHidden := true
        motionCallback := true }

/-- The body of `Camera::toggleCircling` for camera `x`, with the call
`makeActive()` of its last branch as a parameter. -/
def toggleCirclingWith (makeActive : Nat → CameraSystem α → Option (CameraSystem α))
    (x : Nat) (s : CameraSystem α) : Option (CameraSystem α) :=
  if (s.cameras x).locked = true then
    some s
  else if (s.cameras x).circling = true then
    some { s with
      cameras := Function.update s.cameras x { s.cameras x with circling := false }
      active := (s.cameras x).lastActive }
  else
    (makeActive x s).map fun s1 =>
      { s1 with
        cameras := Function.update s1.cameras x
          { s1.cameras x with circling := true, lastActive := s1.active }
        circleTimers := s1.circleTimers + 1 }

/-- The method `Camera::makeActive` for camera `x`.  It calls
`active->toggleFreeMode()` only when `active->freeMode` holds and
`active->toggleCircling()` only when `active->circling` holds, so these calls
never reach the `makeActive()` of the toggles; `makeActive_unfold` states the
equation of the source with the toggles themselves.  Reading `active->circling`
through a null `active` has no defined result and gives `none`. -/
def makeActive (x : Nat) (s : CameraSystem α) : Option (CameraSystem α) :=
  match s.active with
  | none => some { s with active := some x }
  | some a =>
    (if (s.cameras a).freeMode = true then toggleFreeModeWith (fun _ _ => none) a s
      else some s).bind fun s1 =>
      match s1.active with
      | none => none
      | some a1 =>
        (if (s1.cameras a1).circling = true then toggleCirclingWith (fun _ _ => none) a1 s1
          else some s1).map fun s2 => { s2 with active := some x }

/-- The method `Camera::toggleFreeMode` for camera `x`. -/
def toggleFreeMode (x : Nat) (s : CameraSystem α) : Option (CameraSystem α) :=
  toggleFreeModeWith makeActive x s

/-- The method `Camera::toggleCircling` for camera `x`. -/
def toggleCircling (x : Nat) (s : CameraSystem α) : Option (CameraSystem α) :=
  toggleCirclingWith makeActive x s

/-- The mode discipline of the cameras: a camera with `freeMode` or `circling`
set is the active camera, its `lastActive` points to itself, it does not have
both flags set, and it is not locked when it is circling. -/
def ModeInvariant (s : CameraSystem α) : Prop :=
  ∀ x, ((s.cameras x).freeMode = true ∨ (s.cameras x).circling = true) →
    s.active = some x ∧ (s.cameras x).lastActive = some x ∧
      ¬ ((s.cameras x).freeMode = true ∧ (s.cameras x).circling = true) ∧
      ((s.cameras x).circling = true → (s.cameras x).locked = false)

/-- The states reachable from a state in which no camera has `freeMode` or
`circling` set, by calls of `makeActive`, `toggleFreeMode` and
`toggleCircling` on any cameras, and by steps of the rest of the program
(`rotateView`, the movement methods, the orbit tick, the setters), which leave
`Camera::active` and the members `freeMode`, `circling`, `lastActive` and
`locked` of every camera as they are. -/
inductive Reachable : CameraSystem α → Prop where
  | initial (s : CameraSystem α)
      (h : ∀ x, (s.cameras x).freeMode = false ∧ (s.cameras x).circling = false) : Reachable s
  | other (s s' : CameraSystem α) :
      Reachable s → s'.active = s.active →
      (∀ x, (s'.cameras x).freeMode = (s.cameras x).freeMode ∧
        (s'.cameras x).circling = (s.cameras x).circling ∧
        (s'.cameras x).lastActive = (s.cameras x).lastActive ∧
        (s'.cameras x).locked = (s.cameras x).locked) → Reachable s'
  | makeActive (x : Nat) (s s' : CameraSystem α) :
      Reachable s → CameraSystem.makeActive x s = some s' → Reachable s'
  | toggleFreeMode (x : Nat) (s s' : CameraSystem α) :
      Reachable s → CameraSystem.toggleFreeMode x s = some s' → Reachable s'
  | toggleCircling (x : Nat) (s s' : CameraSystem α) :
      Reachable s → CameraSystem.toggleCircling x s = some s' → Reachable s'

/-- The static method `Camera::circleTimerCallback`; `elapsedTime` is the value
of `glutGet(GLUT_ELAPSED_TIME)` at the call.  It writes through `active`
without a test (a null `active` gives `none`): the position always, the
direction and the up vector unless `freeMode` is set, and it schedules the next
tick when `circling` is set. -/
def circleTimerCallback [Field α] (G : Glm α) (elapsedTime : α) (s : CameraSystem α) :
    Option (CameraSystem α) :=
  match s.active with
  | none => none
  | some a =>
    let alpha : α := elapsedTime * (1 / 1000)
    let c := s.cameras a
    let c1 : Camera α :=
      { c with position :=
          (Vec3.mk (G.sin alpha * c.radius) c.elevation (G.cos alpha * c.radius)).add c.point }
    let c2 : Camera α :=
      if c1.freeMode = true then c1
      else
        let direction := G.normalize (c1.point.sub c1.position)
        { c1 with
          direction := direction
          up := G.normalize ((Vec3.cross ⟨0, -1, 0⟩ direction).cross direction) }
    some { s with
      cameras := Function.update s.cameras a c2
      circleTimers := if c2.circling = true then s.circleTimers + 1 else s.circleTimers }

/-- One scheduled tick fires: the window system takes it off its list of
pending timers and calls `circleTimerCallback`.  Without a pending tick
nothing can fire (`none`). -/
def fireCircleTimer [Field α] (G : Glm α) (elapsedTime : α) (s : CameraSystem α) :
    Option (CameraSystem α) :=
  if s.circleTimers = 0 then none
  else circleTimerCallback G elapsedTime { s with circleTimers := s.circleTimers - 1 }

end CameraSystem

/-! ## Matrices of the maths library -/

section Matrices

variable {α : Type}

/-- The translation column of a transform, `glm::vec3(m[3])`. -/
def translationOf (m : Mat4 α) : Vec3 α := ⟨m 0 3, m 1 3, m 2 3⟩

/-- The linear part of a transform padded with the identity,
`glm::mat4(glm::mat3(m))`. -/
def linearPart [Zero α] [One α] (m : Mat4 α) : Mat4 α :=
  Matrix.of fun i j => if i = 3 ∨ j = 3 then (if i = j then 1 else 0) else m i j

/-- The function `glm::translate(m, v)`: `m` with its last column replaced by
`m[0] * v.x + m[1] * v.y + m[2] * v.z + m[3]`. -/
def glmTranslate [Add α] [Mul α] (m : Mat4 α) (v : Vec3 α) : Mat4 α :=
  Matrix.of fun i => ![m i 0, m i 1, m i 2, m i 0 * v.x + m i 1 * v.y + m i 2 * v.z + m i 3]

/-- The function `glm::rotate(m, angle, v)`: with `c = cos(angle)`,
`s = sin(angle)`, `axis = normalize(v)` and `temp = (1 - c) * axis` it builds
the rotation `Rotate` entry by entry and returns the columns
`m[0] * Rotate[j][0] + m[1] * Rotate[j][1] + m[2] * Rotate[j][2]` for
`j = 0, 1, 2`, followed by `m[3]`. -/
def glmRotate [Field α] (G : Glm α) (m : Mat4 α) (angle : α) (v : Vec3 α) : Mat4 α :=
  let c := G.cos angle
  let s := G.sin angle
  let axis := G.normalize v
  let temp : Vec3 α := ⟨(1 - c) * axis.x, (1 - c) * axis.y, (1 - c) * axis.z⟩
  let r00 := c + temp.x * axis.x
  let r01 := temp.x * axis.y + s * axis.z
  let r02 := temp.x * axis.z - s * axis.y
  let r10 := temp.y * axis.x - s * axis.z
  let r11 := c + temp.y * axis.y
  let r12 := temp.y * axis.z + s * axis.x
  let r20 := temp.z * axis.x + s * axis.y
  let r21 := temp.z * axis.y - s * axis.x
  let r22 := c + temp.z * axis.z
  Matrix.of fun i =>
    ![m i 0 * r00 + m i 1 * r01 + m i 2 * r02,
      m i 0 * r10 + m i 1 * r11 + m i 2 * r12,
      m i 0 * r20 + m i 1 * r21 + m i 2 * r22,
      m i 3]

end Matrices

/-! ## The node of a particle (`object.cpp`, `Particle::Particle`) -/

section ParticleNode

variable {α : Type}

/-- The function `glm::scale(m, v)`: the first three columns of `m` multiplied
by `v.x`, `v.y`, `v.z`, followed by `m[3]`. -/
def glmScale [Mul α] (m : Mat4 α) (v : Vec3 α) : Mat4 α :=
  Matrix.of fun i => ![m i 0 * v.x, m i 1 * v.y, m i 2 * v.z, m i 3]

/-- The transform that the constructor `Particle::Particle` hands to
`ObjectInstance`:
`translate(mat4(1), position + vec3(0, 1, 0)) * rotate(mat4(1), radians(90), vec3(1, 0, 0)) * scale(mat4(1), vec3(10))`. -/
def Particle.model [Field α] (G : Glm α) (p : Particle α) : Mat4 α :=
  glmTranslate 1 (p.origin.add ⟨0, 1, 0⟩) * glmRotate G 1 (G.radians 90) ⟨1, 0, 0⟩ *
    glmScale 1 ⟨10, 10, 10⟩

/-- The member `position` of the particle node, which the constructor of
`ObjectInstance` sets to `model[3]`: where the particle is located. -/
def Particle.nodePosition [Field α] (G : Glm α) (p : Particle α) : Vec3 α :=
  translationOf (Particle.model G p)

end ParticleNode

/-! ## Binary32 arithmetic -/

/-- Rounding of a rational number to the nearest integer, a tie going to the
even one. -/
def roundHalfEven (q : ℚ) : ℤ :=
  if q - ⌊q⌋ < 1 / 2 then ⌊q⌋
  else if 1 / 2 < q - ⌊q⌋ then ⌊q⌋ + 1
  else if ⌊q⌋ % 2 = 0 then ⌊q⌋ else ⌊q⌋ + 1

/-- Rounding to binary32, the `float` of the program: the number with a 24-bit
significand nearest to `q`, a tie going to the even significand; the exponent
does not go below `-126` (subnormal numbers).  Overflow to infinity is not
modelled: the function is used below `2 ^ 128` only. -/
def f32 (q : ℚ) : ℚ :=
  (roundHalfEven (q / 2 ^ (max (Int.log 2 |q|) (-126) - 23)) : ℚ) *
    2 ^ (max (Int.log 2 |q|) (-126) - 23)

namespace Vec3

/-- The difference `a - b` on `glm::vec3` in binary32. -/
def subF32 (a b : Vec3 ℚ) : Vec3 ℚ := ⟨f32 (a.x - b.x), f32 (a.y - b.y), f32 (a.z - b.z)⟩

/-- The function `glm::dot` in binary32: the three products, summed from the
left. -/
def dotF32 (a b : Vec3 ℚ) : ℚ := f32 (f32 (f32 (a.x * b.x) + f32 (a.y * b.y)) + f32 (a.z * b.z))

/-- The function `glm::cross` in binary32. -/
def crossF32 (a b : Vec3 ℚ) : Vec3 ℚ :=
  ⟨f32 (f32 (a.y * b.z) - f32 (b.y * a.z)), f32 (f32 (a.z * b.x) - f32 (b.z * a.x)),
    f32 (f32 (a.x * b.y) - f32 (b.x * a.y))⟩

end Vec3

/-- The function `glm::normalize` in binary32: `v * inversesqrt(dot(v, v))`.
For a dot product of `0` the inverse square root is infinite and the product
has a component that is infinite or not a number (`0 * inf`): the result is
then no vector of numbers, `none`. -/
def Glm.normalizeF32 (G : Glm ℚ) (v : Vec3 ℚ) : Option (Vec3 ℚ) :=
  if v.dotF32 v = 0 then none
  else some ⟨f32 (v.x * G.inversesqrt (v.dotF32 v)), f32 (v.y * G.inversesqrt (v.dotF32 v)),
    f32 (v.z * G.inversesqrt (v.dotF32 v))⟩

/-- The function `glm::radians` in binary32: the argument times the constant
`0.01745329251994329576923690768489` of the library, converted to `float`. -/
def Glm.radiansF32 (degrees : ℚ) : ℚ :=
  f32 (degrees * f32 (1745329251994329576923690768489 / 100000000000000000000000000000000))

/-- The function `glm::mod` in binary32: `x - y * floor(x / y)`, every
operation rounded (`floor` of a binary32 number is exact). -/
def glmModF32 (x y : ℚ) : ℚ := f32 (x - f32 (y * (⌊f32 (x / y)⌋ : ℚ)))

namespace TerrainMesh

/-- The vector handed to `glm::normalize` for one vertex, in binary32
(`geometry.cpp` lines 227-239).  The offset is `float off = 0.2`; the sums
`vertex.x + off`, ... are stored in `volatile float` variables, so each is
rounded to binary32. -/
def crossAtF32 (perlin : ℚ → ℚ → ℚ) (vertex : Vec3 ℚ) : Vec3 ℚ :=
  let off : ℚ := f32 (2 / 10)
  let x := f32 (vertex.x + off)
  let z := vertex.z
  let up : Vec3 ℚ := ⟨x, perlin x z, z⟩
  let x := vertex.x
  let z := f32 (vertex.z + off)
  let right : Vec3 ℚ := ⟨x, perlin x z, z⟩
  let x := f32 (vertex.x - off)
  let z := vertex.z
  let down : Vec3 ℚ := ⟨x, perlin x z, z⟩
  let x := vertex.x
  let z := f32 (vertex.z - off)
  let left : Vec3 ℚ := ⟨x, perlin x z, z⟩
  (right.subF32 left).crossF32 (up.subF32 down)

/-- The value pushed on `normals` for one vertex, in binary32:
`normalize(cross(right - left, up - down))`, with no test of the cross
product. -/
def normalAtF32 (G : Glm ℚ) (perlin : ℚ → ℚ → ℚ) (vertex : Vec3 ℚ) : Option (Vec3 ℚ) :=
  G.normalizeF32 (crossAtF32 perlin vertex)

end TerrainMesh

namespace Camera

/-- The method `Camera::rotateView` in binary32. -/
def rotateViewF32 (G : Glm ℚ) (c : Camera ℚ) (dyaw dpitch : ℚ) : Camera ℚ :=
  let yaw := glmModF32 (f32 (c.yaw + dyaw)) 360
  let pitch := glmMax (glmMin (f32 (c.pitch + dpitch)) 90) (-90)
  { c with
    yaw := yaw
    pitch := pitch
    direction :=
      ⟨f32 (G.sin (Glm.radiansF32 yaw) * G.cos (Glm.radiansF32 pitch)),
       G.sin (Glm.radiansF32 pitch),
       f32 (G.cos (Glm.radiansF32 yaw) * G.cos (Glm.radiansF32 pitch))⟩
    up :=
      ⟨f32 (-G.sin (Glm.radiansF32 yaw) * G.sin (Glm.radiansF32 pitch)),
       G.cos (Glm.radiansF32 pitch),
       f32 (-G.cos (Glm.radiansF32 yaw) * G.sin (Glm.radiansF32 pitch))⟩ }

/-- A sequence of `rotateView` calls in binary32, in order. -/
def rotateViewsF32 (G : Glm ℚ) (c : Camera ℚ) (calls : List (ℚ × ℚ)) : Camera ℚ :=
  calls.foldl (fun acc d => rotateViewF32 G acc d.1 d.2) c

/-- The method `Camera::checkBoundariesAndMove` in binary32: the halves of the
boundaries and the lower limit `(*downBoundary)(x, z) + 0.1f` are rounded, and
`0.1f` is the binary32 number nearest to `0.1`. -/
def checkBoundariesAndMoveF32 (c : Camera ℚ) (newPos : Vec3 ℚ) (ps : ParticleSystem ℚ) :
    Except String (Camera ℚ × ParticleSystem ℚ) :=
  let leftright : Bool :=
    decide (newPos.x < f32 (c.widthBoundary / 2)) &&
      decide (newPos.x > f32 (-c.widthBoundary / 2))
  let frontback : Bool :=
    decide (newPos.z < f32 (c.lengthBoundary / 2)) &&
      decide (newPos.z > f32 (-c.lengthBoundary / 2))
  let down : Bool :=
    decide (newPos.y > f32 (c.downBoundary newPos.x newPos.z + f32 (1 / 10)))
  let up : Bool := decide (newPos.y < c.upBoundary)
  if leftright && frontback && up && down then
    .ok ({ c with position := newPos }, ps)
  else if !up then
    (Particle.createParticle "textures/cloud.png" c.position ps).map fun ps' => (c, ps')
  else
    .ok (c, ps)

end Camera

/-! ## Lights and the light registry (`properties.h`, `properties.cpp`, `shader.cpp`) -/

/-- The enumeration `LightType`. -/
inductive LightType where
  | LIGHT_NONE
  | LIGHT_DIRECTIONAL
  | LIGHT_POINT
  | LIGHT_SPOTLIGHT
deriving DecidableEq, Repr

/-- The record `GLSLLight`.  A field that the code has not written yet is
`none` (`new GLSLLight` leaves every field indeterminate); the padding fields
are left out. -/
structure GLSLLight (α : Type) where
  ambient : Vec3 α
  point : Bool
  diffuse : Vec3 α
  spotlight : Bool
  specular : Vec3 α
  cutOff : Option α
  position : Option (Vec3 α)
  exponent : Option α
  direction : Option (Vec3 α)
  constant : Option α
  linear : Option α
  quadratic : Option α
deriving DecidableEq, Repr

/-- A light definition: the base `Light` as its three-colour constructor
leaves it, or one of the derived `DirectionalLight`, `PointLight`,
`SpotLight`. -/
inductive Light (α : Type) where
  | base (ambient diffuse specular : Vec3 α)
  | directional (ambient diffuse specular : Vec3 α)
  | point (ambient diffuse specular : Vec3 α) (constant linear quadratic : α)
  | spot (ambient diffuse specular : Vec3 α) (cutOff exponent constant linear quadratic : α)
deriving DecidableEq, Repr

namespace Light

variable {α : Type}

/-- The member `type`, as the constructors set it. -/
def type : Light α → LightType
  | base _ _ _ => .LIGHT_NONE
  | directional _ _ _ => .LIGHT_DIRECTIONAL
  | point _ _ _ _ _ _ => .LIGHT_POINT
  | spot _ _ _ _ _ _ _ _ => .LIGHT_SPOTLIGHT

/-- The virtual method `toDataPtr`: the overrides of the derived lights fill a
fresh record, the base method throws. -/
def toDataPtr : Light α → Except String (GLSLLight α)
  | base _ _ _ => .error "data pointer query on light without type"
  | directional a d s =>
    .ok { ambient := a, diffuse := d, specular := s, point := false, spotlight := false,
          cutOff := none, exponent := none, constant := none, linear := none,
          quadratic := none, position := none, direction := none }
  | point a d s constant linear quadratic =>
    .ok { ambient := a, diffuse := d, specular := s, point := true, spotlight := false,
          constant := some constant, linear := some linear, quadratic := some quadratic,
          cutOff := none, exponent := none, position := none, direction := none }
  | spot a d s cutOff exponent constant linear quadratic =>
    .ok { ambient := a, diffuse := d, specular := s, point := false, spotlight := true,
          cutOff := some cutOff, exponent := some exponent, constant := some constant,
          linear := some linear, quadratic := some quadratic,
          position := none, direction := none }

end Light

/-- The constant `LightingShader::MAX_LIGHT_NUM`. -/
def MAX_LIGHT_NUM : Nat := 50

/-- The light part of a `LightingShader`: the member `lightsLoadedNum` and the
contents of the uniform buffer `lightUBO`, namely the count in its header and
the records by slot (slot `n` is the byte range starting at
`16 + n * sizeof(GLSLLight)`). -/
structure LightingShader (α : Type) where
  lightsLoadedNum : Nat
  uboCount : Nat
  uboLights : Nat → Option (GLSLLight α)

namespace LightingShader

variable {α : Type}

/-- The method `LightingShader::addLight`.  A thrown exception is the `error`
result; it carries the state the shader is left in. -/
def addLight (light : Light α) (position direction : Vec3 α) (sh : LightingShader α) :
    Except (String × LightingShader α) (LightingShader α) :=
  if sh.lightsLoadedNum ≥ MAX_LIGHT_NUM then
    .error ("Exceeded maximum number of lights (50)", sh)
  else
    let sh1 := { sh with lightsLoadedNum := sh.lightsLoadedNum + 1,
                         uboCount := sh.lightsLoadedNum + 1 }
    match light.toDataPtr with
    | .error e => .error (e, sh1)
    | .ok data =>
      .ok { sh1 with
            uboLights := Function.update sh1.uboLights (sh1.lightsLoadedNum - 1)
              (some { data with position := some position, direction := some direction }) }

/-- The method `LightingShader::resetLights`. -/
def resetLights (sh : LightingShader α) : LightingShader α :=
  { sh with lightsLoadedNum := 0, uboCount := 0 }

/-- The registry with `record` stored in the first free slot, slot
`lightsLoadedNum`, and both counts raised by one: what a registration that
succeeds is to leave behind. -/
def appended (sh : LightingShader α) (record : GLSLLight α) : LightingShader α :=
  { lightsLoadedNum := sh.lightsLoadedNum + 1
    uboCount := sh.lightsLoadedNum + 1
    uboLights := Function.update sh.uboLights sh.lightsLoadedNum (some record) }

/-- The shader as the constructors `LightingShader::LightingShader` leave it:
the member `lightsLoadedNum` is initialised to `0`; the contents of the buffer
are those given. -/
def create (uboCount : Nat) (uboLights : Nat → Option (GLSLLight α)) : LightingShader α :=
  { lightsLoadedNum := 0, uboCount := uboCount, uboLights := uboLights }

/-- A sequence of `addLight` calls on the same shader, every exception caught
by the caller: the outcome of each call in order (`true` when it returned,
`false` when it threw) and the shader that is left. -/
def addLights : List (Light α × Vec3 α × Vec3 α) → LightingShader α →
    List Bool × LightingShader α
  | [], sh => ([], sh)
  | call :: calls, sh =>
    match addLight call.1 call.2.1 call.2.2 sh with
    | .ok sh1 => (true :: (addLights calls sh1).1, (addLights calls sh1).2)
    | .error (_, sh1) => (false :: (addLights calls sh1).1, (addLights calls sh1).2)

/-- The states of a lighting shader that the program can reach: the shader as
constructed, and what `resetLights` and `addLight` (returning or throwing)
leave behind. -/
inductive Reachable : LightingShader α → Prop where
  | create (uboCount : Nat) (uboLights : Nat → Option (GLSLLight α)) :
      Reachable (create uboCount uboLights)
  | resetLights (sh : LightingShader α) : Reachable sh → Reachable (resetLights sh)
  | addLight_ok (light : Light α) (position direction : Vec3 α) (sh sh1 : LightingShader α) :
      Reachable sh → addLight light position direction sh = .ok sh1 → Reachable sh1
  | addLight_error (light : Light α) (position direction : Vec3 α) (sh sh1 : LightingShader α)
      (e : String) :
      Reachable sh → addLight light position direction sh = .error (e, sh1) → Reachable sh1

end LightingShader

/-! ## Scene graph (`object.h`, `object.cpp`) -/

/-- What the rendering backend is asked to do, in order: the write of a light
record to a slot of the light buffer by `addLight`, or one geometry draw (the
sequence `shader->use()`, `setTransformParameters(camera, model)`,
`loadFog()`, `geometry->draw()`, `Shader::unbind()`) of a mesh with a model
transform under the camera's view and projection matrices. -/
inductive RenderEvent (α : Type) where
  | light (slot : Nat)
  | geometry (mesh : Nat) (model view projection : Mat4 α)

/-- The state a frame's traversal works on: the lighting shader and the log of
what the backend was asked to do. -/
structure RenderState (α : Type) where
  lshader : LightingShader α
  log : List (RenderEvent α)

/-- The dynamic class of a node: a plain `ObjectInstance`, or a `LightObject`
with its light definition and direction. -/
inductive NodeKind (α : Type) where
  | plain
  | light (light : Light α) (direction : Vec3 α)

/-- A node of the scene graph with the nodes below it: the members `geometry`
(`none` is the null pointer, the payload names the mesh), `model`, `position`
and `children` of `ObjectInstance`.  A parent owns its children, so the graph
is a tree and a child is held by value. -/
inductive SceneNode (α : Type) where
  | mk (kind : NodeKind α) (geometry : Option Nat) (model : Mat4 α) (position : Vec3 α)
      (children : List (SceneNode α))

namespace SceneNode

variable {α : Type}

/-- The dynamic class of the node. -/
def kind : SceneNode α → NodeKind α
  | mk k _ _ _ _ => k

/-- The member `geometry`. -/
def geometry : SceneNode α → Option Nat
  | mk _ g _ _ _ => g

/-- The member `model`. -/
def model : SceneNode α → Mat4 α
  | mk _ _ m _ _ => m

/-- The member `position`. -/
def position : SceneNode α → Vec3 α
  | mk _ _ _ p _ => p

/-- The member `children`. -/
def children : SceneNode α → List (SceneNode α)
  | mk _ _ _ _ cs => cs

/-- The constructor `ObjectInstance(geometry, model)`. -/
def object (geometry : Option Nat) (model : Mat4 α) : SceneNode α :=
  mk .plain geometry model (translationOf model) []

/-- The constructors `LightObject(geometry, light, lshader, model, direction)`
and `LightObject(geometry, light, lshader, model)`, the latter with direction
`vec3(0)`. -/
def lightObject (geometry : Option Nat) (light : Light α) (model : Mat4 α)
    (direction : Vec3 α) : SceneNode α :=
  mk (.light light direction) geometry model (translationOf model) []

/-- The constructor `LightObject(light, lshader, direction)`: no geometry,
identity transform. -/
def directionalLightObject [Zero α] [One α] (light : Light α) (direction : Vec3 α) :
    SceneNode α :=
  lightObject none light 1 direction

/-- The constructors `LightObject(geometry, light, lshader, position, direction)`
and `LightObject(geometry, light, lshader, position)`, the latter leaving
`direction` unset: the transform is `glm::translate(glm::mat4(1.0f), position)`. -/
def lightObjectAt [Field α] (geometry : Option Nat) (light : Light α) (position : Vec3 α)
    (direction : Vec3 α) : SceneNode α :=
  lightObject geometry light (glmTranslate 1 position) direction

/-- The methods `ObjectInstance::update` and `LightObject::update`, which have
the same body. -/
def update [Field α] (updateModel : Mat4 α) : SceneNode α → SceneNode α
  | mk k g m _ cs => mk k g (updateModel * m) (translationOf (updateModel * m)) cs

/-- The method `ObjectInstance::addChild`. -/
def addChild [Field α] (parent newChild : SceneNode α) : SceneNode α :=
  match parent with
  | mk k g m p cs => mk k g m p (cs ++ [update m newChild])

mutual
/-- The method `ObjectInstance::rotate` (`LightObject` does not override it). -/
def rotate [Field α] (G : Glm α) (degrees : α) (axis : Vec3 α) : SceneNode α → SceneNode α
  | mk k g m p cs =>
    mk k g
      (glmTranslate 1 (translationOf m) * glmRotate G 1 (G.radians degrees) axis * linearPart m)
      p (rotateAll G degrees axis cs)
/-- The loop of `rotate` over the children. -/
def rotateAll [Field α] (G : Glm α) (degrees : α) (axis : Vec3 α) :
    List (SceneNode α) → List (SceneNode α)
  | [] => []
  | c :: cs => rotate G degrees axis c :: rotateAll G degrees axis cs
end

/-- The virtual method `move(new_position)`: `ObjectInstance::move` for a plain
node, `LightObject::move` for a light-bearing one. -/
def move [Field α] (new_position : Vec3 α) : SceneNode α → SceneNode α
  | mk .plain g m _ cs => mk .plain g (glmTranslate 1 new_position * linearPart m) new_position cs
  | mk (.light l d) g m _ cs =>
    if l.type = .LIGHT_POINT ∨ l.type = .LIGHT_SPOTLIGHT then
      mk (.light l d) g (glmTranslate 1 new_position * linearPart m) new_position cs
    else
      mk (.light l d) g m new_position cs

/-- The virtual method `move(new_position, new_direction)`:
`ObjectInstance::move` calls `move(new_position)`, `LightObject::move` first
stores the direction. -/
def moveWithDirection [Field α] (new_position new_direction : Vec3 α) :
    SceneNode α → SceneNode α
  | mk .plain g m p cs => move new_position (mk .plain g m p cs)
  | mk (.light l _) g m p cs => move new_position (mk (.light l new_direction) g m p cs)

/-- The geometry draw at the end of both `draw` methods; reaching through a
null `geometry` is an error. -/
def drawGeometry (camera : Camera α) (geometry : Option Nat) (model : Mat4 α)
    (st : RenderState α) : Except (String × RenderState α) (RenderState α) :=
  match geometry with
  | none => .error ("null geometry", st)
  | some g =>
    .ok { st with log := st.log ++ [.geometry g model camera.view camera.projection] }

/-- The method `LightObject::draw`, given the members of the node. -/
def drawLight (camera : Camera α) (light : Light α) (direction : Vec3 α)
    (geometry : Option Nat) (model : Mat4 α) (position : Vec3 α) (st : RenderState α) :
    Except (String × RenderState α) (RenderState α) :=
  match st.lshader.addLight light position direction with
  | .error (e, sh) => .error (e, { st with lshader := sh })
  | .ok sh =>
    let st1 : RenderState α :=
      { lshader := sh, log := st.log ++ [.light (sh.lightsLoadedNum - 1)] }
    if light.type ≠ .LIGHT_DIRECTIONAL ∧ light.type ≠ .LIGHT_SPOTLIGHT then
      drawGeometry camera geometry model st1
    else .ok st1

mutual
/-- The virtual method `draw(camera)`: `ObjectInstance::draw` for a plain
node, `LightObject::draw` for a light-bearing one. -/
def draw (camera : Camera α) :
    SceneNode α → RenderState α → Except (String × RenderState α) (RenderState α)
  | mk .plain g m _ cs, st =>
    match drawAll camera cs st with
    | .error e => .error e
    | .ok st1 => drawGeometry camera g m st1
  | mk (.light l d) g m p _, st => drawLight camera l d g m p st
/-- The loop of `ObjectInstance::draw` over the children. -/
def drawAll (camera : Camera α) :
    List (SceneNode α) → RenderState α → Except (String × RenderState α) (RenderState α)
  | [], st => .ok st
  | c :: cs, st =>
    match draw camera c st with
    | .error e => .error e
    | .ok st1 => drawAll camera cs st1
end

mutual
/-- The nodes of a subtree: the node itself, then the subtrees of its children
in order. -/
def subtree : SceneNode α → List (SceneNode α)
  | mk k g m p cs => mk k g m p cs :: subtreeAll cs
/-- The nodes of the subtrees of a list of nodes. -/
def subtreeAll : List (SceneNode α) → List (SceneNode α)
  | [] => []
  | c :: cs => subtree c ++ subtreeAll cs
end

/-- The cached position of every node of the subtree is the translation
column of its transform. -/
def PositionCached (n : SceneNode α) : Prop :=
  ∀ m ∈ subtree n, m.position = translationOf m.model

end SceneNode

/-! ## Concrete inputs for evaluation -/

/-- A stand-in for the maths library over `ℚ`, for evaluating the code on
concrete inputs: `inversesqrt` is constantly `1`, so `normalize` is the
identity. -/
def unitGlm : Glm ℚ := { sin := fun _ => 0, cos := fun _ => 1, inversesqrt := fun _ => 1, pi := 3 }

/-- A height function over `ℚ` for evaluating the code: the parabolic ridge
`(x, z) ↦ x * x`. -/
def ridge : ℚ → ℚ → ℚ := fun x _ => x * x

/-- A camera over `ℚ` for evaluating the code: bounded like the dynamic camera
of `main.cpp` (width and length 500, upper limit 80, speed 60), with the given
mode flags, position and direction. -/
def sampleCamera (freeMode locked : Bool) (position direction : Vec3 ℚ) : Camera ℚ :=
  { lastActive := none, angle := 0, farPlane := 150, nearPlane := 1 / 100,
    yaw := 0, pitch := 0, sensitivity := 3 / 2, speed := 60,
    circling := false, point := ⟨0, 0, 0⟩, elevation := 20, radius := 40,
    locked := locked, view := 0, projection := 0,
    widthBoundary := 500, lengthBoundary := 500, upBoundary := 80, downBoundary := ridge,
    freeMode := freeMode, up := ⟨0, 1, 0⟩, direction := direction, position := position }

/-- Particle statics for evaluating the code: geometry initialised, no
particle alive. -/
def readyParticles : ParticleSystem ℚ := { partGeometry := some 0, particles := [] }

/-- The three cameras of `main.cpp` over `ℚ`, none in a mode: camera 0 is the
dynamic, unlocked one; every other index is a locked static camera. -/
def sampleSystem (active : Option Nat) : CameraSystem ℚ :=
  { cameras := fun i =>
      if i = 0 then sampleCamera false false ⟨0, 10, 0⟩ ⟨0, -1, 1⟩
      else sampleCamera false true ⟨20, 20, 20⟩ ⟨-1, -1 / 2, 1⟩
    active := active, cursorHidden := false, motionCallback := false, circleTimers := 0 }

/-- A lighting shader over `ℚ` right after `resetLights`: no light loaded. -/
def emptyShader : LightingShader ℚ :=
  { lightsLoadedNum := 0, uboCount := 0, uboLights := fun _ => none }

/-- A lighting shader over `ℚ` that has `MAX_LIGHT_NUM` lights loaded. -/
def fullShader : LightingShader ℚ :=
  { lightsLoadedNum := 50, uboCount := 50, uboLights := fun _ => none }

/-- The directional light `sunProperties` of `main.cpp`. -/
def sunLight : Light ℚ := .directional ⟨1, 1, 1⟩ ⟨2, 2, 2⟩ ⟨2, 2, 2⟩

/-- The point light `bulbProperties` of `main.cpp`, with the default
attenuation constants of `PointLight`. -/
def bulbLight : Light ℚ := .point ⟨0, 0, 0⟩ ⟨1, 1, 1⟩ ⟨1, 1, 1⟩ 1 (1 / 100) (1 / 200)

/-- A stand-in for the maths library over `ℚ` with `sin` constantly `3 / 5`
and `cos` constantly `4 / 5`, a pair on the unit circle. -/
def pythagoreanGlm : Glm ℚ :=
  { sin := fun _ => 3 / 5, cos := fun _ => 4 / 5, inversesqrt := fun _ => 1, pi := 3 }

/-- The inverse square root on the rational squares: `1 / r` at `r * r` for a
positive rational `r`, and `1` at every other argument. -/
def ratInverseSqrt (q : ℚ) : ℚ :=
  if 0 < q ∧ Rat.sqrt q * Rat.sqrt q = q then (Rat.sqrt q)⁻¹ else 1

/-- A stand-in for the maths library over `ℚ` whose `inversesqrt` is exact on
the rational squares. -/
def exactGlm : Glm ℚ :=
  { sin := fun _ => 0, cos := fun _ => 1, inversesqrt := ratInverseSqrt, pi := 3 }

/-- The dynamic camera of `main.cpp` over `ℚ`, but constructed with width `0`. -/
def zeroWidthCamera : Camera ℚ :=
  Camera.bounded unitGlm (sampleCamera false false ⟨0, 0, 0⟩ ⟨0, 0, 0⟩) ⟨0, 10, 0⟩ ⟨0, -1, 1⟩
    (1 / 100) 150 60 50 0 500 80 ridge

/-! ## Loop lemmas -/

theorem forLoop_zero {σ : Type} (body : Nat → σ → σ) (s : σ) : forLoop 0 body s = s := rfl

theorem forLoop_succ {σ : Type} (n : Nat) (body : Nat → σ → σ) (s : σ) :
    forLoop (n + 1) body s = body n (forLoop n body s) := by
  simp [forLoop, List.range_succ, List.foldl_append]

/-- A component that no iteration changes is the same after the loop. -/
theorem forLoop_proj_eq {σ β : Type} (p : σ → β) (body : Nat → σ → σ)
    (h : ∀ i s, p (body i s) = p s) (n : Nat) (s : σ) :
    p (forLoop n body s) = p s := by
  induction n with
  | zero => rfl
  | succ n ih => rw [forLoop_succ, h, ih]

/-- A list component to which iteration `i` appends `g i` ends up extended by
the blocks `g 0, ..., g (n - 1)` in this order. -/
theorem forLoop_proj_append {σ β : Type} (p : σ → List β) (g : Nat → List β)
    (body : Nat → σ → σ) (h : ∀ i s, p (body i s) = p s ++ g i) (n : Nat) (s : σ) :
    p (forLoop n body s) = p s ++ (List.range n).flatMap g := by
  induction n with
  | zero => simp [forLoop_zero]
  | succ n ih =>
    rw [forLoop_succ, h, ih, List.range_succ, List.flatMap_append]
    simp

/-- A loop whose iteration `i` extends the state by the block `g i`, through
an update `upd` that composes like append, extends it by all blocks. -/
theorem forLoop_upd {σ β : Type} (upd : σ → List β → σ) (g : Nat → List β)
    (body : Nat → σ → σ) (h0 : ∀ s, upd s [] = s)
    (h2 : ∀ s a b, upd (upd s a) b = upd s (a ++ b))
    (h : ∀ i s, body i s = upd s (g i)) (n : Nat) (s : σ) :
    forLoop n body s = upd s ((List.range n).flatMap g) := by
  induction n with
  | zero => simp [forLoop_zero, h0]
  | succ n ih =>
    rw [forLoop_succ, h, ih, h2, List.range_succ, List.flatMap_append]
    simp

/-- The same for a loop that can fail: as long as iteration `i` succeeds on
every state reached from `s`, the loop succeeds and extends `s` by all blocks. -/
theorem forLoop_some_upd {σ β : Type} (upd : σ → List β → σ) (g : Nat → List β)
    (body : Nat → Option σ → Option σ) (h0 : ∀ s, upd s [] = s) (n : Nat) (s : σ)
    (h : ∀ i, i < n → ∀ l, body i (some (upd s l)) = some (upd s (l ++ g i))) :
    forLoop n body (some s) = some (upd s ((List.range n).flatMap g)) := by
  induction n with
  | zero => simp [forLoop_zero, h0]
  | succ n ih =>
    rw [forLoop_succ, ih (fun i hi l => h i (Nat.lt_succ_of_lt hi) l), h n (Nat.lt_succ_self n),
      List.range_succ, List.flatMap_append]
    simp

/-- Length of a concatenation of `n` blocks of equal length `r`. -/
theorem length_flatMap_range {β : Type} (row : Nat → List β) (r : Nat) (n : Nat)
    (hrow : ∀ i, i < n → (row i).length = r) :
    ((List.range n).flatMap row).length = n * r := by
  induction n with
  | zero => simp
  | succ n ih =>
    rw [List.range_succ, List.flatMap_append, List.length_append,
      ih (fun i hi => hrow i (Nat.lt_succ_of_lt hi))]
    simp [hrow n (Nat.lt_succ_self n), Nat.succ_mul]

/-- Entry `k` of block `i` sits at position `i * r + k` of the concatenation. -/
theorem getElem?_flatMap_range {β : Type} (row : Nat → List β) (r : Nat) (n : Nat)
    (hrow : ∀ i, i < n → (row i).length = r) (i k : Nat) (hi : i < n) (hk : k < r) :
    ((List.range n).flatMap row)[i * r + k]? = (row i)[k]? := by
  induction n with
  | zero => omega
  | succ n ih =>
    rw [List.range_succ, List.flatMap_append]
    have hrow' : ∀ i, i < n → (row i).length = r := fun i hi => hrow i (Nat.lt_succ_of_lt hi)
    have hlen := length_flatMap_range row r n hrow'
    rcases Nat.lt_succ_iff_lt_or_eq.mp hi with hlt | heq
    · have hpos : i * r + k < ((List.range n).flatMap row).length := by
        rw [hlen]
        calc i * r + k < i * r + r := by omega
          _ = (i + 1) * r := by ring
          _ ≤ n * r := Nat.mul_le_mul_right r hlt
      rw [List.getElem?_append_left hpos]
      exact ih hrow' hlt
    · subst heq
      have hge : ((List.range i).flatMap row).length ≤ i * r + k := by
        rw [hlen]; omega
      rw [List.getElem?_append_right hge, hlen]
      simp

/-- Block `i` is the run of `r` entries starting at position `i * r`. -/
theorem take_drop_flatMap_range {β : Type} (row : Nat → List β) (r : Nat) (n : Nat)
    (hrow : ∀ i, i < n → (row i).length = r) (i : Nat) (hi : i < n) :
    (((List.range n).flatMap row).drop (i * r)).take r = row i := by
  apply List.ext_getElem?
  intro k
  rw [List.getElem?_take, List.getElem?_drop]
  by_cases hk : k < r
  · rw [if_pos hk]
    exact getElem?_flatMap_range row r n hrow i k hi hk
  · rw [if_neg hk, List.getElem?_eq_none]
    rw [hrow i hi]
    omega

/-! ## Terrain: what the loops of `generate` build -/

namespace TerrainMesh

variable {α : Type}

section
variable [Field α]

theorem fillVertices_eq (perlin : α → α → α) (m : TerrainMesh α) :
    fillVertices perlin m =
      { m with vertices := m.vertices ++ (List.range m.height).flatMap fun i =>
          (List.range m.width).flatMap fun j => [vertexAt perlin m.width m.height i j] } := by
  unfold fillVertices
  have upd0 : ∀ s : TerrainMesh α, { s with vertices := s.vertices ++ [] } = s := by
    intro s; cases s; simp
  have upd2 : ∀ (s : TerrainMesh α) (a b : List (Vec3 α)),
      { { s with vertices := s.vertices ++ a } with
          vertices := ({ s with vertices := s.vertices ++ a }).vertices ++ b } =
        { s with vertices := s.vertices ++ (a ++ b) } := by
    intro s a b; simp
  exact forLoop_upd (fun s l => { s with vertices := s.vertices ++ l }) _ _ upd0 upd2
    (fun i s => forLoop_upd (fun s l => { s with vertices := s.vertices ++ l })
      (fun j => [vertexAt perlin m.width m.height i j]) _ upd0 upd2 (fun j s => rfl) m.width s)
    m.height m

end

theorem fillIndices_eq (m : TerrainMesh α) :
    fillIndices m =
      { m with indices := m.indices ++ (List.range (u32Sub m.height 1)).flatMap fun i =>
          (List.range m.width).flatMap fun j =>
            [u32 (i * m.width + j), u32 ((i + 1) * m.width + j)] } := by
  unfold fillIndices
  have upd0 : ∀ s : TerrainMesh α, { s with indices := s.indices ++ [] } = s := by
    intro s; cases s; simp
  have upd2 : ∀ (s : TerrainMesh α) (a b : List Nat),
      { { s with indices := s.indices ++ a } with
          indices := ({ s with indices := s.indices ++ a }).indices ++ b } =
        { s with indices := s.indices ++ (a ++ b) } := by
    intro s a b; simp
  exact forLoop_upd (fun s l => { s with indices := s.indices ++ l })
    (fun i => (List.range m.width).flatMap fun j =>
      [u32 (i * m.width + j), u32 ((i + 1) * m.width + j)]) _ upd0 upd2
    (fun i s => forLoop_upd (fun s l => { s with indices := s.indices ++ l })
      (fun j => [u32 (i * m.width + j), u32 ((i + 1) * m.width + j)]) _ upd0 upd2
      (fun j s => rfl) m.width s)
    _ m

section
variable [Field α]

/-- When every vertex read of the loop "Fill normals" is inside the vertex
vector, the loop succeeds and appends one normal per pair `(i, j)`, row by
row, each computed around the vertex read at `normalLookupIndex`. -/
theorem fillNormals_eq_some (G : Glm α) (perlin : α → α → α) (m : TerrainMesh α)
    (hflag : hasFlag m.flags NORMAL_BIT = true)
    (hin : ∀ i j, i < m.height → j < m.width →
      normalLookupIndex m.height i j < m.vertices.length) :
    fillNormals G perlin m =
      some { m with normals := m.normals ++ (List.range m.height).flatMap fun i =>
        (List.range m.width).flatMap fun j =>
          ((m.vertices[normalLookupIndex m.height i j]?).map (normalAt G perlin)).toList } := by
  unfold fillNormals
  rw [if_pos hflag]
  have upd0 : ∀ s : TerrainMesh α, { s with normals := s.normals ++ [] } = s := by
    intro s; cases s; simp
  have inner : ∀ i, i < m.height → ∀ L : List (Vec3 α),
      forLoop m.width (fun j r2 =>
        r2.bind fun m2 =>
          (m2.vertices[normalLookupIndex m.height i j]?).map fun vertex =>
            { m2 with normals := m2.normals ++ [normalAt G perlin vertex] })
        (some { m with normals := m.normals ++ L }) =
      some { m with normals := m.normals ++ (L ++ (List.range m.width).flatMap fun j =>
        ((m.vertices[normalLookupIndex m.height i j]?).map (normalAt G perlin)).toList) } := by
    intro i hi L
    have key := forLoop_some_upd (fun (s : TerrainMesh α) l => { s with normals := s.normals ++ l })
      (fun j => ((m.vertices[normalLookupIndex m.height i j]?).map (normalAt G perlin)).toList)
      (fun j r2 =>
        r2.bind fun m2 =>
          (m2.vertices[normalLookupIndex m.height i j]?).map fun vertex =>
            { m2 with normals := m2.normals ++ [normalAt G perlin vertex] })
      upd0 m.width { m with normals := m.normals ++ L }
      (by
        intro j hj l
        obtain ⟨v, hv⟩ : ∃ v, m.vertices[normalLookupIndex m.height i j]? = some v :=
          ⟨_, List.getElem?_eq_getElem (hin i j hi hj)⟩
        simp [hv])
    rw [key]
    simp
  exact forLoop_some_upd (fun (s : TerrainMesh α) l => { s with normals := s.normals ++ l })
    (fun i => (List.range m.width).flatMap fun j =>
      ((m.vertices[normalLookupIndex m.height i j]?).map (normalAt G perlin)).toList)
    _ upd0 m.height m (fun i hi l => inner i hi l)

/-- Without `NORMAL_BIT` the loop "Fill normals" is skipped. -/
theorem fillNormals_eq_self (G : Glm α) (perlin : α → α → α) (m : TerrainMesh α)
    (hflag : hasFlag m.flags NORMAL_BIT = false) :
    fillNormals G perlin m = some m := by
  unfold fillNormals
  simp [hflag]

/-- The loop "Fill normals", when it succeeds, changes `normals` only. -/
theorem fillNormals_frame (G : Glm α) (perlin : α → α → α) (m m' : TerrainMesh α)
    (h : fillNormals G perlin m = some m') :
    m'.vertices = m.vertices ∧ m'.indices = m.indices ∧ m'.width = m.width ∧
      m'.height = m.height ∧ m'.flags = m.flags ∧ m'.texCoords = m.texCoords := by
  unfold fillNormals at h
  split at h
  · have step : ∀ (n : Nat) (body : Nat → Option (TerrainMesh α) → Option (TerrainMesh α))
        (_ : ∀ i r s', body i r = some s' → ∃ s, r = some s ∧ s'.vertices = s.vertices ∧
          s'.indices = s.indices ∧ s'.width = s.width ∧ s'.height = s.height ∧
          s'.flags = s.flags ∧ s'.texCoords = s.texCoords)
        (r : Option (TerrainMesh α)) (s' : TerrainMesh α),
        forLoop n body r = some s' → ∃ s, r = some s ∧ s'.vertices = s.vertices ∧
          s'.indices = s.indices ∧ s'.width = s.width ∧ s'.height = s.height ∧
          s'.flags = s.flags ∧ s'.texCoords = s.texCoords := by
      intro n body hb
      induction n with
      | zero => intro r s' hr; exact ⟨s', hr, rfl, rfl, rfl, rfl, rfl, rfl⟩
      | succ n ih =>
        intro r s' hr
        rw [forLoop_succ] at hr
        obtain ⟨s1, h1, e1⟩ := hb n _ s' hr
        obtain ⟨s0, h0, e0⟩ := ih r s1 h1
        exact ⟨s0, h0, e1.1.trans e0.1, e1.2.1.trans e0.2.1, e1.2.2.1.trans e0.2.2.1,
          e1.2.2.2.1.trans e0.2.2.2.1, e1.2.2.2.2.1.trans e0.2.2.2.2.1,
          e1.2.2.2.2.2.trans e0.2.2.2.2.2⟩
    obtain ⟨s, hs, e⟩ := step m.height _ (fun i r s' hr => step m.width _ (fun j r2 s2 h2 => by
      cases r2 with
      | none => simp at h2
      | some m2 =>
        simp only [Option.some_bind, Option.map_eq_some'] at h2
        obtain ⟨v, _, hv⟩ := h2
        subst hv
        exact ⟨m2, rfl, rfl, rfl, rfl, rfl, rfl, rfl⟩) r s' hr) (some m) m' h
    cases hs
    exact e
  · cases h
    exact ⟨rfl, rfl, rfl, rfl, rfl, rfl⟩

/-- The loop filling `texCoords` changes `texCoords` only. -/
theorem fillTexCoords_frame (m : TerrainMesh α) :
    (fillTexCoords m).vertices = m.vertices ∧ (fillTexCoords m).indices = m.indices ∧
      (fillTexCoords m).normals = m.normals := by
  unfold fillTexCoords
  split
  · have row : ∀ (v : α) (s : TerrainMesh α),
        (texRow v s).1.vertices = s.vertices ∧ (texRow v s).1.indices = s.indices ∧
          (texRow v s).1.normals = s.normals := by
      intro v s
      unfold texRow
      refine ⟨?_, ?_, ?_⟩
      · apply forLoop_proj_eq (fun t : TerrainMesh α × α => t.1.vertices)
        intro _ _; rfl
      · apply forLoop_proj_eq (fun t : TerrainMesh α × α => t.1.indices)
        intro _ _; rfl
      · apply forLoop_proj_eq (fun t : TerrainMesh α × α => t.1.normals)
        intro _ _; rfl
    refine ⟨?_, ?_, ?_⟩
    · apply forLoop_proj_eq (fun t : TerrainMesh α × α => t.1.vertices)
      intro _ t; exact (row t.2 t.1).1
    · apply forLoop_proj_eq (fun t : TerrainMesh α × α => t.1.indices)
      intro _ t; exact (row t.2 t.1).2.1
    · apply forLoop_proj_eq (fun t : TerrainMesh α × α => t.1.normals)
      intro _ t; exact (row t.2 t.1).2.2
  · exact ⟨rfl, rfl, rfl⟩

/-- What `generate` returns carries the vertices and the indices built by
the first two loops. -/
theorem generate_frame (G : Glm α) (perlin : α → α → α) (m m' : TerrainMesh α)
    (h : generate G perlin m = some m') :
    m'.vertices = (fillIndices (fillVertices perlin m)).vertices ∧
      m'.indices = (fillIndices (fillVertices perlin m)).indices := by
  unfold generate at h
  rw [Option.map_eq_some'] at h
  obtain ⟨m1, h1, rfl⟩ := h
  have f1 := fillNormals_frame G perlin _ m1 h1
  have f2 := fillTexCoords_frame m1
  exact ⟨f2.1.trans f1.1, f2.2.1.trans f1.2.1⟩

/-- The vertex vector after the first two loops, for a fresh mesh. -/
theorem vertices_init (perlin : α → α → α) (W H flags : Nat) :
    (fillIndices (fillVertices perlin (init W H flags))).vertices =
      (List.range H).flatMap fun i =>
        (List.range W).flatMap fun j => [vertexAt perlin W H i j] := by
  simp only [fillIndices_eq, fillVertices_eq, init, List.nil_append]

/-- The index vector after the first two loops, for a fresh mesh. -/
theorem indices_init (perlin : α → α → α) (W H flags : Nat) :
    (fillIndices (fillVertices perlin (init W H flags))).indices =
      (List.range (u32Sub H 1)).flatMap fun i =>
        (List.range W).flatMap fun j => [u32 (i * W + j), u32 ((i + 1) * W + j)] := by
  simp only [fillIndices_eq, fillVertices_eq, init, List.nil_append]

/-- The `unsigned int` expression `height - 1` for a height of at least one. -/
theorem u32Sub_one (H : Nat) (h1 : 1 ≤ H) : u32Sub H 1 = H - 1 := by
  unfold u32Sub
  rw [if_pos h1]

theorem vertices_length_init (perlin : α → α → α) (W H flags : Nat) :
    (fillIndices (fillVertices perlin (init W H flags))).vertices.length = W * H := by
  rw [vertices_init, length_flatMap_range _ W H (fun i _ => by
    rw [length_flatMap_range (fun j => [vertexAt perlin W H i j]) 1 W (fun j _ => rfl)]; simp)]
  exact Nat.mul_comm H W

/-- Position `i * W + j` of the vertex vector holds the vertex of row `i`,
column `j`. -/
theorem vertices_getElem?_init (perlin : α → α → α) (W H flags i j : Nat)
    (hi : i < H) (hj : j < W) :
    (fillIndices (fillVertices perlin (init W H flags))).vertices[i * W + j]? =
      some (vertexAt perlin W H i j) := by
  rw [vertices_init, getElem?_flatMap_range _ W H (fun i _ => by
    rw [length_flatMap_range (fun j => [vertexAt perlin W H i j]) 1 W (fun j _ => rfl)]; simp)
    i j hi hj]
  have h := getElem?_flatMap_range (fun j => [vertexAt perlin W H i j]) 1 W (fun _ _ => rfl)
    j 0 hj Nat.one_pos
  simpa using h

/-- Positions `2 * (i * W + j)` and `2 * (i * W + j) + 1` of the index vector hold
the two `unsigned int` values pushed for row `i`, column `j`. -/
theorem indices_getElem?_init (perlin : α → α → α) (W H flags i j : Nat)
    (hi : i < u32Sub H 1) (hj : j < W) :
    (fillIndices (fillVertices perlin (init W H flags))).indices[2 * (i * W + j)]? =
        some (u32 (i * W + j)) ∧
      (fillIndices (fillVertices perlin (init W H flags))).indices[2 * (i * W + j) + 1]? =
        some (u32 ((i + 1) * W + j)) := by
  rw [indices_init]
  generalize u32Sub H 1 = n at hi ⊢
  have hrow : ∀ i, i < n → ((List.range W).flatMap fun j =>
      [u32 (i * W + j), u32 ((i + 1) * W + j)]).length = W * 2 := fun i _ =>
    length_flatMap_range (fun j => [u32 (i * W + j), u32 ((i + 1) * W + j)]) 2 W
      (fun j _ => rfl)
  have e0 : 2 * (i * W + j) = i * (W * 2) + (j * 2 + 0) := by ring
  have e1 : 2 * (i * W + j) + 1 = i * (W * 2) + (j * 2 + 1) := by ring
  have h0 := getElem?_flatMap_range (fun j => [u32 (i * W + j), u32 ((i + 1) * W + j)]) 2
    W (fun _ _ => rfl) j 0 hj (by decide)
  have h1 := getElem?_flatMap_range (fun j => [u32 (i * W + j), u32 ((i + 1) * W + j)]) 2
    W (fun _ _ => rfl) j 1 hj (by decide)
  constructor
  · rw [e0, getElem?_flatMap_range _ (W * 2) n hrow i (j * 2 + 0) hi (by omega), h0]
    rfl
  · rw [e1, getElem?_flatMap_range _ (W * 2) n hrow i (j * 2 + 1) hi (by omega), h1]
    rfl

theorem indices_length_init (perlin : α → α → α) (W H flags : Nat) :
    (fillIndices (fillVertices perlin (init W H flags))).indices.length =
      u32Sub H 1 * (W * 2) := by
  rw [indices_init]
  exact length_flatMap_range _ (W * 2) _ (fun i _ =>
    length_flatMap_range (fun j => [u32 (i * W + j), u32 ((i + 1) * W + j)]) 2 W
      (fun j _ => rfl))

/-- The dimensions, flags and normals that the loop "Fill normals" starts from. -/
theorem core_fields (perlin : α → α → α) (W H flags : Nat) :
    (fillIndices (fillVertices perlin (init W H flags))).width = W ∧
      (fillIndices (fillVertices perlin (init W H flags))).height = H ∧
      (fillIndices (fillVertices perlin (init W H flags))).flags = flags ∧
      (fillIndices (fillVertices perlin (init W H flags))).normals = [] := by
  simp only [fillIndices_eq, fillVertices_eq, init, and_self]

/-- With `NORMAL_BIT` set and every vertex read in range, `generate` succeeds,
and the normal at position `i * W + j` is computed around the vertex stored at
position `normalLookupIndex H i j`. -/
theorem generate_normals (G : Glm α) (perlin : α → α → α) (W H flags : Nat)
    (hflag : hasFlag flags NORMAL_BIT = true)
    (hin : ∀ i j, i < H → j < W → normalLookupIndex H i j < W * H) :
    ∃ m', generate G perlin (init W H flags) = some m' ∧
      ∀ i j, i < H → j < W →
        m'.normals[i * W + j]? =
          ((fillIndices (fillVertices perlin (init W H flags))).vertices[
            normalLookupIndex H i j]?).map (normalAt G perlin) := by
  obtain ⟨hw, hh, hf, hn⟩ := core_fields perlin W H flags
  have hlen := vertices_length_init perlin W H flags
  have hsome := fillNormals_eq_some G perlin (fillIndices (fillVertices perlin (init W H flags)))
    (by rw [hf]; exact hflag)
    (by rw [hh, hw, hlen]; exact hin)
  rw [hh, hw, hn, List.nil_append] at hsome
  refine ⟨_, by unfold generate; rw [hsome]; rfl, ?_⟩
  intro i j hi hj
  rw [(fillTexCoords_frame _).2.2]
  have hblock : ∀ i j, i < H → j < W →
      (((fillIndices (fillVertices perlin (init W H flags))).vertices[
        normalLookupIndex H i j]?).map (normalAt G perlin)).toList.length = 1 := by
    intro i j hi hj
    have hlt : normalLookupIndex H i j <
        (fillIndices (fillVertices perlin (init W H flags))).vertices.length := by
      rw [hlen]; exact hin i j hi hj
    rw [List.getElem?_eq_getElem hlt]
    rfl
  have hrow : ∀ i, i < H → ((List.range W).flatMap fun j =>
      (((fillIndices (fillVertices perlin (init W H flags))).vertices[
        normalLookupIndex H i j]?).map (normalAt G perlin)).toList).length = W := by
    intro i hi
    rw [length_flatMap_range _ 1 W (fun j hj => hblock i j hi hj)]
    simp
  show (List.flatMap _ _)[i * W + j]? = _
  rw [getElem?_flatMap_range _ W H hrow i j hi hj]
  have h := getElem?_flatMap_range (fun j =>
      (((fillIndices (fillVertices perlin (init W H flags))).vertices[
        normalLookupIndex H i j]?).map (normalAt G perlin)).toList) 1 W
    (fun j hj => hblock i j hi hj) j 0 hj Nat.one_pos
  rw [Nat.mul_one, Nat.add_zero] at h
  rw [h]
  have hlt : normalLookupIndex H i j <
      (fillIndices (fillVertices perlin (init W H flags))).vertices.length := by
    rw [hlen]; exact hin i j hi hj
  beta_reduce
  rw [List.getElem?_eq_getElem hlt]
  rfl

/-- Without `NORMAL_BIT`, `generate` succeeds. -/
theorem generate_some_of_no_normals (G : Glm α) (perlin : α → α → α) (W H flags : Nat)
    (hflag : hasFlag flags NORMAL_BIT = false) :
    ∃ m', generate G perlin (init W H flags) = some m' := by
  have hf := (core_fields perlin W H flags).2.2.1
  have hsome := fillNormals_eq_self G perlin (fillIndices (fillVertices perlin (init W H flags)))
    (by rw [hf]; exact hflag)
  exact ⟨_, by unfold generate; rw [hsome]; rfl⟩

/-- For a mesh at least as wide as it is high, every vertex read of the loop
"Fill normals" is in range. -/
theorem normalLookupIndex_lt (W H i j : Nat) (hWH : H ≤ W) (hi : i < H) (hj : j < W) :
    normalLookupIndex H i j < W * H := by
  unfold normalLookupIndex u32
  have h1 : i * H + j < W * H := by
    calc i * H + j < i * H + W := by omega
      _ ≤ i * W + W := by have := Nat.mul_le_mul_left i hWH; omega
      _ = (i + 1) * W := by ring
      _ ≤ H * W := Nat.mul_le_mul_right W hi
      _ = W * H := Nat.mul_comm H W
  exact lt_of_le_of_lt (Nat.mod_le _ _) h1

/-- The vector handed to `normalize` for a vertex: its `y` component is
`(2 * 0.2) * (2 * 0.2)` whatever the sampled heights are. -/
theorem normalAt_eq (G : Glm α) (perlin : α → α → α) (v : Vec3 α) :
    normalAt G perlin v =
      G.normalize
        ⟨-((perlin (v.x + 2 / 10) v.z - perlin (v.x - 2 / 10) v.z) * (2 * (2 / 10))),
          (2 * (2 / 10)) * (2 * (2 / 10)),
          -((2 * (2 / 10)) * (perlin v.x (v.z + 2 / 10) - perlin v.x (v.z - 2 / 10)))⟩ := by
  unfold normalAt
  simp only [Vec3.sub, Vec3.cross]
  congr 1
  rw [Vec3.mk.injEq]
  refine ⟨?_, ?_, ?_⟩ <;> ring

/-! ## Terrain: the claims -/

/-- C1, as amended: for every width `W` and every height `H ≥ 1`, the vertex and index
loops of `TerrainMesh::generate` leave exactly `W * H` vertices and
`W * 2 * (H - 1)` indices; every mesh that `generate` returns has these
counts, and `generate` does return one whenever normals are disabled or the
mesh is at least as wide as it is high. -/
theorem generate_counts (G : Glm α) (perlin : α → α → α) (W H flags : Nat) (hH : 1 ≤ H) :
    (fillIndices (fillVertices perlin (init W H flags))).vertices.length = W * H ∧
    (fillIndices (fillVertices perlin (init W H flags))).indices.length = W * 2 * (H - 1) ∧
    (∀ m', generate G perlin (init W H flags) = some m' →
      m'.vertices.length = W * H ∧ m'.indices.length = W * 2 * (H - 1)) ∧
    (hasFlag flags NORMAL_BIT = false ∨ H ≤ W →
      ∃ m', generate G perlin (init W H flags) = some m') := by
  have hv := vertices_length_init perlin W H flags
  have hi : (fillIndices (fillVertices perlin (init W H flags))).indices.length =
      W * 2 * (H - 1) := by
    rw [indices_length_init, u32Sub_one H hH]
    exact Nat.mul_comm _ _
  refine ⟨hv, hi, ?_, ?_⟩
  · intro m' hm'
    obtain ⟨e1, e2⟩ := generate_frame G perlin _ m' hm'
    rw [e1, e2]
    exact ⟨hv, hi⟩
  · intro h
    by_cases hflag : hasFlag flags NORMAL_BIT = true
    · rcases h with h | h
      · rw [h] at hflag; cases hflag
      · obtain ⟨m', hm', _⟩ := generate_normals G perlin W H flags hflag
          (fun i j hi hj => normalLookupIndex_lt W H i j h hi hj)
        exact ⟨m', hm'⟩
    · exact generate_some_of_no_normals G perlin W H flags (by simpa using hflag)

/-- C2, as amended: when all `W * H` vertex numbers fit in `unsigned int`
(`W * H ≤ 2 ^ 32`), for every row `i < H - 1` and column `j < W` the index
vector holds `i * W + j` at position `2 * (i * W + j)` and `(i + 1) * W + j` at
position `2 * (i * W + j) + 1`, and the strip of row `i` (the pairs of all its
columns, in order) is the block of `2 * W` indices starting at `2 * W * i`;
this holds after the index loop and in every mesh `generate` returns. -/
theorem indices_layout (G : Glm α) (perlin : α → α → α) (W H flags i j : Nat)
    (hfit : W * H ≤ 2 ^ 32) (hi : i < H - 1) (hj : j < W) :
    ((fillIndices (fillVertices perlin (init W H flags))).indices[2 * (i * W + j)]? =
        some (i * W + j) ∧
      (fillIndices (fillVertices perlin (init W H flags))).indices[2 * (i * W + j) + 1]? =
        some ((i + 1) * W + j) ∧
      ((fillIndices (fillVertices perlin (init W H flags))).indices.drop (2 * W * i)).take
          (2 * W) = (List.range W).flatMap fun j' => [i * W + j', (i + 1) * W + j']) ∧
    ∀ m', generate G perlin (init W H flags) = some m' →
      m'.indices[2 * (i * W + j)]? = some (i * W + j) ∧
        m'.indices[2 * (i * W + j) + 1]? = some ((i + 1) * W + j) ∧
        (m'.indices.drop (2 * W * i)).take (2 * W) =
          (List.range W).flatMap fun j' => [i * W + j', (i + 1) * W + j'] := by
  have hH : 1 ≤ H := by omega
  have hbound : ∀ j', j' < W → (i + 1) * W + j' < 2 ^ 32 := by
    intro j' hj'
    have h2 : (i + 2) * W ≤ H * W := Nat.mul_le_mul_right W (by omega)
    have h3 : (i + 1) * W + j' < (i + 2) * W := by
      have : (i + 2) * W = (i + 1) * W + W := by ring
      omega
    have h4 : H * W = W * H := Nat.mul_comm H W
    omega
  have hbound0 : ∀ j', j' < W → i * W + j' < 2 ^ 32 := by
    intro j' hj'
    have := hbound j' hj'
    have : (i + 1) * W = i * W + W := by ring
    omega
  have hi' : i < u32Sub H 1 := by rw [u32Sub_one H hH]; exact hi
  have key := indices_getElem?_init perlin W H flags i j hi' hj
  have e0 : u32 (i * W + j) = i * W + j := Nat.mod_eq_of_lt (hbound0 j hj)
  have e1 : u32 ((i + 1) * W + j) = (i + 1) * W + j := Nat.mod_eq_of_lt (hbound j hj)
  rw [e0, e1] at key
  have strip : ((fillIndices (fillVertices perlin (init W H flags))).indices.drop
      (2 * W * i)).take (2 * W) =
      (List.range W).flatMap fun j' => [i * W + j', (i + 1) * W + j'] := by
    rw [indices_init]
    have hpos : 2 * W * i = i * (W * 2) := by ring
    rw [hpos, Nat.mul_comm 2 W, take_drop_flatMap_range _ (W * 2) _ (fun k _ =>
      length_flatMap_range (fun j' => [u32 (k * W + j'), u32 ((k + 1) * W + j')]) 2 W
        (fun _ _ => rfl)) i hi']
    apply List.flatMap_congr
    intro j' hj'
    rw [List.mem_range] at hj'
    show [u32 (i * W + j'), u32 ((i + 1) * W + j')] = _
    rw [show u32 (i * W + j') = i * W + j' from Nat.mod_eq_of_lt (hbound0 j' hj'),
      show u32 ((i + 1) * W + j') = (i + 1) * W + j' from Nat.mod_eq_of_lt (hbound j' hj')]
  refine ⟨⟨key.1, key.2, strip⟩, ?_⟩
  intro m' hm'
  rw [(generate_frame G perlin _ m' hm').2]
  exact ⟨key.1, key.2, strip⟩

end

/-- Witness for C1 as amended: the mesh of width 4 and height 3 has 12
vertices and 16 indices. -/
theorem generate_counts_witness :
    1 ≤ 3 ∧
    (fillIndices (fillVertices ridge (init 4 3 6))).vertices.length = 12 ∧
    (fillIndices (fillVertices ridge (init 4 3 6))).indices.length = 16 ∧
    ∃ m', generate unitGlm ridge (init 4 3 6) = some m' ∧
      m'.vertices.length = 12 ∧ m'.indices.length = 16 := by
  obtain ⟨h1, h2, h3, h4⟩ := generate_counts unitGlm ridge 4 3 6 (by decide)
  obtain ⟨m', hm'⟩ := h4 (Or.inr (by decide))
  exact ⟨by decide, h1, h2, m', hm', h3 m' hm'⟩

/-- Counterexample to C1 as stated: for `W = 4`, `H = 3` the mesh that
`generate` returns has 12 vertices and `4 * 2 * (3 - 1) = 16` indices, not 24. -/
theorem index_count_4x3 :
    ∃ m', generate unitGlm ridge (init 4 3 6) = some m' ∧
      m'.vertices.length = 12 ∧ m'.indices.length = 16 ∧ m'.indices.length ≠ 24 := by
  obtain ⟨m', hm', _⟩ := generate_normals unitGlm ridge 4 3 6 (by decide)
    (fun i j hi hj => normalLookupIndex_lt 4 3 i j (by decide) hi hj)
  obtain ⟨e1, e2⟩ := generate_frame unitGlm ridge _ m' hm'
  have hv : m'.vertices.length = 12 := by rw [e1, vertices_length_init]
  have hi : m'.indices.length = 16 := by
    rw [e2, indices_length_init, u32Sub_one 3 (by decide)]
  refine ⟨m', hm', hv, hi, ?_⟩
  rw [hi]
  decide

/-- Counterexample to C2 as stated: for `W = 2 ^ 31`, `H = 3`, row `i = 1`,
column `j = 0`, the value pushed second is `(1 + 1) * 2 ^ 31 + 0` reduced
modulo `2 ^ 32`, which is `0`, not `2 ^ 32`. -/
theorem indices_wrap_around :
    ∃ m', generate unitGlm ridge (init (2 ^ 31) 3 0) = some m' ∧
      m'.indices[2 * (1 * 2 ^ 31 + 0) + 1]? = some 0 ∧
      m'.indices[2 * (1 * 2 ^ 31 + 0) + 1]? ≠ some ((1 + 1) * 2 ^ 31 + 0) := by
  obtain ⟨m', hm'⟩ := generate_some_of_no_normals unitGlm ridge (2 ^ 31) 3 0 (by decide)
  have key := (indices_getElem?_init ridge (2 ^ 31) 3 0 1 0 (by decide) (by norm_num)).2
  have hval : u32 ((1 + 1) * 2 ^ 31 + 0) = 0 := by norm_num [u32]
  rw [hval] at key
  rw [← (generate_frame unitGlm ridge _ m' hm').2] at key
  refine ⟨m', hm', key, ?_⟩
  rw [key]
  norm_num

/-- Witness for C2 as amended: in the mesh of width 4 and height 3, row 1,
column 2. -/
theorem indices_layout_witness :
    4 * 3 ≤ 2 ^ 32 ∧ 1 < 3 - 1 ∧ 2 < 4 ∧
    (fillIndices (fillVertices ridge (init 4 3 6))).indices[2 * (1 * 4 + 2)]? = some 6 ∧
    (fillIndices (fillVertices ridge (init 4 3 6))).indices[2 * (1 * 4 + 2) + 1]? = some 10 ∧
    ((fillIndices (fillVertices ridge (init 4 3 6))).indices.drop (2 * 4 * 1)).take (2 * 4) =
      [4, 8, 5, 9, 6, 10, 7, 11] := by
  obtain ⟨h0, h1, h2⟩ :=
    (indices_layout unitGlm ridge 4 3 6 1 2 (by norm_num) (by decide) (by decide)).1
  exact ⟨by norm_num, by decide, by decide, h0, h1, h2⟩

/-- C4 at the failing input `W = 3`, `H = 2` with normals enabled: every vertex
read is in range, the vertex at position `k = 1 * 3 + 0` is `(-3/2, 9/4, 0)`, yet
the normal at position `k` is computed around `vertices[1 * 2 + 0]`, the vertex
`(1/2, 1/4, -1)` of row 0, column 2, and the two normals differ. -/
theorem normal_reads_other_vertex :
    ∃ m', generate unitGlm ridge (init 3 2 NORMAL_BIT) = some m' ∧
      m'.vertices[1 * 3 + 0]? = some ⟨-3 / 2, 9 / 4, 0⟩ ∧
      m'.normals[1 * 3 + 0]? = some (normalAt unitGlm ridge ⟨1 / 2, 1 / 4, -1⟩) ∧
      normalAt unitGlm ridge ⟨1 / 2, 1 / 4, -1⟩ = ⟨-4 / 25, 4 / 25, 0⟩ ∧
      normalAt unitGlm ridge ⟨-3 / 2, 9 / 4, 0⟩ = ⟨12 / 25, 4 / 25, 0⟩ := by
  obtain ⟨m', hm', hn⟩ := generate_normals unitGlm ridge 3 2 NORMAL_BIT (by decide)
    (fun i j hi hj => normalLookupIndex_lt 3 2 i j (by decide) hi hj)
  have hv := (generate_frame unitGlm ridge _ m' hm').1
  have h3 := vertices_getElem?_init ridge 3 2 NORMAL_BIT 1 0 (by decide) (by decide)
  have h2 := vertices_getElem?_init ridge 3 2 NORMAL_BIT 0 2 (by decide) (by decide)
  have hk := hn 1 0 (by decide) (by decide)
  have hidx : normalLookupIndex 2 1 0 = 0 * 3 + 2 := by decide
  rw [hidx, h2] at hk
  refine ⟨m', hm', ?_, ?_, ?_, ?_⟩
  · rw [hv, h3]
    norm_num [vertexAt, ridge]
  · rw [hk]
    norm_num [vertexAt, ridge]
  · norm_num [normalAt, Glm.normalize, Vec3.scale, Vec3.cross, Vec3.sub, Vec3.dot, unitGlm,
      ridge]
  · norm_num [normalAt, Glm.normalize, Vec3.scale, Vec3.cross, Vec3.sub, Vec3.dot, unitGlm,
      ridge]

end TerrainMesh

/-! ## Binary32 arithmetic: evaluating the rounding -/

/-- A number less than half a unit away from an integer rounds to it. -/
theorem roundHalfEven_eq (q : ℚ) (n : ℤ) (h : |q - n| < 1 / 2) : roundHalfEven q = n := by
  rw [abs_lt] at h
  unfold roundHalfEven
  rcases le_or_lt (n : ℚ) q with hle | hlt
  · have hf : ⌊q⌋ = n := by
      rw [Int.floor_eq_iff]
      constructor
      · exact hle
      · linarith
    rw [hf, if_pos (by linarith)]
  · have hf : ⌊q⌋ = n - 1 := by
      rw [Int.floor_eq_iff]
      push_cast
      constructor <;> linarith
    rw [hf]
    push_cast
    rw [if_neg (by linarith), if_pos (by linarith)]
    ring

/-- The binary32 number nearest to `q`, from the binade `2 ^ e ≤ |q| < 2 ^ (e + 1)`
of `q` and the integer `n` nearest to `q / 2 ^ (e - 23)`. -/
theorem f32_eq (q : ℚ) (e n : ℤ) (he : -126 ≤ e) (hlo : (2 : ℚ) ^ e ≤ |q|)
    (hhi : |q| < (2 : ℚ) ^ (e + 1)) (hn : |q / 2 ^ (e - 23) - n| < 1 / 2) :
    f32 q = n * 2 ^ (e - 23) := by
  have hpos : (0 : ℚ) < |q| := lt_of_lt_of_le (zpow_pos (by norm_num) e) hlo
  have hlog : Int.log 2 |q| = e := by
    apply le_antisymm
    · have := (Int.lt_zpow_iff_log_lt (b := 2) (by norm_num) hpos (x := e + 1)).mp
        (by exact_mod_cast hhi)
      omega
    · exact (Int.zpow_le_iff_le_log (b := 2) (by norm_num) hpos).mp (by exact_mod_cast hlo)
  unfold f32
  rw [hlog, max_eq_left he, roundHalfEven_eq _ n hn]

/-- The rounding of a positive number, from its binade. -/
theorem f32_eq_pos (q : ℚ) (e n : ℤ) (he : -126 ≤ e) (hlo : (2 : ℚ) ^ e ≤ q)
    (hhi : q < (2 : ℚ) ^ (e + 1)) (hn : |q / 2 ^ (e - 23) - n| < 1 / 2) :
    f32 q = n * 2 ^ (e - 23) := by
  have hpos : (0 : ℚ) < q := lt_of_lt_of_le (zpow_pos (by norm_num) e) hlo
  exact f32_eq q e n he (by rw [abs_of_pos hpos]; exact hlo) (by rw [abs_of_pos hpos]; exact hhi)
    hn

/-- The rounding of a negative number, from its binade. -/
theorem f32_eq_neg (q : ℚ) (e n : ℤ) (he : -126 ≤ e) (hlo : (2 : ℚ) ^ e ≤ -q)
    (hhi : -q < (2 : ℚ) ^ (e + 1)) (hn : |q / 2 ^ (e - 23) - n| < 1 / 2) :
    f32 q = n * 2 ^ (e - 23) := by
  have hneg : q < 0 := by
    have := lt_of_lt_of_le (zpow_pos (by norm_num : (0 : ℚ) < 2) e) hlo
    linarith
  exact f32_eq q e n he (by rw [abs_of_neg hneg]; exact hlo) (by rw [abs_of_neg hneg]; exact hhi)
    hn

/-- Zero is a binary32 number. -/
theorem f32_zero : f32 0 = 0 := by
  unfold f32 roundHalfEven
  simp

/-- The constant `0.1f`. -/
theorem f32_tenth : f32 (1 / 10) = 13421773 / 134217728 := by
  rw [f32_eq_pos (1 / 10) (-4) 13421773 (by norm_num) (by norm_num) (by norm_num)
    (by norm_num [abs_lt])]
  norm_num

/-- The constant `0.1f` is a binary32 number. -/
theorem f32_f32_tenth : f32 (13421773 / 134217728) = 13421773 / 134217728 := by
  rw [f32_eq_pos _ (-4) 13421773 (by norm_num) (by norm_num) (by norm_num)
    (by norm_num [abs_lt])]
  norm_num

/-- The constant `0.2f`. -/
theorem f32_fifth : f32 (2 / 10) = 13421773 / 67108864 := by
  rw [f32_eq_pos (2 / 10) (-3) 13421773 (by norm_num) (by norm_num) (by norm_num)
    (by norm_num [abs_lt])]
  norm_num

/-! ## Camera: `rotateView` -/

/-- The clamp built from `glm::min` and `glm::max` is the clamp of the order. -/
theorem glmMax_glmMin_eq {α : Type} [LinearOrder α] (a lo hi : α) : glmMax (glmMin a hi) lo = max (min a hi) lo := by
  unfold glmMax glmMin
  rcases lt_or_le hi a with h | h
  · rw [if_pos h, min_eq_right (le_of_lt h)]
    rcases lt_or_le hi lo with h' | h'
    · rw [if_pos h', max_eq_right (le_of_lt h')]
    · rw [if_neg (not_lt.mpr h'), max_eq_left h']
  · rw [if_neg (not_lt.mpr h), min_eq_left h]
    rcases lt_or_le a lo with h' | h'
    · rw [if_pos h', max_eq_right (le_of_lt h')]
    · rw [if_neg (not_lt.mpr h'), max_eq_left h']

/-- In binary32, too, one `rotateView` call leaves the pitch in `[-90, 90]`. -/
theorem Camera.rotateViewF32_pitch_range (G : Glm ℚ) (c : Camera ℚ) (dyaw dpitch : ℚ) :
    -90 ≤ (c.rotateViewF32 G dyaw dpitch).pitch ∧ (c.rotateViewF32 G dyaw dpitch).pitch ≤ 90 := by
  show -90 ≤ glmMax (glmMin (f32 (c.pitch + dpitch)) 90) (-90) ∧
    glmMax (glmMin (f32 (c.pitch + dpitch)) 90) (-90) ≤ 90
  rw [glmMax_glmMin_eq]
  exact ⟨le_max_right _ _, max_le (min_le_right _ _) (by norm_num)⟩

/-- In binary32 `glm::mod(370, 360)` is `10`. -/
theorem glmModF32_370 : glmModF32 (f32 (350 + 20)) 360 = 10 := by
  have h1 : f32 (350 + 20) = 370 := by
    rw [f32_eq_pos _ 8 12124160 (by norm_num) (by norm_num) (by norm_num)
      (by norm_num [abs_lt])]
    norm_num
  have h2 : f32 (370 / 360) = 8621625 / 8388608 := by
    rw [f32_eq_pos _ 0 8621625 (by norm_num) (by norm_num) (by norm_num)
      (by norm_num [abs_lt])]
    norm_num
  have h3 : ⌊(8621625 / 8388608 : ℚ)⌋ = 1 := by
    rw [Int.floor_eq_iff]
    constructor <;> norm_num
  have h4 : f32 (360 * ((1 : ℤ) : ℚ)) = 360 := by
    rw [f32_eq_pos _ 8 11796480 (by norm_num) (by norm_num) (by norm_num)
      (by norm_num [abs_lt])]
    norm_num
  have h5 : f32 (370 - 360) = 10 := by
    rw [f32_eq_pos _ 3 10485760 (by norm_num) (by norm_num) (by norm_num)
      (by norm_num [abs_lt])]
    norm_num
  unfold glmModF32
  rw [h1, h2, h3, h4, h5]

/-- In binary32 `glm::mod(-2 ^ (-24), 360)` is `360`. -/
theorem glmModF32_small_negative : glmModF32 (f32 (0 + -(1 / 16777216))) 360 = 360 := by
  have h1 : f32 (0 + -(1 / 16777216)) = -(1 / 16777216) := by
    rw [f32_eq_neg _ (-24) (-8388608) (by norm_num) (by norm_num) (by norm_num)
      (by norm_num [abs_lt])]
    norm_num
  have h2 : f32 (-(1 / 16777216) / 360) = -11930465 / 72057594037927936 := by
    rw [f32_eq_neg _ (-33) (-11930465) (by norm_num) (by norm_num) (by norm_num)
      (by norm_num [abs_lt])]
    norm_num
  have h3 : ⌊(-11930465 / 72057594037927936 : ℚ)⌋ = -1 := by
    rw [Int.floor_eq_iff]
    constructor <;> norm_num
  have h4 : f32 (360 * ((-1 : ℤ) : ℚ)) = -360 := by
    rw [f32_eq_neg _ 8 (-11796480) (by norm_num) (by norm_num) (by norm_num)
      (by norm_num [abs_lt])]
    norm_num
  have h5 : f32 (-(1 / 16777216) - -360) = 360 := by
    rw [f32_eq_pos _ 8 11796480 (by norm_num) (by norm_num) (by norm_num)
      (by norm_num [abs_lt])]
    norm_num
  unfold glmModF32
  rw [h1, h2, h3, h4, h5]

section Rotate

variable {α : Type} [LinearOrderedField α] [FloorRing α]

/-- The result of `glm::mod(x, 360)` lies in `[0, 360)`. -/
theorem glmMod_360_range (x : α) : 0 ≤ glmMod x 360 ∧ glmMod x 360 < 360 := by
  unfold glmMod
  have h1 : ((⌊x / 360⌋ : ℤ) : α) ≤ x / 360 := Int.floor_le _
  have h2 : x / 360 < ((⌊x / 360⌋ : ℤ) : α) + 1 := Int.lt_floor_add_one _
  have hx : x = 360 * (x / 360) := by field_simp
  constructor
  · nlinarith
  · nlinarith

namespace Camera

/-- One `rotateView` call leaves yaw in `[0, 360)` and pitch in `[-90, 90]`. -/
theorem rotateView_range (G : Glm α) (c : Camera α) (dyaw dpitch : α) :
    (0 ≤ (rotateView G c dyaw dpitch).yaw ∧ (rotateView G c dyaw dpitch).yaw < 360) ∧
      (-90 ≤ (rotateView G c dyaw dpitch).pitch ∧ (rotateView G c dyaw dpitch).pitch ≤ 90) := by
  refine ⟨glmMod_360_range _, ?_⟩
  show -90 ≤ glmMax (glmMin (c.pitch + dpitch) 90) (-90) ∧
    glmMax (glmMin (c.pitch + dpitch) 90) (-90) ≤ 90
  rw [glmMax_glmMin_eq]
  exact ⟨le_max_right _ _, max_le (min_le_right _ _) (by norm_num)⟩

/-- A sequence of calls ending in at least one call leaves yaw and pitch in
range. -/
theorem rotateViews_range (G : Glm α) (calls : List (α × α)) (c : Camera α) (d : α × α) :
    (0 ≤ (rotateViews G c (calls ++ [d])).yaw ∧ (rotateViews G c (calls ++ [d])).yaw < 360) ∧
      (-90 ≤ (rotateViews G c (calls ++ [d])).pitch ∧
        (rotateViews G c (calls ++ [d])).pitch ≤ 90) := by
  unfold rotateViews
  rw [List.foldl_append]
  exact rotateView_range G _ d.1 d.2

/-- C6, as amended: in exact arithmetic, after `Camera::rotateView` the yaw is
`(yaw + dyaw) - 360 * floor((yaw + dyaw) / 360)`, the floored modulus, and lies
in `[0, 360)`; the pitch is `max (min (pitch + dpitch) 90) (-90)` and lies in
`[-90, 90]`; the same ranges hold after every non-empty sequence of calls, and
after every sequence of calls on a camera that starts with yaw 0 and pitch 0
as the constructors leave it; from yaw 350 a call with `dyaw = 20` gives yaw
10.  In binary32 arithmetic the pitch lies in `[-90, 90]` after every call as
well, and from yaw 350 a call with `dyaw = 20` gives yaw 10. -/
theorem rotateView_yaw_pitch (G : Glm α) (c : Camera α) (dyaw dpitch : α) :
    (rotateView G c dyaw dpitch).yaw =
        (c.yaw + dyaw) - 360 * ((⌊(c.yaw + dyaw) / 360⌋ : ℤ) : α) ∧
    (0 ≤ (rotateView G c dyaw dpitch).yaw ∧ (rotateView G c dyaw dpitch).yaw < 360) ∧
    (rotateView G c dyaw dpitch).pitch = max (min (c.pitch + dpitch) 90) (-90) ∧
    (-90 ≤ (rotateView G c dyaw dpitch).pitch ∧ (rotateView G c dyaw dpitch).pitch ≤ 90) ∧
    (∀ (calls : List (α × α)),
      (0 ≤ (rotateViews G c ((dyaw, dpitch) :: calls)).yaw ∧
        (rotateViews G c ((dyaw, dpitch) :: calls)).yaw < 360) ∧
      (-90 ≤ (rotateViews G c ((dyaw, dpitch) :: calls)).pitch ∧
        (rotateViews G c ((dyaw, dpitch) :: calls)).pitch ≤ 90)) ∧
    (∀ (calls : List (α × α)),
      (0 ≤ (rotateViews G { c with yaw := 0, pitch := 0 } calls).yaw ∧
        (rotateViews G { c with yaw := 0, pitch := 0 } calls).yaw < 360) ∧
      (-90 ≤ (rotateViews G { c with yaw := 0, pitch := 0 } calls).pitch ∧
        (rotateViews G { c with yaw := 0, pitch := 0 } calls).pitch ≤ 90)) ∧
    (rotateView G { c with yaw := 350 } 20 dpitch).yaw = 10 ∧
    (∀ (G1 : Glm ℚ) (c1 : Camera ℚ) (a b : ℚ),
      (-90 ≤ (rotateViewF32 G1 c1 a b).pitch ∧ (rotateViewF32 G1 c1 a b).pitch ≤ 90) ∧
      (rotateViewF32 G1 { c1 with yaw := 350 } 20 b).yaw = 10) := by
  have hr := rotateView_range G c dyaw dpitch
  have hseq : ∀ (c0 : Camera α) (calls : List (α × α)), calls ≠ [] →
      (0 ≤ (rotateViews G c0 calls).yaw ∧ (rotateViews G c0 calls).yaw < 360) ∧
      (-90 ≤ (rotateViews G c0 calls).pitch ∧ (rotateViews G c0 calls).pitch ≤ 90) := by
    intro c0 calls hne
    obtain ⟨front, d, rfl⟩ : ∃ front d, calls = front ++ [d] :=
      ⟨calls.dropLast, calls.getLast hne, (List.dropLast_append_getLast hne).symm⟩
    exact rotateViews_range G front c0 d
  refine ⟨rfl, hr.1, glmMax_glmMin_eq _ _ _, hr.2, ?_, ?_, ?_,
    fun G1 c1 a b => ⟨rotateViewF32_pitch_range G1 c1 a b, glmModF32_370⟩⟩
  · intro calls
    exact hseq c _ (List.cons_ne_nil _ _)
  · intro calls
    rcases calls with _ | ⟨d, rest⟩
    · show (0 ≤ (0 : α) ∧ (0 : α) < 360) ∧ (-90 ≤ (0 : α) ∧ (0 : α) ≤ 90)
      norm_num
    · exact hseq _ _ (List.cons_ne_nil _ _)
  · show glmMod ((350 : α) + 20) 360 = 10
    unfold glmMod
    have hfl : ⌊((350 : α) + 20) / 360⌋ = 1 := by
      rw [Int.floor_eq_iff]
      constructor <;> norm_num
    rw [hfl]
    norm_num

end Camera

end Rotate

/-! ## Camera: boundary check and movement -/

/-- A result of `createParticle` paired with the camera `c` carries `c`. -/
theorem map_createParticle_fst {α : Type} (c c' : Camera α) (position : Vec3 α)
    (ps ps' : ParticleSystem α)
    (h : ((Particle.createParticle "textures/cloud.png" position ps).map
      fun p => (c, p)) = .ok (c', ps')) : c' = c := by
  unfold Particle.createParticle at h
  split at h
  · cases h
  · cases h
    rfl

/-- The node of a particle is located one unit above the position its
constructor is called with. -/
theorem Particle.nodePosition_eq {α : Type} [Field α] (G : Glm α) (p : Particle α) :
    Particle.nodePosition G p = p.origin.add ⟨0, 1, 0⟩ := by
  unfold Particle.nodePosition Particle.model
  generalize p.origin.add ⟨0, 1, 0⟩ = t
  cases t
  simp [translationOf, glmTranslate, glmScale, glmRotate, Matrix.mul_apply, Fin.sum_univ_four]

/-- One unit above a position is another position. -/
theorem Vec3.add_up_ne {α : Type} [Field α] (v : Vec3 α) : v.add ⟨0, 1, 0⟩ ≠ v := by
  intro h
  have hy := congrArg Vec3.y h
  simp [Vec3.add] at hy

section Movement

variable {α : Type} [LinearOrderedField α]

namespace Camera

/-- The boundary check of `checkBoundariesAndMove`, read as a proposition. -/
theorem checkBoundariesAndMove_eq (c : Camera α) (newPos : Vec3 α) (ps : ParticleSystem α) :
    checkBoundariesAndMove c newPos ps =
      if (newPos.x < c.widthBoundary / 2 ∧ newPos.x > -c.widthBoundary / 2) ∧
          (newPos.z < c.lengthBoundary / 2 ∧ newPos.z > -c.lengthBoundary / 2) ∧
          newPos.y < c.upBoundary ∧ newPos.y > c.downBoundary newPos.x newPos.z + 1 / 10 then
        .ok ({ c with position := newPos }, ps)
      else if newPos.y < c.upBoundary then .ok (c, ps)
      else (Particle.createParticle "textures/cloud.png" c.position ps).map fun ps' => (c, ps') := by
  unfold checkBoundariesAndMove
  by_cases h1 : newPos.x < c.widthBoundary / 2 <;>
  by_cases h2 : newPos.x > -c.widthBoundary / 2 <;>
  by_cases h3 : newPos.z < c.lengthBoundary / 2 <;>
  by_cases h4 : newPos.z > -c.lengthBoundary / 2 <;>
  by_cases h5 : newPos.y < c.upBoundary <;>
  by_cases h6 : newPos.y > c.downBoundary newPos.x newPos.z + 1 / 10 <;>
  simp [h1, h2, h3, h4, h5, h6]

/-- The horizontal tests of the source say `|x| < width / 2` and
`|z| < length / 2`. -/
theorem horizontal_iff (w x : α) : (x < w / 2 ∧ x > -w / 2) ↔ |x| < w / 2 := by
  rw [abs_lt, neg_div]
  exact ⟨fun h => ⟨h.2, h.1⟩, fun h => ⟨h.2, h.1⟩⟩

/-- The boundary check in the words of the specification. -/
theorem checkBoundariesAndMove_abs (c : Camera α) (newPos : Vec3 α) (ps : ParticleSystem α) :
    checkBoundariesAndMove c newPos ps =
      if |newPos.x| < c.widthBoundary / 2 ∧ |newPos.z| < c.lengthBoundary / 2 ∧
          newPos.y < c.upBoundary ∧ newPos.y > c.downBoundary newPos.x newPos.z + 1 / 10 then
        .ok ({ c with position := newPos }, ps)
      else if newPos.y < c.upBoundary then .ok (c, ps)
      else (Particle.createParticle "textures/cloud.png" c.position ps).map fun ps' => (c, ps') := by
  rw [checkBoundariesAndMove_eq]
  simp only [horizontal_iff]

/-- The two outcomes of the boundary check: the candidate is taken over when
all four tests pass, and otherwise the camera stays as it was. -/
theorem checkBoundariesAndMove_cases (c : Camera α) (newPos : Vec3 α)
    (ps : ParticleSystem α) :
    ((|newPos.x| < c.widthBoundary / 2 ∧ |newPos.z| < c.lengthBoundary / 2 ∧
        newPos.y < c.upBoundary ∧ newPos.y > c.downBoundary newPos.x newPos.z + 1 / 10) →
      checkBoundariesAndMove c newPos ps = .ok ({ c with position := newPos }, ps)) ∧
    (¬ (|newPos.x| < c.widthBoundary / 2 ∧ |newPos.z| < c.lengthBoundary / 2 ∧
        newPos.y < c.upBoundary ∧ newPos.y > c.downBoundary newPos.x newPos.z + 1 / 10) →
      (checkBoundariesAndMove c newPos ps =
          (if newPos.y < c.upBoundary then .ok (c, ps)
           else (Particle.createParticle "textures/cloud.png" c.position ps).map
             fun ps' => (c, ps'))) ∧
        ∀ c' ps', checkBoundariesAndMove c newPos ps = .ok (c', ps') → c' = c) := by
  constructor
  · intro h
    rw [checkBoundariesAndMove_abs, if_pos h]
  · intro h
    have e := checkBoundariesAndMove_abs c newPos ps
    rw [if_neg h] at e
    refine ⟨e, ?_⟩
    intro c' ps' hok
    rw [e] at hok
    split at hok
    · cases hok
      rfl
    · exact Succuland.map_createParticle_fst c c' _ ps ps' hok

end Camera

namespace Move

/-- Each movement method is its guard followed by the boundary check on its
candidate. -/
theorem run_eq (G : Glm α) (refreshRate : Int) (c : Camera α) (ps : ParticleSystem α)
    (mv : Move) :
    mv.run G refreshRate c ps =
      if (c.freeMode && !c.locked) = true then
        Camera.checkBoundariesAndMove c (mv.candidate G refreshRate c) ps
      else .ok (c, ps) := by
  cases mv <;> rfl

/-- C8, as amended: for a Free-mode, unlocked camera with the particle geometry
initialised, each of the four movement methods whose candidate position has
`y` above the upper limit returns the camera unchanged and appends exactly one
particle, constructed from the camera's current position; the node of that
particle is located one unit above the camera, at `position + (0, 1, 0)`, not
at the camera's position. -/
theorem run_above_ceiling (G : Glm α) (refreshRate : Int) (c : Camera α)
    (ps : ParticleSystem α) (mv : Move) (g : Nat)
    (hfree : c.freeMode = true) (hunlocked : c.locked = false)
    (hgeom : ps.partGeometry = some g)
    (habove : (mv.candidate G refreshRate c).y > c.upBoundary) :
    mv.run G refreshRate c ps =
      .ok (c, { ps with particles :=
        ps.particles ++ [⟨"textures/cloud.png", 1000, c.position⟩] }) ∧
    Particle.nodePosition G ⟨"textures/cloud.png", 1000, c.position⟩ =
      c.position.add ⟨0, 1, 0⟩ ∧
    Particle.nodePosition G ⟨"textures/cloud.png", 1000, c.position⟩ ≠ c.position := by
  have hnot : ¬ (mv.candidate G refreshRate c).y < c.upBoundary := not_lt.mpr (le_of_lt habove)
  refine ⟨?_, Particle.nodePosition_eq G _, ?_⟩
  · rw [run_eq, Camera.checkBoundariesAndMove_eq, hfree, hunlocked]
    simp [hnot, Particle.createParticle, hgeom]
    rfl
  · rw [Particle.nodePosition_eq]
    exact Vec3.add_up_ne c.position

/-- C9, as amended: a move whose candidate lies outside the horizontal extent
never changes the camera; it leaves the particles alone when the candidate's
`y` is below the upper limit, and, for a Free-mode unlocked camera with the
particle geometry initialised, it spawns one particle when the candidate's
`y` is not below the upper limit. -/
theorem run_outside_horizontal (G : Glm α) (refreshRate : Int) (c : Camera α)
    (ps : ParticleSystem α) (mv : Move)
    (hout : ¬ |(mv.candidate G refreshRate c).x| < c.widthBoundary / 2 ∨
      ¬ |(mv.candidate G refreshRate c).z| < c.lengthBoundary / 2) :
    (∀ c' ps', mv.run G refreshRate c ps = .ok (c', ps') → c' = c) ∧
    ((mv.candidate G refreshRate c).y < c.upBoundary →
      mv.run G refreshRate c ps = .ok (c, ps)) ∧
    (∀ g, c.freeMode = true → c.locked = false → ps.partGeometry = some g →
      ¬ (mv.candidate G refreshRate c).y < c.upBoundary →
      mv.run G refreshRate c ps =
        .ok (c, { ps with particles :=
          ps.particles ++ [⟨"textures/cloud.png", 1000, c.position⟩] })) := by
  have hnot : ¬ (|(mv.candidate G refreshRate c).x| < c.widthBoundary / 2 ∧
      |(mv.candidate G refreshRate c).z| < c.lengthBoundary / 2 ∧
      (mv.candidate G refreshRate c).y < c.upBoundary ∧
      (mv.candidate G refreshRate c).y >
        c.downBoundary (mv.candidate G refreshRate c).x (mv.candidate G refreshRate c).z +
          1 / 10) := by
    rintro ⟨hx, hz, _, _⟩
    rcases hout with h | h
    · exact h hx
    · exact h hz
  obtain ⟨e, hcam⟩ :=
    (Camera.checkBoundariesAndMove_cases c (mv.candidate G refreshRate c) ps).2 hnot
  refine ⟨?_, ?_, ?_⟩
  · intro c' ps' hok
    rw [run_eq] at hok
    split at hok
    · exact hcam c' ps' hok
    · cases hok
      rfl
  · intro hy
    rw [run_eq, e, if_pos hy]
    split <;> rfl
  · intro g hfree hunlocked hgeom hy
    rw [run_eq, e, if_neg hy, hfree, hunlocked]
    simp [Particle.createParticle, hgeom]
    rfl

/-- C10: for a camera that is not in Free mode or that is Locked, each of the
four movement methods returns the camera and the particle statics unchanged. -/
theorem run_of_not_free_or_locked (G : Glm α) (refreshRate : Int) (c : Camera α)
    (ps : ParticleSystem α) (mv : Move) (h : c.freeMode = false ∨ c.locked = true) :
    mv.run G refreshRate c ps = .ok (c, ps) := by
  rw [run_eq]
  rcases h with h | h <;> simp [h]

end Move

end Movement

/-! ## Camera: the boundary check in binary32 -/

namespace Camera

/-- The boundary check of `checkBoundariesAndMove` in binary32, read as a
proposition. -/
theorem checkBoundariesAndMoveF32_eq (c : Camera ℚ) (newPos : Vec3 ℚ) (ps : ParticleSystem ℚ) :
    checkBoundariesAndMoveF32 c newPos ps =
      if (newPos.x < f32 (c.widthBoundary / 2) ∧ newPos.x > f32 (-c.widthBoundary / 2)) ∧
          (newPos.z < f32 (c.lengthBoundary / 2) ∧ newPos.z > f32 (-c.lengthBoundary / 2)) ∧
          newPos.y < c.upBoundary ∧
          newPos.y > f32 (c.downBoundary newPos.x newPos.z + f32 (1 / 10)) then
        .ok ({ c with position := newPos }, ps)
      else if newPos.y < c.upBoundary then .ok (c, ps)
      else (Particle.createParticle "textures/cloud.png" c.position ps).map
        fun ps' => (c, ps') := by
  unfold checkBoundariesAndMoveF32
  by_cases h1 : newPos.x < f32 (c.widthBoundary / 2) <;>
  by_cases h2 : newPos.x > f32 (-c.widthBoundary / 2) <;>
  by_cases h3 : newPos.z < f32 (c.lengthBoundary / 2) <;>
  by_cases h4 : newPos.z > f32 (-c.lengthBoundary / 2) <;>
  by_cases h5 : newPos.y < c.upBoundary <;>
  by_cases h6 : newPos.y > f32 (c.downBoundary newPos.x newPos.z + f32 (1 / 10)) <;>
  simp [h1, h2, h3, h4, h5, h6]

/-- C7, as amended: in binary32, `checkBoundariesAndMove` with candidate
`newPos` sets the position to `newPos`, changing nothing else, exactly when
`x < width / 2`, `x > -width / 2`, `z < length / 2`, `z > -length / 2`,
`y < upperLimit` and `y > sample(x, z) + 0.1f` all hold, where the halves and
the sum are rounded to binary32 and `0.1f` is `13421773 / 134217728`, which is
above `0.1`; in every other case the camera is unchanged: the call returns the
camera as it was, together with the particle statics (unchanged when
`y < upperLimit`, after `createParticle` otherwise), or throws out of
`createParticle`. -/
theorem checkBoundariesAndMoveF32_spec (c : Camera ℚ) (newPos : Vec3 ℚ)
    (ps : ParticleSystem ℚ) :
    (((newPos.x < f32 (c.widthBoundary / 2) ∧ newPos.x > f32 (-c.widthBoundary / 2)) ∧
        (newPos.z < f32 (c.lengthBoundary / 2) ∧ newPos.z > f32 (-c.lengthBoundary / 2)) ∧
        newPos.y < c.upBoundary ∧
        newPos.y > f32 (c.downBoundary newPos.x newPos.z + f32 (1 / 10))) →
      checkBoundariesAndMoveF32 c newPos ps = .ok ({ c with position := newPos }, ps)) ∧
    (¬ ((newPos.x < f32 (c.widthBoundary / 2) ∧ newPos.x > f32 (-c.widthBoundary / 2)) ∧
        (newPos.z < f32 (c.lengthBoundary / 2) ∧ newPos.z > f32 (-c.lengthBoundary / 2)) ∧
        newPos.y < c.upBoundary ∧
        newPos.y > f32 (c.downBoundary newPos.x newPos.z + f32 (1 / 10))) →
      (checkBoundariesAndMoveF32 c newPos ps =
          (if newPos.y < c.upBoundary then .ok (c, ps)
           else (Particle.createParticle "textures/cloud.png" c.position ps).map
             fun ps' => (c, ps'))) ∧
        ∀ c' ps', checkBoundariesAndMoveF32 c newPos ps = .ok (c', ps') → c' = c) ∧
    (f32 (1 / 10) = 13421773 / 134217728 ∧ (1 / 10 : ℚ) < f32 (1 / 10)) := by
  refine ⟨?_, ?_, f32_tenth, by rw [f32_tenth]; norm_num⟩
  · intro h
    rw [checkBoundariesAndMoveF32_eq, if_pos h]
  · intro h
    have e := checkBoundariesAndMoveF32_eq c newPos ps
    rw [if_neg h] at e
    refine ⟨e, ?_⟩
    intro c' ps' hok
    rw [e] at hok
    split at hok
    · cases hok
      rfl
    · exact Succuland.map_createParticle_fst c c' _ ps ps' hok

end Camera

/-! ## Camera: evaluation on concrete inputs -/

/-- Counterexample to C6 as stated: in binary32, from yaw `0` the call
`rotateView(-2 ^ (-24), 0)` leaves yaw `360`, outside `[0, 360)`: the quotient
rounds to a small negative number, its floor is `-1`, and `-2 ^ (-24) + 360`
rounds to `360`. -/
theorem rotateViewF32_yaw_360 :
    (sampleCamera true false ⟨0, 10, 0⟩ ⟨0, 0, 1⟩).yaw = 0 ∧
    ((sampleCamera true false ⟨0, 10, 0⟩ ⟨0, 0, 1⟩).rotateViewF32 unitGlm
      (-(1 / 16777216)) 0).yaw = 360 ∧
    ¬ ((sampleCamera true false ⟨0, 10, 0⟩ ⟨0, 0, 1⟩).rotateViewF32 unitGlm
      (-(1 / 16777216)) 0).yaw < 360 := by
  have h : ((sampleCamera true false ⟨0, 10, 0⟩ ⟨0, 0, 1⟩).rotateViewF32 unitGlm
      (-(1 / 16777216)) 0).yaw = 360 := glmModF32_small_negative
  exact ⟨rfl, h, by rw [h]; exact lt_irrefl _⟩


/-- Counterexample to C7 as stated: the candidate `(0, 0.1f, 0)` over height `0`
passes the four tests of the claim (`0.1f > 0 + 0.1`), but the code compares
with the binary32 sum `0 + 0.1f = 0.1f` and leaves the camera where it is. -/
theorem candidate_at_margin_refused :
    (|(0 : ℚ)| < 500 / 2 ∧ |(0 : ℚ)| < 500 / 2 ∧ f32 (1 / 10) < 80 ∧
      f32 (1 / 10) > ridge 0 0 + 1 / 10) ∧
    Camera.checkBoundariesAndMoveF32 (sampleCamera true false ⟨0, 10, 0⟩ ⟨0, 0, 1⟩)
        ⟨0, f32 (1 / 10), 0⟩ readyParticles =
      .ok (sampleCamera true false ⟨0, 10, 0⟩ ⟨0, 0, 1⟩, readyParticles) := by
  constructor
  · rw [f32_tenth]
    norm_num [ridge]
  · rw [Camera.checkBoundariesAndMoveF32_eq]
    have hsum : f32 (ridge 0 0 + 13421773 / 134217728) = 13421773 / 134217728 := by
      norm_num [ridge]
      exact f32_f32_tenth
    simp only [sampleCamera, f32_tenth, hsum]
    norm_num

/-- Witness for C7 as amended: a candidate inside all limits is taken over, and
nothing else changes. -/
theorem checkBoundariesAndMoveF32_spec_witness :
    Camera.checkBoundariesAndMoveF32 (sampleCamera true false ⟨0, 10, 0⟩ ⟨0, 0, 1⟩) ⟨1, 10, 1⟩
        readyParticles =
      .ok ({ sampleCamera true false ⟨0, 10, 0⟩ ⟨0, 0, 1⟩ with position := ⟨1, 10, 1⟩ },
        readyParticles) := by
  have hw : f32 ((500 : ℚ) / 2) = 250 := by
    rw [f32_eq_pos _ 7 16384000 (by norm_num) (by norm_num) (by norm_num)
      (by norm_num [abs_lt])]
    norm_num
  have hn : f32 (-(500 : ℚ) / 2) = -250 := by
    rw [f32_eq_neg _ 7 (-16384000) (by norm_num) (by norm_num) (by norm_num)
      (by norm_num [abs_lt])]
    norm_num
  have hd : f32 (ridge 1 1 + f32 (1 / 10)) = 9227469 / 8388608 := by
    rw [f32_tenth, f32_eq_pos _ 0 9227469 (by norm_num) (by norm_num [ridge])
      (by norm_num [ridge]) (by norm_num [abs_lt, ridge])]
    norm_num
  refine (Camera.checkBoundariesAndMoveF32_spec (sampleCamera true false ⟨0, 10, 0⟩ ⟨0, 0, 1⟩)
    ⟨1, 10, 1⟩ readyParticles).1 ?_
  simp only [sampleCamera, hw, hn, hd]
  norm_num

/-- Witness for C8 as amended: a free camera half a unit under the ceiling,
facing up, steps to `y = 80.5 > 80`: it stays where it is and one cloud
particle is created, with its node one unit above the camera. -/
theorem run_above_ceiling_witness :
    (Move.forward.candidate unitGlm 60 (sampleCamera true false ⟨0, 159 / 2, 0⟩ ⟨0, 1, 0⟩)).y >
        (sampleCamera true false ⟨0, 159 / 2, 0⟩ ⟨0, 1, 0⟩).upBoundary ∧
    Move.forward.run unitGlm 60 (sampleCamera true false ⟨0, 159 / 2, 0⟩ ⟨0, 1, 0⟩)
        readyParticles =
      .ok (sampleCamera true false ⟨0, 159 / 2, 0⟩ ⟨0, 1, 0⟩,
        { readyParticles with particles :=
          readyParticles.particles ++ [⟨"textures/cloud.png", 1000, ⟨0, 159 / 2, 0⟩⟩] }) ∧
    Particle.nodePosition unitGlm ⟨"textures/cloud.png", 1000, ⟨0, 159 / 2, 0⟩⟩ =
      (⟨0, 159 / 2, 0⟩ : Vec3 ℚ).add ⟨0, 1, 0⟩ := by
  have h : (Move.forward.candidate unitGlm 60
      (sampleCamera true false ⟨0, 159 / 2, 0⟩ ⟨0, 1, 0⟩)).y >
      (sampleCamera true false ⟨0, 159 / 2, 0⟩ ⟨0, 1, 0⟩).upBoundary := by
    norm_num [Move.candidate, Camera.forwardCandidate, Glm.normalize, Vec3.add, Vec3.scale,
      Vec3.dot, sampleCamera, unitGlm]
  obtain ⟨h1, h2, _⟩ := Move.run_above_ceiling unitGlm 60
    (sampleCamera true false ⟨0, 159 / 2, 0⟩ ⟨0, 1, 0⟩) readyParticles Move.forward 0 rfl rfl
    rfl h
  exact ⟨h, h1, h2⟩

/-- Counterexample to C8 as stated: a free camera at `(0, 79.5, 0)`, facing up,
steps to `y = 80.5 > 80`; it stays where it is, and the one particle that is
created has its node at `(0, 80.5, 0)`, not at the camera's position. -/
theorem particle_above_camera :
    (sampleCamera true false ⟨0, 159 / 2, 0⟩ ⟨0, 1, 0⟩).position = ⟨0, 159 / 2, 0⟩ ∧
    Move.forward.run unitGlm 60 (sampleCamera true false ⟨0, 159 / 2, 0⟩ ⟨0, 1, 0⟩)
        readyParticles =
      .ok (sampleCamera true false ⟨0, 159 / 2, 0⟩ ⟨0, 1, 0⟩,
        { partGeometry := some 0,
          particles := [⟨"textures/cloud.png", 1000, ⟨0, 159 / 2, 0⟩⟩] }) ∧
    Particle.nodePosition unitGlm ⟨"textures/cloud.png", 1000, ⟨0, 159 / 2, 0⟩⟩ =
      ⟨0, 161 / 2, 0⟩ := by
  refine ⟨rfl, ?_, ?_⟩
  · rw [Move.run_eq, Camera.checkBoundariesAndMove_eq]
    norm_num [Move.candidate, Camera.forwardCandidate, Glm.normalize, Vec3.add, Vec3.scale,
      Vec3.dot, sampleCamera, unitGlm, Particle.createParticle, readyParticles]
    rfl
  · rw [Particle.nodePosition_eq]
    norm_num [Vec3.add]

/-- Counterexample to C9 as stated: a free camera at `(249.5, 79.5, 0)` facing
`(1, 1, 0)` steps to `(250.5, 80.5, 0)`, outside the horizontal extent
(`|x| ≥ 250`); the move is rejected and one cloud particle is created, not
zero. -/
theorem spawn_outside_horizontal :
    ¬ |(Move.forward.candidate unitGlm 60
        (sampleCamera true false ⟨499 / 2, 159 / 2, 0⟩ ⟨1, 1, 0⟩)).x| <
      (sampleCamera true false ⟨499 / 2, 159 / 2, 0⟩ ⟨1, 1, 0⟩).widthBoundary / 2 ∧
    Move.forward.run unitGlm 60 (sampleCamera true false ⟨499 / 2, 159 / 2, 0⟩ ⟨1, 1, 0⟩)
        readyParticles =
      .ok (sampleCamera true false ⟨499 / 2, 159 / 2, 0⟩ ⟨1, 1, 0⟩,
        { partGeometry := some 0,
          particles := [⟨"textures/cloud.png", 1000, ⟨499 / 2, 159 / 2, 0⟩⟩] }) := by
  constructor
  · norm_num [Move.candidate, Camera.forwardCandidate, Glm.normalize, Vec3.add, Vec3.scale,
      Vec3.dot, sampleCamera, unitGlm, abs_lt]
  · rw [Move.run_eq, Camera.checkBoundariesAndMove_eq]
    norm_num [Move.candidate, Camera.forwardCandidate, Glm.normalize, Vec3.add, Vec3.scale,
      Vec3.dot, sampleCamera, unitGlm, Particle.createParticle, readyParticles]
    rfl

/-- Witness for C9 as amended: a free camera at `(249.5, 10, 0)` facing
`(1, 0, 0)` steps to `(250.5, 10, 0)`, outside the horizontal extent and below
the ceiling: nothing changes. -/
theorem run_outside_horizontal_witness :
    ¬ |(Move.forward.candidate unitGlm 60
        (sampleCamera true false ⟨499 / 2, 10, 0⟩ ⟨1, 0, 0⟩)).x| <
      (sampleCamera true false ⟨499 / 2, 10, 0⟩ ⟨1, 0, 0⟩).widthBoundary / 2 ∧
    Move.forward.run unitGlm 60 (sampleCamera true false ⟨499 / 2, 10, 0⟩ ⟨1, 0, 0⟩)
        readyParticles =
      .ok (sampleCamera true false ⟨499 / 2, 10, 0⟩ ⟨1, 0, 0⟩, readyParticles) := by
  have h : ¬ |(Move.forward.candidate unitGlm 60
      (sampleCamera true false ⟨499 / 2, 10, 0⟩ ⟨1, 0, 0⟩)).x| <
      (sampleCamera true false ⟨499 / 2, 10, 0⟩ ⟨1, 0, 0⟩).widthBoundary / 2 := by
    norm_num [Move.candidate, Camera.forwardCandidate, Glm.normalize, Vec3.add, Vec3.scale,
      Vec3.dot, sampleCamera, unitGlm, abs_lt]
  have hy : (Move.forward.candidate unitGlm 60
      (sampleCamera true false ⟨499 / 2, 10, 0⟩ ⟨1, 0, 0⟩)).y <
      (sampleCamera true false ⟨499 / 2, 10, 0⟩ ⟨1, 0, 0⟩).upBoundary := by
    norm_num [Move.candidate, Camera.forwardCandidate, Glm.normalize, Vec3.add, Vec3.scale,
      Vec3.dot, sampleCamera, unitGlm]
  exact ⟨h, (Move.run_outside_horizontal unitGlm 60 _ readyParticles Move.forward
    (Or.inl h)).2.1 hy⟩

/-- Witness for C10: a locked camera that is not in Free mode ignores
`moveLeft`. -/
theorem run_of_not_free_or_locked_witness :
    ((sampleCamera false true ⟨0, 20, 0⟩ ⟨0, 0, 1⟩).freeMode = false ∨
      (sampleCamera false true ⟨0, 20, 0⟩ ⟨0, 0, 1⟩).locked = true) ∧
    Move.left.run unitGlm 60 (sampleCamera false true ⟨0, 20, 0⟩ ⟨0, 0, 1⟩) readyParticles =
      .ok (sampleCamera false true ⟨0, 20, 0⟩ ⟨0, 0, 1⟩, readyParticles) :=
  ⟨Or.inl rfl, Move.run_of_not_free_or_locked unitGlm 60 _ readyParticles Move.left
    (Or.inl rfl)⟩

/-! ## Cameras and modes: `makeActive`, `toggleFreeMode`, `toggleCircling` -/

namespace CameraSystem

variable {α : Type}

/-- The equation of the source for `makeActive`, with the toggles themselves. -/
theorem makeActive_unfold (x : Nat) (s : CameraSystem α) :
    makeActive x s =
      match s.active with
      | none => some { s with active := some x }
      | some a =>
        (if (s.cameras a).freeMode = true then toggleFreeMode a s else some s).bind fun s1 =>
          match s1.active with
          | none => none
          | some a1 =>
            (if (s1.cameras a1).circling = true then toggleCircling a1 s1
              else some s1).map fun s2 => { s2 with active := some x } := by
  unfold makeActive
  cases hact : s.active with
  | none => rfl
  | some a =>
    simp only []
    have h1 : (if (s.cameras a).freeMode = true then toggleFreeModeWith (fun _ _ => none) a s
        else some s) =
        (if (s.cameras a).freeMode = true then toggleFreeMode a s else some s) := by
      by_cases hf : (s.cameras a).freeMode = true
      · simp [hf, toggleFreeMode, toggleFreeModeWith]
      · simp [hf]
    rw [h1]
    congr 1
    funext s1
    cases s1.active with
    | none => rfl
    | some a1 =>
      simp only []
      by_cases hc : (s1.cameras a1).circling = true
      · simp [hc, toggleCircling, toggleCirclingWith]
      · simp [hc]

/-- Clearing two flags that are already clear changes nothing. -/
theorem camera_clear_eq (c : Camera α) (hf : c.freeMode = false) (hc : c.circling = false) :
    { c with freeMode := false, circling := false } = c := by
  cases c
  simp_all

/-- Under the mode discipline every camera but the active one has both flags
clear. -/
theorem ModeInvariant.off_of_ne (s : CameraSystem α) (h : ModeInvariant s) (y : Nat)
    (hy : s.active ≠ some y) :
    (s.cameras y).freeMode = false ∧ (s.cameras y).circling = false := by
  by_contra hcon
  have hon : (s.cameras y).freeMode = true ∨ (s.cameras y).circling = true := by
    by_contra hoff
    apply hcon
    constructor
    · cases hfm : (s.cameras y).freeMode with
      | false => rfl
      | true => exact absurd (Or.inl hfm) hoff
    · cases hcm : (s.cameras y).circling with
      | false => rfl
      | true => exact absurd (Or.inr hcm) hoff
  exact hy (h y hon).1

/-- Under the mode discipline `makeActive` succeeds, makes `x` the active
camera, and leaves every camera as it was except that both mode flags are
clear. -/
theorem makeActive_of_invariant (x : Nat) (s : CameraSystem α) (h : ModeInvariant s) :
    ∃ s', makeActive x s = some s' ∧ s'.active = some x ∧
      (∀ y, s'.cameras y = { s.cameras y with freeMode := false, circling := false }) ∧
      s'.circleTimers = s.circleTimers := by
  unfold makeActive
  cases hact : s.active with
  | none =>
    refine ⟨_, rfl, rfl, ?_, rfl⟩
    intro y
    have hoff := h.off_of_ne s y (by rw [hact]; simp)
    exact (camera_clear_eq _ hoff.1 hoff.2).symm
  | some a =>
    have hothers : ∀ y, y ≠ a →
        (s.cameras y).freeMode = false ∧ (s.cameras y).circling = false := by
      intro y hy
      exact h.off_of_ne s y (by rw [hact]; simpa using fun e => hy e.symm)
    by_cases hf : (s.cameras a).freeMode = true
    · obtain ⟨_, hla, hnb, _⟩ := h a (Or.inl hf)
      have hc : (s.cameras a).circling = false := by
        cases hcm : (s.cameras a).circling with
        | false => rfl
        | true => exact absurd ⟨hf, hcm⟩ hnb
      simp [hf, toggleFreeModeWith, hla, hc]
      intro y
      by_cases hy : y = a
      · subst hy
        rw [Function.update_same]
        simp [hla]
      · obtain ⟨h1, h2⟩ := hothers y hy
        rw [Function.update_noteq hy]
        exact (camera_clear_eq _ h1 h2).symm
    · have hf' : (s.cameras a).freeMode = false := by simpa using hf
      by_cases hc : (s.cameras a).circling = true
      · obtain ⟨_, hla, _, hlk⟩ := h a (Or.inr hc)
        simp [hf', hact, hc, toggleCirclingWith, hlk hc, hla]
        intro y
        by_cases hy : y = a
        · subst hy
          rw [Function.update_same]
          simp [hf', hla, hlk hc]
        · obtain ⟨h1, h2⟩ := hothers y hy
          rw [Function.update_noteq hy]
          exact (camera_clear_eq _ h1 h2).symm
      · have hc' : (s.cameras a).circling = false := by simpa using hc
        simp [hf', hact, hc']
        intro y
        by_cases hy : y = a
        · subst hy
          exact (camera_clear_eq _ hf' hc').symm
        · obtain ⟨h1, h2⟩ := hothers y hy
          exact (camera_clear_eq _ h1 h2).symm

/-- The mode discipline holds when no camera has a mode flag set. -/
theorem modeInvariant_of_all_off (s : CameraSystem α)
    (h : ∀ x, (s.cameras x).freeMode = false ∧ (s.cameras x).circling = false) :
    ModeInvariant s := by
  intro x hx
  rcases hx with hx | hx
  · rw [(h x).1] at hx; cases hx
  · rw [(h x).2] at hx; cases hx

/-- `makeActive` keeps the mode discipline. -/
theorem makeActive_invariant (x : Nat) (s s' : CameraSystem α) (h : ModeInvariant s)
    (hs : makeActive x s = some s') : ModeInvariant s' := by
  obtain ⟨t, ht, _, hcams, _⟩ := makeActive_of_invariant x s h
  rw [ht] at hs
  cases hs
  apply modeInvariant_of_all_off
  intro y
  rw [hcams y]
  exact ⟨rfl, rfl⟩

/-- `toggleFreeMode` keeps the mode discipline. -/
theorem toggleFreeMode_invariant (x : Nat) (s s' : CameraSystem α) (h : ModeInvariant s)
    (hs : toggleFreeMode x s = some s') : ModeInvariant s' := by
  unfold toggleFreeMode toggleFreeModeWith at hs
  by_cases hf : (s.cameras x).freeMode = true
  · rw [if_pos hf] at hs
    cases hs
    obtain ⟨hact, _, hnb, _⟩ := h x (Or.inl hf)
    have hc : (s.cameras x).circling = false := by
      cases hcm : (s.cameras x).circling with
      | false => rfl
      | true => exact absurd ⟨hf, hcm⟩ hnb
    apply modeInvariant_of_all_off
    intro y
    by_cases hy : y = x
    · subst hy
      simp [hc]
    · have hoff := h.off_of_ne s y (by rw [hact]; simpa using fun e => hy e.symm)
      simpa [Function.update_noteq hy] using hoff
  · rw [if_neg hf] at hs
    obtain ⟨t, ht, hta, hcams, _⟩ := makeActive_of_invariant x s h
    rw [ht] at hs
    cases hs
    intro y hy
    by_cases hyx : y = x
    · subst hyx
      simp [hta, hcams]
    · simp [Function.update_noteq hyx, hcams] at hy

/-- `toggleCircling` keeps the mode discipline. -/
theorem toggleCircling_invariant (x : Nat) (s s' : CameraSystem α) (h : ModeInvariant s)
    (hs : toggleCircling x s = some s') : ModeInvariant s' := by
  unfold toggleCircling toggleCirclingWith at hs
  by_cases hl : (s.cameras x).locked = true
  · rw [if_pos hl] at hs
    cases hs
    exact h
  · rw [if_neg hl] at hs
    by_cases hc : (s.cameras x).circling = true
    · rw [if_pos hc] at hs
      cases hs
      obtain ⟨hact, _, hnb, _⟩ := h x (Or.inr hc)
      have hf : (s.cameras x).freeMode = false := by
        cases hfm : (s.cameras x).freeMode with
        | false => rfl
        | true => exact absurd ⟨hfm, hc⟩ hnb
      apply modeInvariant_of_all_off
      intro y
      by_cases hy : y = x
      · subst hy
        simp [hf]
      · have hoff := h.off_of_ne s y (by rw [hact]; simpa using fun e => hy e.symm)
        simpa [Function.update_noteq hy] using hoff
    · rw [if_neg hc] at hs
      obtain ⟨t, ht, hta, hcams, _⟩ := makeActive_of_invariant x s h
      rw [ht] at hs
      cases hs
      intro y hy
      by_cases hyx : y = x
      · subst hyx
        simp [hta, hcams]
        simpa using hl
      · simp [Function.update_noteq hyx, hcams] at hy

/-- Every reachable state keeps the mode discipline. -/
theorem Reachable.modeInvariant (s : CameraSystem α) (h : Reachable s) : ModeInvariant s := by
  induction h with
  | initial s h => exact modeInvariant_of_all_off s h
  | other s s' _ hact hsame ih =>
    intro x hx
    obtain ⟨h1, h2, h3, h4⟩ := hsame x
    rw [h1, h2] at hx
    rw [hact, h1, h2, h3, h4]
    exact ih x hx
  | makeActive x s s' _ hs ih => exact makeActive_invariant x s s' ih hs
  | toggleFreeMode x s s' _ hs ih => exact toggleFreeMode_invariant x s s' ih hs
  | toggleCircling x s s' _ hs ih => exact toggleCircling_invariant x s s' ih hs


/-- A camera that is locked keeps its `circling` flag and its lock through the
exit branch of `toggleFreeMode`. -/
theorem toggleFreeModeWith_exit_frame (a : Nat) (s s1 : CameraSystem α)
    (h : toggleFreeModeWith (fun _ _ => none) a s = some s1) (y : Nat) :
    (s1.cameras y).circling = (s.cameras y).circling ∧
      (s1.cameras y).locked = (s.cameras y).locked := by
  unfold toggleFreeModeWith at h
  split at h
  · cases h
    by_cases hy : y = a
    · subst hy; simp
    · simp [Function.update_noteq hy]
  · simp at h

/-- A locked camera keeps its `circling` flag and its lock through the exit
branch of `toggleCircling`, whichever camera it is called on. -/
theorem toggleCirclingWith_exit_frame (a : Nat) (s s2 : CameraSystem α)
    (h : toggleCirclingWith (fun _ _ => none) a s = some s2) (y : Nat)
    (hl : (s.cameras y).locked = true) :
    (s2.cameras y).circling = (s.cameras y).circling ∧ (s2.cameras y).locked = true := by
  unfold toggleCirclingWith at h
  split at h
  · cases h; exact ⟨rfl, hl⟩
  · rename_i hla
    split at h
    · cases h
      have hy : y ≠ a := by
        intro e; subst e; exact hla hl
      simp [Function.update_noteq hy, hl]
    · simp at h

/-- `makeActive` leaves the `circling` flag of every locked camera as it was. -/
theorem makeActive_locked_frame (x : Nat) (s s' : CameraSystem α)
    (h : makeActive x s = some s') (y : Nat) (hl : (s.cameras y).locked = true) :
    (s'.cameras y).circling = (s.cameras y).circling ∧ (s'.cameras y).locked = true := by
  unfold makeActive at h
  cases hact : s.active with
  | none =>
    rw [hact] at h
    cases h
    exact ⟨rfl, hl⟩
  | some a =>
    rw [hact] at h
    simp only [Option.bind_eq_some] at h
    obtain ⟨s1, h1, h2⟩ := h
    have f1 : (s1.cameras y).circling = (s.cameras y).circling ∧
        (s1.cameras y).locked = true := by
      split at h1
      · have := toggleFreeModeWith_exit_frame a s s1 h1 y
        exact ⟨this.1, this.2.trans hl⟩
      · cases h1; exact ⟨rfl, hl⟩
    cases hact1 : s1.active with
    | none => rw [hact1] at h2; cases h2
    | some a1 =>
      rw [hact1] at h2
      simp only [Option.map_eq_some'] at h2
      obtain ⟨s2, h3, rfl⟩ := h2
      have f2 : (s2.cameras y).circling = (s1.cameras y).circling ∧
          (s2.cameras y).locked = true := by
        split at h3
        · exact toggleCirclingWith_exit_frame a1 s1 s2 h3 y f1.2
        · cases h3; exact ⟨rfl, f1.2⟩
      exact ⟨f2.1.trans f1.1, f2.2⟩

/-- C11, as amended: on a locked camera `toggleCircling` changes nothing at
all, while `toggleFreeMode` is not refused: whenever it returns, the camera's
`freeMode` flag is flipped and its `circling` flag is as before, and in every
reachable state it does return. -/
theorem toggles_of_locked (x : Nat) (s : CameraSystem α) (hl : (s.cameras x).locked = true) :
    toggleCircling x s = some s ∧
    (∀ s', toggleFreeMode x s = some s' →
      (s'.cameras x).freeMode = !(s.cameras x).freeMode ∧
        (s'.cameras x).circling = (s.cameras x).circling) ∧
    (Reachable s → ∃ s', toggleFreeMode x s = some s') := by
  refine ⟨by simp [toggleCircling, toggleCirclingWith, hl], ?_, ?_⟩
  · intro s' hs
    unfold toggleFreeMode toggleFreeModeWith at hs
    by_cases hf : (s.cameras x).freeMode = true
    · rw [if_pos hf] at hs
      cases hs
      simp [hf]
    · rw [if_neg hf] at hs
      simp only [Option.map_eq_some'] at hs
      obtain ⟨s1, h1, rfl⟩ := hs
      have := makeActive_locked_frame x s s1 h1 x hl
      simp [hf, this.1]
  · intro hr
    have hinv := hr.modeInvariant
    unfold toggleFreeMode toggleFreeModeWith
    by_cases hf : (s.cameras x).freeMode = true
    · exact ⟨_, if_pos hf⟩
    · obtain ⟨t, ht, _⟩ := makeActive_of_invariant x s hinv
      rw [if_neg hf, ht]
      exact ⟨_, rfl⟩

/-- C12: in every reachable state `X.makeActive()` returns, the active camera
is then `X`, and the camera that was active before the call, if any, has
`freeMode = false` and `circling = false`. -/
theorem makeActive_of_reachable (x : Nat) (s : CameraSystem α) (h : Reachable s) :
    ∃ s', makeActive x s = some s' ∧ s'.active = some x ∧
      ∀ a, s.active = some a →
        (s'.cameras a).freeMode = false ∧ (s'.cameras a).circling = false := by
  obtain ⟨s', hs', ha, hc, _⟩ := makeActive_of_invariant x s h.modeInvariant
  refine ⟨s', hs', ha, ?_⟩
  intro a _
  rw [hc a]
  exact ⟨rfl, rfl⟩

end CameraSystem

/-! ## Cameras and modes: evaluation on concrete inputs -/

/-- Counterexample to C11 as stated: the locked static camera 1, not in Free
mode, has `freeMode` set after `toggleFreeMode`. -/
theorem locked_camera_enters_free_mode :
    ((sampleSystem (some 1)).cameras 1).locked = true ∧
    ((sampleSystem (some 1)).cameras 1).freeMode = false ∧
    ∃ s', CameraSystem.toggleFreeMode 1 (sampleSystem (some 1)) = some s' ∧
      (s'.cameras 1).freeMode = true := by
  refine ⟨rfl, rfl, ?_⟩
  simp [CameraSystem.toggleFreeMode, CameraSystem.toggleFreeModeWith, CameraSystem.makeActive,
    sampleSystem, sampleCamera]

/-- Witness for C11 as amended: on the locked static camera 2, with the dynamic
camera active, `toggleCircling` returns the state unchanged and
`toggleFreeMode` returns. -/
theorem toggles_of_locked_witness :
    ((sampleSystem (some 0)).cameras 2).locked = true ∧
    CameraSystem.toggleCircling 2 (sampleSystem (some 0)) = some (sampleSystem (some 0)) ∧
    ∃ s', CameraSystem.toggleFreeMode 2 (sampleSystem (some 0)) = some s' := by
  obtain ⟨h1, _, h3⟩ := CameraSystem.toggles_of_locked 2 (sampleSystem (some 0)) rfl
  exact ⟨rfl, h1, h3 (CameraSystem.Reachable.initial _ (fun x => by
    by_cases hx : x = 0 <;> simp [sampleSystem, sampleCamera, hx]))⟩

/-- Witness for C12: with the dynamic camera 0 active and in Free mode (a state
reached by `toggleFreeMode`), `makeActive` on the static camera 1 makes it
active and clears both flags of camera 0. -/
theorem makeActive_of_reachable_witness :
    ∃ s1, CameraSystem.toggleFreeMode 0 (sampleSystem (some 0)) = some s1 ∧
      CameraSystem.Reachable s1 ∧ s1.active = some 0 ∧ (s1.cameras 0).freeMode = true ∧
      ∃ s', CameraSystem.makeActive 1 s1 = some s' ∧ s'.active = some 1 ∧
        (s'.cameras 0).freeMode = false ∧ (s'.cameras 0).circling = false := by
  have hinit : CameraSystem.Reachable (sampleSystem (some 0)) :=
    CameraSystem.Reachable.initial _ (fun x => by
      by_cases hx : x = 0 <;> simp [sampleSystem, sampleCamera, hx])
  obtain ⟨s1, hs1, hact, hfree⟩ : ∃ s1,
      CameraSystem.toggleFreeMode 0 (sampleSystem (some 0)) = some s1 ∧
        s1.active = some 0 ∧ (s1.cameras 0).freeMode = true := by
    simp [CameraSystem.toggleFreeMode, CameraSystem.toggleFreeModeWith,
      CameraSystem.makeActive, sampleSystem, sampleCamera]
  have hreach : CameraSystem.Reachable s1 :=
    CameraSystem.Reachable.toggleFreeMode 0 _ s1 hinit hs1
  obtain ⟨s', hs', ha, hflags⟩ := CameraSystem.makeActive_of_reachable 1 s1 hreach
  exact ⟨s1, hs1, hreach, hact, hfree, s', hs', ha, hflags 0 hact⟩

/-- C13 at the failing input: camera 1 is active, camera 0 is unlocked;
`toggleCircling` twice on camera 0, and likewise `toggleFreeMode` twice, leave
camera 0's position as it was but end with camera 0 active, not camera 1. -/
theorem toggle_twice_keeps_self_active :
    (sampleSystem (some 1)).active = some 1 ∧
    (∃ s1 s2, CameraSystem.toggleCircling 0 (sampleSystem (some 1)) = some s1 ∧
      CameraSystem.toggleCircling 0 s1 = some s2 ∧ s2.active = some 0 ∧
      (s2.cameras 0).position = ((sampleSystem (some 1)).cameras 0).position) ∧
    (∃ s1 s2, CameraSystem.toggleFreeMode 0 (sampleSystem (some 1)) = some s1 ∧
      CameraSystem.toggleFreeMode 0 s1 = some s2 ∧ s2.active = some 0 ∧
      (s2.cameras 0).position = ((sampleSystem (some 1)).cameras 0).position) := by
  refine ⟨rfl, ?_, ?_⟩
  · simp [CameraSystem.toggleCircling, CameraSystem.toggleCirclingWith,
      CameraSystem.makeActive, sampleSystem, sampleCamera]
  · simp [CameraSystem.toggleFreeMode, CameraSystem.toggleFreeModeWith,
      CameraSystem.makeActive, sampleSystem, sampleCamera]

/-! ## Scene graph: transforms -/

section Transforms

variable {α : Type} [Field α]

/-- The matrix `glm::translate(glm::mat4(1.0f), p)` has translation column `p`
and the identity as linear part. -/
theorem glmTranslate_one_parts (p : Vec3 α) :
    translationOf (glmTranslate (1 : Mat4 α) p) = p ∧
      linearPart (glmTranslate (1 : Mat4 α) p) = 1 := by
  constructor
  · cases p
    simp [translationOf, glmTranslate]
  · ext i j
    fin_cases i <;> fin_cases j <;> simp [glmTranslate, linearPart]

/-- The matrix `glm::rotate(glm::mat4(1.0f), angle, axis)` has no translation:
it is its own linear part. -/
theorem linearPart_glmRotate_one (G : Glm α) (angle : α) (axis : Vec3 α) :
    linearPart (glmRotate G (1 : Mat4 α) angle axis) = glmRotate G 1 angle axis := by
  ext i j
  fin_cases i <;> fin_cases j <;> simp [glmRotate, linearPart]

theorem translationOf_translate_mul_linearPart (p : Vec3 α) (m : Mat4 α) :
    translationOf (glmTranslate 1 p * linearPart m) = p := by
  cases p
  simp [translationOf, glmTranslate, linearPart, Matrix.mul_apply, Fin.sum_univ_four]

theorem linearPart_translate_mul_linearPart (p : Vec3 α) (m : Mat4 α) :
    linearPart (glmTranslate 1 p * linearPart m) = linearPart m := by
  ext i j
  fin_cases i <;> fin_cases j <;>
    simp [glmTranslate, linearPart, Matrix.mul_apply, Fin.sum_univ_four]

theorem translationOf_rotate (G : Glm α) (t : Vec3 α) (angle : α) (axis : Vec3 α) (m : Mat4 α) :
    translationOf (glmTranslate 1 t * glmRotate G 1 angle axis * linearPart m) = t := by
  cases t
  simp [translationOf, glmTranslate, linearPart, glmRotate, Matrix.mul_apply, Fin.sum_univ_four]

namespace SceneNode

theorem rotateAll_eq_map (G : Glm α) (degrees : α) (axis : Vec3 α) (cs : List (SceneNode α)) :
    rotateAll G degrees axis cs = cs.map (rotate G degrees axis) := by
  induction cs with
  | nil => simp [rotateAll]
  | cons c cs ih => simp [rotateAll, ih]

omit [Field α] in
theorem subtreeAll_eq_flatMap (cs : List (SceneNode α)) :
    subtreeAll cs = cs.flatMap subtree := by
  induction cs with
  | nil => simp [subtreeAll]
  | cons c cs ih => simp [subtreeAll, ih]

omit [Field α] in
theorem subtree_eq (n : SceneNode α) : subtree n = n :: n.children.flatMap subtree := by
  cases n
  simp [subtree, children, subtreeAll_eq_flatMap]

/-- What `rotate` does to a node: new transform, same kind, geometry and cached
position, every child rotated. -/
theorem rotate_eq (G : Glm α) (degrees : α) (axis : Vec3 α) (n : SceneNode α) :
    rotate G degrees axis n =
      mk n.kind n.geometry
        (glmTranslate 1 (translationOf n.model) * glmRotate G 1 (G.radians degrees) axis *
          linearPart n.model)
        n.position (n.children.map (rotate G degrees axis)) := by
  cases n
  simp [rotate, rotateAll_eq_map, kind, geometry, model, position, children]

/-- The children of a rotated node are the rotated children. -/
theorem children_rotate (G : Glm α) (degrees : α) (axis : Vec3 α) (n : SceneNode α) :
    (rotate G degrees axis n).children = n.children.map (rotate G degrees axis) := by
  rw [rotate_eq]
  rfl

/-- The nodes of a rotated subtree are the rotated nodes of the subtree. -/
theorem subtree_rotate (G : Glm α) (degrees : α) (axis : Vec3 α) :
    ∀ n : SceneNode α, subtree (rotate G degrees axis n) = (subtree n).map (rotate G degrees axis)
  | mk k g m p cs => by
    have ih : ∀ c ∈ cs, subtree (rotate G degrees axis c) =
        (subtree c).map (rotate G degrees axis) := fun c _ => subtree_rotate G degrees axis c
    rw [subtree_eq, subtree_eq (mk k g m p cs), children_rotate]
    simp only [children, List.map_cons, List.flatMap_map, List.map_flatMap]
    congr 1
    apply List.flatMap_congr
    intro c hc
    exact ih c hc

omit [Field α] in
/-- The positions of a subtree are cached when the node's own position is and
those of the subtrees of its children are. -/
theorem positionCached_iff (n : SceneNode α) :
    PositionCached n ↔
      n.position = translationOf n.model ∧ ∀ c ∈ n.children, PositionCached c := by
  unfold PositionCached
  rw [subtree_eq]
  constructor
  · intro h
    refine ⟨h n (List.mem_cons_self _ _), ?_⟩
    intro c hc m hm
    exact h m (List.mem_cons_of_mem _ (List.mem_flatMap.mpr ⟨c, hc, hm⟩))
  · rintro ⟨h0, hcs⟩ m hm
    rcases List.mem_cons.mp hm with rfl | hm
    · exact h0
    · obtain ⟨c, hc, hmc⟩ := List.mem_flatMap.mp hm
      exact hcs c hc m hmc

/-- `update` keeps the positions of a subtree cached. -/
theorem positionCached_update (D : Mat4 α) (n : SceneNode α) (h : PositionCached n) :
    PositionCached (update D n) := by
  cases n with
  | mk k g m p cs =>
    rw [positionCached_iff] at h ⊢
    exact ⟨rfl, h.2⟩

/-- `addChild` keeps the positions of a subtree cached. -/
theorem positionCached_addChild (P C : SceneNode α) (hP : PositionCached P)
    (hC : PositionCached C) : PositionCached (addChild P C) := by
  cases P with
  | mk k g m p cs =>
    rw [positionCached_iff] at hP ⊢
    refine ⟨hP.1, ?_⟩
    intro c hc
    simp only [addChild, children, List.mem_append, List.mem_singleton] at hc
    rcases hc with hc | rfl
    · exact hP.2 c hc
    · exact positionCached_update m C hC

/-- `rotate` keeps the positions of a subtree cached. -/
theorem positionCached_rotate (G : Glm α) (degrees : α) (axis : Vec3 α) (n : SceneNode α)
    (h : PositionCached n) : PositionCached (rotate G degrees axis n) := by
  intro m hm
  rw [subtree_rotate, List.mem_map] at hm
  obtain ⟨m0, hm0, rfl⟩ := hm
  rw [rotate_eq]
  show m0.position = translationOf (glmTranslate 1 (translationOf m0.model) *
    glmRotate G 1 (G.radians degrees) axis * linearPart m0.model)
  rw [translationOf_rotate]
  exact h m0 hm0

/-- `move` keeps the positions of a subtree cached on a plain node and on a
node bearing a point light or a spotlight. -/
theorem positionCached_move (p : Vec3 α) (n : SceneNode α) (h : PositionCached n)
    (hk : ∀ l d, n.kind = .light l d → l.type = .LIGHT_POINT ∨ l.type = .LIGHT_SPOTLIGHT) :
    PositionCached (move p n) := by
  cases n with
  | mk k g m q cs =>
    rw [positionCached_iff] at h
    cases k with
    | plain =>
      rw [positionCached_iff]
      exact ⟨(translationOf_translate_mul_linearPart p m).symm, h.2⟩
    | light l d =>
      have ht := hk l d rfl
      rw [positionCached_iff]
      simp only [move, if_pos ht]
      exact ⟨(translationOf_translate_mul_linearPart p m).symm, h.2⟩

/-! ## Scene graph: the claims on transforms -/

/-- C14: `P.addChild(C)` appends `C`, updated with `P`'s transform, as the last
child: the new child's transform is `P.model * C.model`, the earlier children
and `P`'s own transform, position, kind and geometry are as before.  Hence
after `P.addChild(C)`, a change `U` of `P`'s transform and `P.addChild(D)`, the
children are the earlier ones, then `C` with the transform `P.model * C.model`
of its own attach time, then `D` with `(U * P.model) * D.model`. -/
theorem addChild_spec (P C D : SceneNode α) (U : Mat4 α) :
    (addChild P C).children = P.children ++ [update P.model C] ∧
    (update P.model C).model = P.model * C.model ∧
    (addChild P C).model = P.model ∧
    (addChild P C).position = P.position ∧
    (addChild (update U (addChild P C)) D).children =
      P.children ++ [update P.model C, update (U * P.model) D] ∧
    (update (U * P.model) D).model = U * P.model * D.model := by
  cases P; cases C; cases D
  simp [addChild, update, children, model, position]

/-- C15: `N.update(D)` sets the transform to `D * N.model` and the position to
the translation column of the new transform; the child list, with every
child's transform and position, the kind and the geometry stay as they were. -/
theorem update_spec (D : Mat4 α) (N : SceneNode α) :
    (update D N).model = D * N.model ∧
    (update D N).position = translationOf (D * N.model) ∧
    (update D N).children = N.children ∧
    (update D N).kind = N.kind ∧ (update D N).geometry = N.geometry := by
  cases N
  simp [update, children, model, position, kind, geometry]

/-- C16: `N.rotate(degrees, axis)` sets the transform to
`translate(t) * R * embed(L)` with `t` the translation column and `L` the linear
part of the old transform and `R = glm::rotate(mat4(1), radians(degrees), axis)`;
the translation column is unchanged; the children are the rotated children,
so the nodes of the rotated subtree are the rotated nodes of the subtree, and
the cached position, kind and geometry stay as they were. -/
theorem rotate_spec (G : Glm α) (degrees : α) (axis : Vec3 α) (N : SceneNode α) :
    (rotate G degrees axis N).model =
      glmTranslate 1 (translationOf N.model) * glmRotate G 1 (G.radians degrees) axis *
        linearPart N.model ∧
    translationOf (rotate G degrees axis N).model = translationOf N.model ∧
    (rotate G degrees axis N).children = N.children.map (rotate G degrees axis) ∧
    subtree (rotate G degrees axis N) = (subtree N).map (rotate G degrees axis) ∧
    (rotate G degrees axis N).position = N.position ∧
    (rotate G degrees axis N).kind = N.kind ∧
    (rotate G degrees axis N).geometry = N.geometry := by
  have e := rotate_eq G degrees axis N
  refine ⟨by rw [e]; rfl, ?_, children_rotate G degrees axis N, subtree_rotate G degrees axis N,
    by rw [e]; rfl, by rw [e]; rfl, by rw [e]; rfl⟩
  rw [e]
  exact translationOf_rotate G _ _ axis _

/-- C17: on a plain node `move(p)` yields a transform whose translation column
is `p` and whose linear part is the linear part before the call, sets the
position to `p` and leaves the children alone; `move(p, dir)` gives the same
node for every `dir`. -/
theorem move_plain_spec (g : Option Nat) (m : Mat4 α) (q : Vec3 α) (cs : List (SceneNode α))
    (p dir : Vec3 α) :
    translationOf (move p (mk .plain g m q cs)).model = p ∧
    linearPart (move p (mk .plain g m q cs)).model = linearPart m ∧
    (move p (mk .plain g m q cs)).position = p ∧
    (move p (mk .plain g m q cs)).children = cs ∧
    moveWithDirection p dir (mk .plain g m q cs) = move p (mk .plain g m q cs) :=
  ⟨translationOf_translate_mul_linearPart p m, linearPart_translate_mul_linearPart p m,
    rfl, rfl, rfl⟩

/-- C18, as amended: the cached position of every node of a subtree equals the
translation column of its transform after construction, and this is preserved
by `addChild`, `update` and `rotate` on every node and by `move(p)` and
`move(p, dir)` on a plain node and on a node bearing a point light or a
spotlight; on a node bearing a directional light `move(p)` and `move(p, dir)`
set the cached position to `p` and leave the transform as it is. -/
theorem positionCached_spec (G : Glm α) (g : Option Nat) (l : Light α) (m D : Mat4 α)
    (p dir : Vec3 α) (degrees : α) (N C : SceneNode α) :
    PositionCached (object g m) ∧ PositionCached (lightObject g l m dir) ∧
    PositionCached (directionalLightObject l dir) ∧ PositionCached (lightObjectAt g l p dir) ∧
    (PositionCached N → PositionCached C → PositionCached (addChild N C)) ∧
    (PositionCached N → PositionCached (update D N)) ∧
    (PositionCached N → PositionCached (rotate G degrees dir N)) ∧
    (PositionCached N →
      (∀ l' d, N.kind = .light l' d → l'.type = .LIGHT_POINT ∨ l'.type = .LIGHT_SPOTLIGHT) →
      PositionCached (move p N) ∧ PositionCached (moveWithDirection p dir N)) ∧
    (∀ (l' : Light α) (d : Vec3 α) (g' : Option Nat) (m' : Mat4 α) (q : Vec3 α)
        (cs : List (SceneNode α)), l'.type = .LIGHT_DIRECTIONAL →
      (move p (mk (.light l' d) g' m' q cs)).position = p ∧
      (move p (mk (.light l' d) g' m' q cs)).model = m' ∧
      (moveWithDirection p dir (mk (.light l' d) g' m' q cs)).position = p ∧
      (moveWithDirection p dir (mk (.light l' d) g' m' q cs)).model = m') := by
  have hnew : ∀ (k : NodeKind α) (g : Option Nat) (m : Mat4 α),
      PositionCached (mk k g m (translationOf m) []) := by
    intro k g m
    rw [positionCached_iff]
    exact ⟨rfl, fun c hc => by simp [children] at hc⟩
  refine ⟨hnew _ _ _, hnew _ _ _, hnew _ _ _, hnew _ _ _, positionCached_addChild N C,
    positionCached_update D N, positionCached_rotate G degrees dir N, ?_, ?_⟩
  swap
  · intro l' d g' m' q cs hl
    simp [move, moveWithDirection, hl, position, model]
  intro hN hk
  refine ⟨positionCached_move p N hN hk, ?_⟩
  cases N with
  | mk k g' m' q cs =>
    cases k with
    | plain => exact positionCached_move p _ hN hk
    | light l' d =>
      have hN' : PositionCached (mk (.light l' dir) g' m' q cs) := by
        rw [positionCached_iff] at hN ⊢
        exact hN
      exact positionCached_move p _ hN' (fun l2 d2 e => by
        cases e
        exact hk l' d rfl)

end SceneNode

end Transforms

/-! ## Scene graph: `draw` -/

namespace SceneNode

section

variable {α : Type}

/-- The loop over the children is a left-to-right fold of `draw` that stops at
the first failure. -/
theorem drawAll_eq_foldlM (camera : Camera α) (cs : List (SceneNode α)) (st : RenderState α) :
    drawAll camera cs st = cs.foldlM (fun acc c => draw camera c acc) st := by
  induction cs generalizing st with
  | nil => simp [drawAll]; rfl
  | cons c cs ih =>
    rw [drawAll, List.foldlM_cons]
    cases hd : draw camera c st with
    | error e => rfl
    | ok st1 => exact ih st1

/-- C19, as amended: `ObjectInstance::draw` draws the children in child-list
order, stopping at the first child whose draw fails, and then its own
geometry: a failure among the children is the failure of the call; after the
children, a node with geometry appends one geometry draw with its transform
and the camera's matrices, and a node without geometry (null pointer) fails. -/
theorem draw_plain_spec (camera : Camera α) (g : Option Nat) (m : Mat4 α) (p : Vec3 α)
    (cs : List (SceneNode α)) (st : RenderState α) :
    drawAll camera cs st = cs.foldlM (fun acc c => draw camera c acc) st ∧
    (∀ e, drawAll camera cs st = .error e → draw camera (mk .plain g m p cs) st = .error e) ∧
    (∀ st1, drawAll camera cs st = .ok st1 →
      (∀ mesh, g = some mesh →
        draw camera (mk .plain g m p cs) st =
          .ok { st1 with log := st1.log ++ [.geometry mesh m camera.view camera.projection] }) ∧
      (g = none → draw camera (mk .plain g m p cs) st = .error ("null geometry", st1))) := by
  refine ⟨drawAll_eq_foldlM camera cs st, ?_, ?_⟩
  · intro e he
    rw [draw, he]
  · intro st1 h1
    constructor
    · intro mesh hg
      rw [draw, h1, hg]
      rfl
    · intro hg
      rw [draw, h1, hg]
      rfl

/-- C20, as amended: for a node bearing a directional light, a point light or
a spotlight (a light with a record `data`), drawn while the registry holds
fewer than `MAX_LIGHT_NUM` lights, `LightObject::draw` first stores exactly
one record, `data` with the node's position and direction, in the first free
slot; for a directional light or a spotlight that is all, for a point light
the geometry is drawn once afterwards, which fails when the node has no
geometry. -/
theorem draw_light_spec (camera : Camera α) (l : Light α) (dir : Vec3 α) (g : Option Nat)
    (m : Mat4 α) (p : Vec3 α) (cs : List (SceneNode α)) (st : RenderState α)
    (data : GLSLLight α) (hroom : st.lshader.lightsLoadedNum < MAX_LIGHT_NUM)
    (hdata : l.toDataPtr = .ok data) :
    (l.type = .LIGHT_DIRECTIONAL ∨ l.type = .LIGHT_POINT ∨ l.type = .LIGHT_SPOTLIGHT) ∧
    (l.type = .LIGHT_DIRECTIONAL ∨ l.type = .LIGHT_SPOTLIGHT →
      draw camera (mk (.light l dir) g m p cs) st =
        .ok { lshader := st.lshader.appended
                { data with position := some p, direction := some dir }
              log := st.log ++ [.light st.lshader.lightsLoadedNum] }) ∧
    (l.type = .LIGHT_POINT →
      (∀ mesh, g = some mesh →
        draw camera (mk (.light l dir) g m p cs) st =
          .ok { lshader := st.lshader.appended
                  { data with position := some p, direction := some dir }
                log := st.log ++ [.light st.lshader.lightsLoadedNum,
                  .geometry mesh m camera.view camera.projection] }) ∧
      (g = none →
        draw camera (mk (.light l dir) g m p cs) st =
          .error ("null geometry",
            { lshader := st.lshader.appended
                { data with position := some p, direction := some dir }
              log := st.log ++ [.light st.lshader.lightsLoadedNum] }))) := by
  have hnot : ¬ st.lshader.lightsLoadedNum ≥ MAX_LIGHT_NUM := not_le.mpr hroom
  have hrun : draw camera (mk (.light l dir) g m p cs) st =
      (if l.type ≠ .LIGHT_DIRECTIONAL ∧ l.type ≠ .LIGHT_SPOTLIGHT then
        drawGeometry camera g m
          { lshader := st.lshader.appended
              { data with position := some p, direction := some dir }
            log := st.log ++ [.light st.lshader.lightsLoadedNum] }
      else
        .ok { lshader := st.lshader.appended
                { data with position := some p, direction := some dir }
              log := st.log ++ [.light st.lshader.lightsLoadedNum] }) := by
    rw [draw]
    unfold drawLight LightingShader.addLight
    simp only [if_neg hnot, hdata, Nat.add_sub_cancel]
    rfl
  refine ⟨?_, ?_, ?_⟩
  · cases l with
    | base a d s => cases hdata
    | directional a d s => exact Or.inl rfl
    | point a d s c1 c2 c3 => exact Or.inr (Or.inl rfl)
    | spot a d s c1 c2 c3 c4 c5 => exact Or.inr (Or.inr rfl)
  · intro ht
    have ht' : ¬ (l.type ≠ .LIGHT_DIRECTIONAL ∧ l.type ≠ .LIGHT_SPOTLIGHT) := by
      rintro ⟨h1, h2⟩
      rcases ht with h | h
      · exact h1 h
      · exact h2 h
    rw [hrun, if_neg ht']
  · intro ht
    have ht' : l.type ≠ .LIGHT_DIRECTIONAL ∧ l.type ≠ .LIGHT_SPOTLIGHT := by
      rw [ht]
      exact ⟨by decide, by decide⟩
    rw [hrun, if_pos ht']
    constructor
    · intro mesh hg
      rw [hg]
      simp [drawGeometry]
    · intro hg
      rw [hg]
      rfl

end

end SceneNode

/-! ## Scene graph: evaluation on concrete inputs -/

/-- Counterexample to C18 as stated: the directional light node of the sun,
built by its constructor, has position and translation column `(0, 0, 0)`;
after `move((1, 0, 0))` its position is `(1, 0, 0)` while the translation
column of its transform is still `(0, 0, 0)`. -/
theorem directional_move_breaks_cache :
    (SceneNode.directionalLightObject sunLight ⟨2, 2, 3⟩).position = ⟨0, 0, 0⟩ ∧
    translationOf (SceneNode.directionalLightObject sunLight ⟨2, 2, 3⟩).model = ⟨0, 0, 0⟩ ∧
    (SceneNode.move ⟨1, 0, 0⟩ (SceneNode.directionalLightObject sunLight ⟨2, 2, 3⟩)).position =
      ⟨1, 0, 0⟩ ∧
    translationOf
      (SceneNode.move ⟨1, 0, 0⟩ (SceneNode.directionalLightObject sunLight ⟨2, 2, 3⟩)).model =
      ⟨0, 0, 0⟩ := by
  simp [SceneNode.move, SceneNode.directionalLightObject, SceneNode.lightObject, sunLight,
    Light.type, SceneNode.position, SceneNode.model, translationOf]

/-- Witness for C18 as amended: a plain node at `(1, 2, 3)`, a point light node
attached to it, and the parent moved and rotated afterwards; and the
directional sun node moved to `(0, 30, 0)`, which keeps its transform. -/
theorem positionCached_spec_witness :
    SceneNode.PositionCached (SceneNode.object (some 1) (glmTranslate (1 : Mat4 ℚ) ⟨1, 2, 3⟩)) ∧
    SceneNode.PositionCached
      (SceneNode.addChild (SceneNode.object (some 1) (glmTranslate (1 : Mat4 ℚ) ⟨1, 2, 3⟩))
        (SceneNode.lightObjectAt (some 2) bulbLight ⟨0, 30, 0⟩ ⟨0, -1, 0⟩)) ∧
    SceneNode.PositionCached
      (SceneNode.rotate unitGlm 90 ⟨0, 1, 0⟩
        (SceneNode.move ⟨5, 5, 5⟩
          (SceneNode.addChild (SceneNode.object (some 1) (glmTranslate (1 : Mat4 ℚ) ⟨1, 2, 3⟩))
            (SceneNode.lightObjectAt (some 2) bulbLight ⟨0, 30, 0⟩ ⟨0, -1, 0⟩)))) ∧
    (SceneNode.move ⟨0, 30, 0⟩
      (SceneNode.mk (.light sunLight ⟨2, 2, 3⟩) none (1 : Mat4 ℚ) ⟨0, 0, 0⟩ [])).position =
        ⟨0, 30, 0⟩ ∧
    (SceneNode.move ⟨0, 30, 0⟩
      (SceneNode.mk (.light sunLight ⟨2, 2, 3⟩) none (1 : Mat4 ℚ) ⟨0, 0, 0⟩ [])).model = 1 := by
  have h0 := SceneNode.positionCached_spec unitGlm (some 1) bulbLight
    (glmTranslate (1 : Mat4 ℚ) ⟨1, 2, 3⟩) 1 ⟨0, 30, 0⟩ ⟨0, -1, 0⟩ 90
    (SceneNode.object (some 1) (glmTranslate (1 : Mat4 ℚ) ⟨1, 2, 3⟩))
    (SceneNode.lightObjectAt (some 2) bulbLight ⟨0, 30, 0⟩ ⟨0, -1, 0⟩)
  have hchild : SceneNode.PositionCached
      (SceneNode.lightObjectAt (some 2) bulbLight ⟨0, 30, 0⟩ ⟨0, -1, 0⟩) :=
    (SceneNode.positionCached_spec unitGlm (some 2) bulbLight 1 1 ⟨0, 30, 0⟩ ⟨0, -1, 0⟩ 90
      (SceneNode.object none 1) (SceneNode.object none 1)).2.2.2.1
  have hadd := h0.2.2.2.2.1 h0.1 hchild
  have h1 := SceneNode.positionCached_spec unitGlm none bulbLight 1 1 ⟨5, 5, 5⟩ ⟨0, 1, 0⟩ 90
    (SceneNode.addChild (SceneNode.object (some 1) (glmTranslate (1 : Mat4 ℚ) ⟨1, 2, 3⟩))
      (SceneNode.lightObjectAt (some 2) bulbLight ⟨0, 30, 0⟩ ⟨0, -1, 0⟩))
    (SceneNode.object none 1)
  have hmove := (h1.2.2.2.2.2.2.2.1 hadd (fun l d e => by
    simp [SceneNode.addChild, SceneNode.object, SceneNode.kind] at e)).1
  have h2 := SceneNode.positionCached_spec unitGlm none bulbLight 1 1 ⟨5, 5, 5⟩ ⟨0, 1, 0⟩ 90
    (SceneNode.move ⟨5, 5, 5⟩
      (SceneNode.addChild (SceneNode.object (some 1) (glmTranslate (1 : Mat4 ℚ) ⟨1, 2, 3⟩))
        (SceneNode.lightObjectAt (some 2) bulbLight ⟨0, 30, 0⟩ ⟨0, -1, 0⟩)))
    (SceneNode.object none 1)
  have hdir := h0.2.2.2.2.2.2.2.2 sunLight ⟨2, 2, 3⟩ none 1 ⟨0, 0, 0⟩ [] rfl
  exact ⟨h0.1, hadd, h2.2.2.2.2.2.2.1 hmove, hdir.1, hdir.2.1⟩

/-- Counterexample to C19 as stated: a plain node without geometry and without
children does not complete its draw: it fails on the null geometry. -/
theorem draw_without_geometry_fails :
    (SceneNode.object none (1 : Mat4 ℚ)).geometry = none ∧
    SceneNode.draw (sampleCamera false true ⟨0, 20, 0⟩ ⟨0, 0, 1⟩)
        (SceneNode.object none (1 : Mat4 ℚ)) { lshader := emptyShader, log := [] } =
      .error ("null geometry", { lshader := emptyShader, log := [] }) := by
  refine ⟨rfl, ?_⟩
  simp [SceneNode.object, SceneNode.draw, SceneNode.drawAll, SceneNode.drawGeometry]

/-- Witness for C19 as amended: a plain node with mesh 1 and one plain child
with mesh 2 draws the child's geometry, then its own. -/
theorem draw_plain_spec_witness :
    SceneNode.drawAll (sampleCamera false true ⟨0, 20, 0⟩ ⟨0, 0, 1⟩)
        [SceneNode.object (some 2) (glmTranslate (1 : Mat4 ℚ) ⟨1, 2, 3⟩)]
        { lshader := emptyShader, log := [] } =
      .ok { lshader := emptyShader,
            log := [.geometry 2 (glmTranslate (1 : Mat4 ℚ) ⟨1, 2, 3⟩) 0 0] } ∧
    SceneNode.draw (sampleCamera false true ⟨0, 20, 0⟩ ⟨0, 0, 1⟩)
        (SceneNode.mk .plain (some 1) 1 ⟨0, 0, 0⟩
          [SceneNode.object (some 2) (glmTranslate (1 : Mat4 ℚ) ⟨1, 2, 3⟩)])
        { lshader := emptyShader, log := [] } =
      .ok { lshader := emptyShader,
            log := [.geometry 2 (glmTranslate (1 : Mat4 ℚ) ⟨1, 2, 3⟩) 0 0,
              .geometry 1 1 0 0] } := by
  have hchildren : SceneNode.drawAll (sampleCamera false true ⟨0, 20, 0⟩ ⟨0, 0, 1⟩)
      [SceneNode.object (some 2) (glmTranslate (1 : Mat4 ℚ) ⟨1, 2, 3⟩)]
      { lshader := emptyShader, log := [] } =
      .ok { lshader := emptyShader,
            log := [.geometry 2 (glmTranslate (1 : Mat4 ℚ) ⟨1, 2, 3⟩) 0 0] } := by
    simp [SceneNode.object, SceneNode.draw, SceneNode.drawAll, SceneNode.drawGeometry,
      sampleCamera]
  exact ⟨hchildren, ((SceneNode.draw_plain_spec _ (some 1) 1 ⟨0, 0, 0⟩ _ _).2.2 _ hchildren).1
    1 rfl⟩

/-- Counterexample to C20 as stated: with `MAX_LIGHT_NUM` lights loaded, the
draw of a point light node with geometry registers nothing and draws nothing:
it fails in `addLight` and leaves the registry as it was. -/
theorem draw_light_full_registry :
    SceneNode.draw (sampleCamera false true ⟨0, 20, 0⟩ ⟨0, 0, 1⟩)
        (SceneNode.lightObjectAt (some 3) bulbLight ⟨0, 30, 0⟩ ⟨0, -1, 0⟩)
        { lshader := fullShader, log := [] } =
      .error ("Exceeded maximum number of lights (50)", { lshader := fullShader, log := [] }) := by
  simp [SceneNode.lightObjectAt, SceneNode.lightObject, SceneNode.draw, SceneNode.drawLight,
    LightingShader.addLight, fullShader, MAX_LIGHT_NUM]

/-- Witness for C20 as amended: into an empty registry, the draw of the sun
stores its record in slot 0 and draws no geometry, and the draw of a bulb with
mesh 3 stores its record in slot 0 and then draws mesh 3 once. -/
theorem draw_light_spec_witness :
    (emptyShader.lightsLoadedNum < MAX_LIGHT_NUM) ∧
    SceneNode.draw (sampleCamera false true ⟨0, 20, 0⟩ ⟨0, 0, 1⟩)
        (SceneNode.mk (.light sunLight ⟨2, 2, 3⟩) none 1 ⟨0, 0, 0⟩ [])
        { lshader := emptyShader, log := [] } =
      .ok { lshader := emptyShader.appended
              { ambient := ⟨1, 1, 1⟩, diffuse := ⟨2, 2, 2⟩, specular := ⟨2, 2, 2⟩,
                point := false, spotlight := false, cutOff := none, exponent := none,
                constant := none, linear := none, quadratic := none,
                position := some ⟨0, 0, 0⟩, direction := some ⟨2, 2, 3⟩ },
            log := [.light 0] } ∧
    SceneNode.draw (sampleCamera false true ⟨0, 20, 0⟩ ⟨0, 0, 1⟩)
        (SceneNode.mk (.light bulbLight ⟨0, -1, 0⟩) (some 3) 1 ⟨0, 0, 0⟩ [])
        { lshader := emptyShader, log := [] } =
      .ok { lshader := emptyShader.appended
              { ambient := ⟨0, 0, 0⟩, diffuse := ⟨1, 1, 1⟩, specular := ⟨1, 1, 1⟩,
                point := true, spotlight := false, cutOff := none, exponent := none,
                constant := some 1, linear := some (1 / 100), quadratic := some (1 / 200),
                position := some ⟨0, 0, 0⟩, direction := some ⟨0, -1, 0⟩ },
            log := [.light 0, .geometry 3 1 0 0] } := by
  have hroom : emptyShader.lightsLoadedNum < MAX_LIGHT_NUM := by decide
  refine ⟨hroom, ?_, ?_⟩
  · exact (SceneNode.draw_light_spec (sampleCamera false true ⟨0, 20, 0⟩ ⟨0, 0, 1⟩) sunLight
      ⟨2, 2, 3⟩ none 1 ⟨0, 0, 0⟩ [] { lshader := emptyShader, log := [] } _ hroom rfl).2.1
      (Or.inl rfl)
  · exact ((SceneNode.draw_light_spec (sampleCamera false true ⟨0, 20, 0⟩ ⟨0, 0, 1⟩) bulbLight
      ⟨0, -1, 0⟩ (some 3) 1 ⟨0, 0, 0⟩ [] { lshader := emptyShader, log := [] } _ hroom
      rfl).2.2 rfl).1 3 rfl

/-! ## Light registry: `addLight` and `resetLights` -/

namespace LightingShader

variable {α : Type}

/-- A light with a concrete type has a record. -/
theorem toDataPtr_of_typed (light : Light α) (h : light.type ≠ .LIGHT_NONE) :
    ∃ data, light.toDataPtr = .ok data := by
  cases light with
  | base a d s => exact absurd rfl h
  | directional a d s => exact ⟨_, rfl⟩
  | point a d s c l q => exact ⟨_, rfl⟩
  | spot a d s co e c l q => exact ⟨_, rfl⟩

/-- With the registry full, `addLight` throws and leaves the shader as it was. -/
theorem addLight_full (light : Light α) (position direction : Vec3 α) (sh : LightingShader α)
    (h : MAX_LIGHT_NUM ≤ sh.lightsLoadedNum) :
    addLight light position direction sh =
      .error ("Exceeded maximum number of lights (50)", sh) := by
  unfold addLight
  rw [if_pos h]

/-- With room in the registry, `addLight` of a light with a record appends the
record with the position and direction of the call. -/
theorem addLight_room (light : Light α) (position direction : Vec3 α) (sh : LightingShader α)
    (data : GLSLLight α) (h : sh.lightsLoadedNum < MAX_LIGHT_NUM)
    (hdata : light.toDataPtr = .ok data) :
    addLight light position direction sh =
      .ok (sh.appended { data with position := some position, direction := some direction }) := by
  unfold addLight
  rw [if_neg (Nat.not_le.mpr h)]
  simp only [hdata, appended, Nat.add_sub_cancel]

/-- With room in the registry, `addLight` of a base light throws after the
count is raised. -/
theorem addLight_base (a d s : Vec3 α) (position direction : Vec3 α) (sh : LightingShader α)
    (h : sh.lightsLoadedNum < MAX_LIGHT_NUM) :
    addLight (.base a d s) position direction sh =
      .error ("data pointer query on light without type",
        { sh with lightsLoadedNum := sh.lightsLoadedNum + 1,
                  uboCount := sh.lightsLoadedNum + 1 }) := by
  unfold addLight
  rw [if_neg (Nat.not_le.mpr h)]
  rfl

/-- The count never exceeds the capacity after `addLight`, returning or
throwing, when it did not before. -/
theorem addLight_count_le (light : Light α) (position direction : Vec3 α)
    (sh : LightingShader α) (h : sh.lightsLoadedNum ≤ MAX_LIGHT_NUM) :
    (∀ sh1, addLight light position direction sh = .ok sh1 →
      sh1.lightsLoadedNum ≤ MAX_LIGHT_NUM) ∧
    (∀ e sh1, addLight light position direction sh = .error (e, sh1) →
      sh1.lightsLoadedNum ≤ MAX_LIGHT_NUM) := by
  by_cases hfull : MAX_LIGHT_NUM ≤ sh.lightsLoadedNum
  · rw [addLight_full light position direction sh hfull]
    constructor
    · intro sh1 h1; cases h1
    · intro e sh1 h1; cases h1; exact h
  · have hlt : sh.lightsLoadedNum < MAX_LIGHT_NUM := Nat.not_le.mp hfull
    unfold addLight
    rw [if_neg hfull]
    cases hd : light.toDataPtr with
    | error e0 =>
      constructor
      · intro sh1 h1; cases h1
      · intro e sh1 h1; cases h1; exact hlt
    | ok data =>
      constructor
      · intro sh1 h1; cases h1; exact hlt
      · intro e sh1 h1; cases h1

/-- The outcomes of a sequence of registrations of typed lights: the call
number `k` returns exactly when `count + k` is below the capacity, and the
count ends at `count + length`, capped at the capacity. -/
theorem addLights_typed (calls : List (Light α × Vec3 α × Vec3 α)) :
    ∀ sh : LightingShader α, sh.lightsLoadedNum ≤ MAX_LIGHT_NUM →
      (∀ call ∈ calls, call.1.type ≠ .LIGHT_NONE) →
      (addLights calls sh).1 =
          (List.range calls.length).map
            (fun k => decide (sh.lightsLoadedNum + k < MAX_LIGHT_NUM)) ∧
        (addLights calls sh).2.lightsLoadedNum =
          min (sh.lightsLoadedNum + calls.length) MAX_LIGHT_NUM := by
  induction calls with
  | nil =>
    intro sh hle _
    simp [addLights, hle]
  | cons call calls ih =>
    intro sh hle htyped
    have hrest : ∀ c ∈ calls, c.1.type ≠ .LIGHT_NONE := fun c hc =>
      htyped c (List.mem_cons_of_mem _ hc)
    by_cases hfull : MAX_LIGHT_NUM ≤ sh.lightsLoadedNum
    · have e := addLight_full call.1 call.2.1 call.2.2 sh hfull
      obtain ⟨ih1, ih2⟩ := ih sh hle hrest
      simp only [addLights, e, ih1, ih2, List.length_cons, List.range_succ_eq_map, List.map_cons,
        List.map_map]
      refine ⟨?_, ?_⟩
      · congr 1
        · simp; omega
        · apply List.map_congr_left
          intro k _
          simp only [Function.comp, decide_eq_decide]
          omega
      · omega
    · have hlt : sh.lightsLoadedNum < MAX_LIGHT_NUM := Nat.not_le.mp hfull
      obtain ⟨data, hdata⟩ := toDataPtr_of_typed call.1 (htyped call (List.mem_cons_self _ _))
      have e := addLight_room call.1 call.2.1 call.2.2 sh data hlt hdata
      obtain ⟨ih1, ih2⟩ := ih (sh.appended
        { data with position := some call.2.1, direction := some call.2.2 }) hlt hrest
      simp only [addLights, e, ih1, ih2, List.length_cons, List.range_succ_eq_map, List.map_cons,
        List.map_map]
      refine ⟨?_, ?_⟩
      · congr 1
        · simp; omega
        · apply List.map_congr_left
          intro k _
          simp only [Function.comp, decide_eq_decide, appended]
          omega
      · simp only [appended]
        omega

/-- The count of a reachable shader is at most the capacity. -/
theorem Reachable.count_le (sh : LightingShader α) (h : Reachable sh) :
    sh.lightsLoadedNum ≤ MAX_LIGHT_NUM := by
  induction h with
  | create uboCount uboLights => exact Nat.zero_le _
  | resetLights sh _ _ => exact Nat.zero_le _
  | addLight_ok light position direction sh sh1 _ hadd ih =>
    exact (addLight_count_le light position direction sh ih).1 sh1 hadd
  | addLight_error light position direction sh sh1 e _ hadd ih =>
    exact (addLight_count_le light position direction sh ih).2 e sh1 hadd

/-- C21: for a light of type Directional, Point or Spotlight, `addLight` on a
full registry (count at the capacity 50, or above) throws and leaves the
shader, count and records, as it was; with count `n` below the capacity it
returns, slot `n` holds the record of the light with the position and the
direction of the call, every other slot is as before, and the count, in the
member and in the header of the buffer, is `n + 1`. -/
theorem addLight_spec (light : Light α) (position direction : Vec3 α) (sh : LightingShader α)
    (htyped : light.type = .LIGHT_DIRECTIONAL ∨ light.type = .LIGHT_POINT ∨
      light.type = .LIGHT_SPOTLIGHT) :
    (MAX_LIGHT_NUM ≤ sh.lightsLoadedNum →
      ∃ e, addLight light position direction sh = .error (e, sh)) ∧
    (sh.lightsLoadedNum < MAX_LIGHT_NUM →
      ∃ data sh1, light.toDataPtr = .ok data ∧
        addLight light position direction sh = .ok sh1 ∧
        sh1.uboLights sh.lightsLoadedNum =
          some { data with position := some position, direction := some direction } ∧
        (∀ k, k ≠ sh.lightsLoadedNum → sh1.uboLights k = sh.uboLights k) ∧
        sh1.lightsLoadedNum = sh.lightsLoadedNum + 1 ∧
        sh1.uboCount = sh.lightsLoadedNum + 1) := by
  constructor
  · intro hfull
    exact ⟨_, addLight_full light position direction sh hfull⟩
  · intro hroom
    have hne : light.type ≠ .LIGHT_NONE := by
      rcases htyped with h | h | h <;> rw [h] <;> decide
    obtain ⟨data, hdata⟩ := toDataPtr_of_typed light hne
    refine ⟨data, _, hdata, addLight_room light position direction sh data hroom hdata, ?_, ?_,
      rfl, rfl⟩
    · simp [appended]
    · intro k hk
      simp [appended, Function.update_noteq hk]

/-- C22: from a registry that was just reset, of `MAX_LIGHT_NUM + 1`
registrations of typed lights in a row the first `MAX_LIGHT_NUM` return and
exactly the last one throws; `resetLights` sets the count to `0` from every
state, also from the one this failure leaves, and after it the same holds
again: 50 registrations return and the next one throws.  In every reachable
state the count is at most `MAX_LIGHT_NUM`. -/
theorem registry_capacity (sh : LightingShader α) (calls : List (Light α × Vec3 α × Vec3 α))
    (htyped : ∀ call ∈ calls, call.1.type ≠ .LIGHT_NONE)
    (hlen : calls.length = MAX_LIGHT_NUM + 1) :
    (addLights calls (resetLights sh)).1 = List.replicate MAX_LIGHT_NUM true ++ [false] ∧
    (addLights calls (resetLights sh)).2.lightsLoadedNum = MAX_LIGHT_NUM ∧
    (resetLights sh).lightsLoadedNum = 0 ∧
    (resetLights (addLights calls (resetLights sh)).2).lightsLoadedNum = 0 ∧
    (addLights calls (resetLights (addLights calls (resetLights sh)).2)).1 =
      List.replicate MAX_LIGHT_NUM true ++ [false] ∧
    (∀ s : LightingShader α, Reachable s → s.lightsLoadedNum ≤ MAX_LIGHT_NUM) := by
  have key : ∀ s : LightingShader α,
      (addLights calls (resetLights s)).1 = List.replicate MAX_LIGHT_NUM true ++ [false] ∧
        (addLights calls (resetLights s)).2.lightsLoadedNum = MAX_LIGHT_NUM := by
    intro s
    obtain ⟨h1, h2⟩ := addLights_typed calls (resetLights s) (Nat.zero_le _) htyped
    rw [h1, h2, hlen]
    simp only [resetLights, MAX_LIGHT_NUM]
    constructor
    · rfl
    · rfl
  exact ⟨(key sh).1, (key sh).2, rfl, rfl, (key _).1, fun s hs => hs.count_le⟩

/-- C29 on the code: a call of `addLight` that throws on a full registry leaves
the shader as it was, but a call that throws with room in the registry (the
light is a base `Light` without type) leaves the count raised by one, in the
member and in the header of the buffer, with the records as they were. -/
theorem addLight_failure_count (light : Light α) (position direction : Vec3 α)
    (sh sh1 : LightingShader α) (e : String)
    (hfail : addLight light position direction sh = .error (e, sh1)) :
    (MAX_LIGHT_NUM ≤ sh.lightsLoadedNum → sh1 = sh) ∧
    (sh.lightsLoadedNum < MAX_LIGHT_NUM →
      light.type = .LIGHT_NONE ∧ sh1.lightsLoadedNum = sh.lightsLoadedNum + 1 ∧
        sh1.uboCount = sh.lightsLoadedNum + 1 ∧ sh1.uboLights = sh.uboLights) := by
  constructor
  · intro hfull
    rw [addLight_full light position direction sh hfull] at hfail
    cases hfail
    rfl
  · intro hroom
    cases light with
    | base a d s =>
      rw [addLight_base a d s position direction sh hroom] at hfail
      cases hfail
      exact ⟨rfl, rfl, rfl, rfl⟩
    | directional a d s =>
      rw [addLight_room (.directional a d s) position direction sh _ hroom rfl] at hfail
      cases hfail
    | point a d s c l q =>
      rw [addLight_room (.point a d s c l q) position direction sh _ hroom rfl] at hfail
      cases hfail
    | spot a d s co ex c l q =>
      rw [addLight_room (.spot a d s co ex c l q) position direction sh _ hroom rfl] at hfail
      cases hfail

end LightingShader

/-! ## Light registry: evaluation on concrete inputs -/

/-- Witness for C21: the sun light is refused by the full shader, which stays
as it is, and stored in slot `0` of the empty one. -/
theorem addLight_spec_witness :
    (∃ e, LightingShader.addLight sunLight ⟨0, 0, 0⟩ ⟨0, -1, 0⟩ fullShader =
      .error (e, fullShader)) ∧
    ∃ data sh1, sunLight.toDataPtr = .ok data ∧
      LightingShader.addLight sunLight ⟨0, 0, 0⟩ ⟨0, -1, 0⟩ emptyShader = .ok sh1 ∧
      sh1.uboLights emptyShader.lightsLoadedNum =
        some { data with position := some ⟨0, 0, 0⟩, direction := some ⟨0, -1, 0⟩ } ∧
      (∀ k, k ≠ emptyShader.lightsLoadedNum → sh1.uboLights k = emptyShader.uboLights k) ∧
      sh1.lightsLoadedNum = emptyShader.lightsLoadedNum + 1 ∧
      sh1.uboCount = emptyShader.lightsLoadedNum + 1 :=
  ⟨(LightingShader.addLight_spec sunLight ⟨0, 0, 0⟩ ⟨0, -1, 0⟩ fullShader (Or.inl rfl)).1
      (by decide),
    (LightingShader.addLight_spec sunLight ⟨0, 0, 0⟩ ⟨0, -1, 0⟩ emptyShader (Or.inl rfl)).2
      (by decide)⟩

/-- Witness for C22: 51 registrations of the bulb light on the full shader
after a reset. -/
theorem registry_capacity_witness :
    (LightingShader.addLights (List.replicate 51 (bulbLight, (⟨0, 5, 0⟩ : Vec3 ℚ), (⟨0, 0, 0⟩ : Vec3 ℚ)))
        (LightingShader.resetLights fullShader)).1 =
      List.replicate MAX_LIGHT_NUM true ++ [false] ∧
    (LightingShader.addLights (List.replicate 51 (bulbLight, (⟨0, 5, 0⟩ : Vec3 ℚ), (⟨0, 0, 0⟩ : Vec3 ℚ)))
        (LightingShader.resetLights fullShader)).2.lightsLoadedNum = MAX_LIGHT_NUM := by
  have h := LightingShader.registry_capacity fullShader
    (List.replicate 51 (bulbLight, (⟨0, 5, 0⟩ : Vec3 ℚ), (⟨0, 0, 0⟩ : Vec3 ℚ)))
    (by
      intro call hcall
      rw [List.eq_of_mem_replicate hcall]
      simp [bulbLight, Light.type])
    (by simp [MAX_LIGHT_NUM])
  exact ⟨h.1, h.2.1⟩

/-- Witness for C29 on the code, the failing input: a base `Light` handed to
the empty shader makes `addLight` throw, and the count is `1` afterwards. -/
theorem addLight_failure_count_witness :
    emptyShader.lightsLoadedNum = 0 ∧
    LightingShader.addLight (.base ⟨1, 1, 1⟩ ⟨1, 1, 1⟩ ⟨1, 1, 1⟩) ⟨0, 0, 0⟩ ⟨0, -1, 0⟩ emptyShader =
      .error ("data pointer query on light without type",
        { emptyShader with lightsLoadedNum := 1, uboCount := 1 }) ∧
    ({ emptyShader with lightsLoadedNum := 1, uboCount := 1 } : LightingShader ℚ).lightsLoadedNum =
      emptyShader.lightsLoadedNum + 1 :=
  ⟨rfl, rfl,
    ((LightingShader.addLight_failure_count (.base ⟨1, 1, 1⟩ ⟨1, 1, 1⟩ ⟨1, 1, 1⟩) ⟨0, 0, 0⟩
      ⟨0, -1, 0⟩ emptyShader { emptyShader with lightsLoadedNum := 1, uboCount := 1 }
      "data pointer query on light without type" rfl).2 (by decide)).2.1⟩

/-! ## Camera: construction with bounds -/

section Construction

variable {α : Type} [LinearOrderedField α]

namespace Camera

/-- With a non-positive width or length no candidate passes the boundary
check: whenever `checkBoundariesAndMove` returns, the camera is as it was. -/
theorem checkBoundariesAndMove_of_malformed (c : Camera α)
    (h : c.widthBoundary ≤ 0 ∨ c.lengthBoundary ≤ 0) (newPos : Vec3 α) (ps : ParticleSystem α)
    (c' : Camera α) (ps' : ParticleSystem α)
    (hok : checkBoundariesAndMove c newPos ps = .ok (c', ps')) : c' = c := by
  refine ((checkBoundariesAndMove_cases c newPos ps).2 ?_).2 c' ps' hok
  rintro ⟨h1, h2, _⟩
  rcases h with h | h
  · have := abs_nonneg newPos.x
    linarith
  · have := abs_nonneg newPos.z
    linarith

/-- C23, as amended: the constructor of the bounded camera does not fail on a
width or length that is not positive: it yields a camera, unlocked and in no
mode, that stores both values as given.  No candidate position passes the
boundary check of this camera, and in every later state of a camera with these
boundaries each of the four movement methods, whenever it returns, leaves the
camera as it was. -/
theorem bounded_malformed (G : Glm α) (raw : Camera α) (position direction : Vec3 α)
    (nearPlane farPlane captureAngle movementSpeed width length up : α) (down : α → α → α)
    (h : width ≤ 0 ∨ length ≤ 0) :
    (bounded G raw position direction nearPlane farPlane captureAngle movementSpeed
      width length up down).widthBoundary = width ∧
    (bounded G raw position direction nearPlane farPlane captureAngle movementSpeed
      width length up down).lengthBoundary = length ∧
    (bounded G raw position direction nearPlane farPlane captureAngle movementSpeed
      width length up down).position = position ∧
    (bounded G raw position direction nearPlane farPlane captureAngle movementSpeed
      width length up down).locked = false ∧
    (bounded G raw position direction nearPlane farPlane captureAngle movementSpeed
      width length up down).freeMode = false ∧
    (∀ newPos ps c' ps',
      checkBoundariesAndMove (bounded G raw position direction nearPlane farPlane captureAngle
        movementSpeed width length up down) newPos ps = .ok (c', ps') →
      c' = bounded G raw position direction nearPlane farPlane captureAngle movementSpeed
        width length up down) ∧
    (∀ c : Camera α, c.widthBoundary = width → c.lengthBoundary = length →
      ∀ (G1 : Glm α) (refreshRate : Int) (ps : ParticleSystem α) (mv : Move) c' ps',
        mv.run G1 refreshRate c ps = .ok (c', ps') → c' = c) := by
  refine ⟨rfl, rfl, rfl, rfl, rfl, ?_, ?_⟩
  · intro newPos ps c' ps' hok
    exact checkBoundariesAndMove_of_malformed _ h newPos ps c' ps' hok
  · intro c hw hl G1 refreshRate ps mv c' ps' hok
    rw [Move.run_eq] at hok
    split at hok
    · exact checkBoundariesAndMove_of_malformed c (by rw [hw, hl]; exact h) _ ps c' ps' hok
    · cases hok
      rfl

end Camera

end Construction

/-! ## Camera: the frame of `rotateView` -/

section Frame

variable {α : Type} [LinearOrderedField α] [FloorRing α]

/-- C24: for every camera and every pair of angle changes, the direction and
the up vector that `rotateView` computes from the new yaw and pitch are
`(sin yaw * cos pitch, sin pitch, cos yaw * cos pitch)` and
`(-sin yaw * sin pitch, cos pitch, -cos yaw * sin pitch)`; with `sin` and `cos`
on the unit circle (`sin t ^ 2 + cos t ^ 2 = 1` for every `t`) both have
squared length `1` and their dot product is `0`. -/
theorem Camera.rotateView_orthonormal (G : Glm α) (c : Camera α) (dyaw dpitch : α)
    (hG : ∀ t, G.sin t * G.sin t + G.cos t * G.cos t = 1) :
    (c.rotateView G dyaw dpitch).direction =
      ⟨G.sin (G.radians (c.rotateView G dyaw dpitch).yaw) *
          G.cos (G.radians (c.rotateView G dyaw dpitch).pitch),
        G.sin (G.radians (c.rotateView G dyaw dpitch).pitch),
        G.cos (G.radians (c.rotateView G dyaw dpitch).yaw) *
          G.cos (G.radians (c.rotateView G dyaw dpitch).pitch)⟩ ∧
    (c.rotateView G dyaw dpitch).up =
      ⟨-G.sin (G.radians (c.rotateView G dyaw dpitch).yaw) *
          G.sin (G.radians (c.rotateView G dyaw dpitch).pitch),
        G.cos (G.radians (c.rotateView G dyaw dpitch).pitch),
        -G.cos (G.radians (c.rotateView G dyaw dpitch).yaw) *
          G.sin (G.radians (c.rotateView G dyaw dpitch).pitch)⟩ ∧
    (c.rotateView G dyaw dpitch).direction.dot (c.rotateView G dyaw dpitch).direction = 1 ∧
    (c.rotateView G dyaw dpitch).up.dot (c.rotateView G dyaw dpitch).up = 1 ∧
    (c.rotateView G dyaw dpitch).direction.dot (c.rotateView G dyaw dpitch).up = 0 := by
  have hy := hG (G.radians (glmMod (c.yaw + dyaw) 360))
  have hp := hG (G.radians (glmMax (glmMin (c.pitch + dpitch) 90) (-90)))
  refine ⟨rfl, rfl, ?_, ?_, ?_⟩
  · simp only [Camera.rotateView, Vec3.dot]
    linear_combination
      (G.cos (G.radians (glmMax (glmMin (c.pitch + dpitch) 90) (-90))) *
        G.cos (G.radians (glmMax (glmMin (c.pitch + dpitch) 90) (-90)))) * hy + hp
  · simp only [Camera.rotateView, Vec3.dot]
    linear_combination
      (G.sin (G.radians (glmMax (glmMin (c.pitch + dpitch) 90) (-90))) *
        G.sin (G.radians (glmMax (glmMin (c.pitch + dpitch) 90) (-90)))) * hy + hp
  · simp only [Camera.rotateView, Vec3.dot]
    linear_combination
      (-(G.sin (G.radians (glmMax (glmMin (c.pitch + dpitch) 90) (-90))) *
        G.cos (G.radians (glmMax (glmMin (c.pitch + dpitch) 90) (-90))))) * hy

end Frame

/-! ## Camera: construction and frame on concrete inputs -/

/-- Counterexample to C23 as stated: the constructor called with width `0`
yields a camera, with `widthBoundary = 0`; this camera rejects a step of half a
unit that is inside every other limit. -/
theorem bounded_zero_width_constructs :
    zeroWidthCamera.widthBoundary = 0 ∧ zeroWidthCamera.lengthBoundary = 500 ∧
    zeroWidthCamera.position = ⟨0, 10, 0⟩ ∧
    Camera.checkBoundariesAndMove zeroWidthCamera ⟨0, 10, 1 / 2⟩ readyParticles =
      .ok (zeroWidthCamera, readyParticles) := by
  refine ⟨rfl, rfl, rfl, ?_⟩
  rw [Camera.checkBoundariesAndMove_eq]
  norm_num [zeroWidthCamera, Camera.bounded, Camera.initBoundaries, Camera.circlingParameters,
    ridge]

/-- Witness for C23 as amended: width `0` and length `500`. -/
theorem bounded_malformed_witness :
    ((0 : ℚ) ≤ 0 ∨ (500 : ℚ) ≤ 0) ∧
    zeroWidthCamera.widthBoundary = 0 ∧ zeroWidthCamera.locked = false ∧
    (∀ newPos ps c' ps',
      Camera.checkBoundariesAndMove zeroWidthCamera newPos ps = .ok (c', ps') →
        c' = zeroWidthCamera) ∧
    (∀ c' ps', Move.forward.run unitGlm 60 { zeroWidthCamera with freeMode := true }
        readyParticles = .ok (c', ps') → c' = { zeroWidthCamera with freeMode := true }) := by
  have h := Camera.bounded_malformed unitGlm (sampleCamera false false ⟨0, 0, 0⟩ ⟨0, 0, 0⟩)
    ⟨0, 10, 0⟩ ⟨0, -1, 1⟩ (1 / 100) 150 60 50 0 500 80 ridge (Or.inl (le_refl 0))
  exact ⟨Or.inl (le_refl 0), h.1, h.2.2.2.1, h.2.2.2.2.2.1,
    fun c' ps' hok => h.2.2.2.2.2.2 { zeroWidthCamera with freeMode := true } rfl rfl unitGlm 60
      readyParticles Move.forward c' ps' hok⟩

/-- Witness for C24: with `sin = 3 / 5` and `cos = 4 / 5` the direction is
`(12 / 25, 3 / 5, 16 / 25)` and the up vector `(-9 / 25, 4 / 5, -12 / 25)`. -/
theorem rotateView_orthonormal_witness :
    (∀ t, pythagoreanGlm.sin t * pythagoreanGlm.sin t +
      pythagoreanGlm.cos t * pythagoreanGlm.cos t = 1) ∧
    ((sampleCamera true false ⟨0, 10, 0⟩ ⟨0, 0, 1⟩).rotateView pythagoreanGlm 30 20).direction =
      ⟨12 / 25, 3 / 5, 16 / 25⟩ ∧
    ((sampleCamera true false ⟨0, 10, 0⟩ ⟨0, 0, 1⟩).rotateView pythagoreanGlm 30 20).up =
      ⟨-9 / 25, 4 / 5, -12 / 25⟩ ∧
    ((sampleCamera true false ⟨0, 10, 0⟩ ⟨0, 0, 1⟩).rotateView pythagoreanGlm 30 20).direction.dot
      ((sampleCamera true false ⟨0, 10, 0⟩ ⟨0, 0, 1⟩).rotateView pythagoreanGlm 30 20).direction
        = 1 ∧
    ((sampleCamera true false ⟨0, 10, 0⟩ ⟨0, 0, 1⟩).rotateView pythagoreanGlm 30 20).up.dot
      ((sampleCamera true false ⟨0, 10, 0⟩ ⟨0, 0, 1⟩).rotateView pythagoreanGlm 30 20).up = 1 ∧
    ((sampleCamera true false ⟨0, 10, 0⟩ ⟨0, 0, 1⟩).rotateView pythagoreanGlm 30 20).direction.dot
      ((sampleCamera true false ⟨0, 10, 0⟩ ⟨0, 0, 1⟩).rotateView pythagoreanGlm 30 20).up = 0 := by
  have hG : ∀ t : ℚ, pythagoreanGlm.sin t * pythagoreanGlm.sin t +
      pythagoreanGlm.cos t * pythagoreanGlm.cos t = 1 := by
    intro t
    norm_num [pythagoreanGlm]
  obtain ⟨hd, hu, h1, h2, h3⟩ := Camera.rotateView_orthonormal pythagoreanGlm
    (sampleCamera true false ⟨0, 10, 0⟩ ⟨0, 0, 1⟩) 30 20 hG
  refine ⟨hG, ?_, ?_, h1, h2, h3⟩
  · rw [hd]
    norm_num [pythagoreanGlm]
  · rw [hu]
    norm_num [pythagoreanGlm]

/-! ## Cameras and modes: the invariant and the orbit tick -/

namespace CameraSystem

variable {α : Type}

/-- C28: in every state reachable from a state without mode flags by calls of
`makeActive`, `toggleFreeMode` and `toggleCircling` on any cameras, at most one
camera has `freeMode` or `circling` set; such a camera is the active camera, its
`lastActive` points to itself and it does not have both flags set; no locked
camera is circling.  In such a state each of the three calls returns, on every
camera. -/
theorem modes_of_reachable (s : CameraSystem α) (h : Reachable s) :
    (∀ x y, ((s.cameras x).freeMode = true ∨ (s.cameras x).circling = true) →
      ((s.cameras y).freeMode = true ∨ (s.cameras y).circling = true) → x = y) ∧
    (∀ x, ((s.cameras x).freeMode = true ∨ (s.cameras x).circling = true) →
      s.active = some x ∧ (s.cameras x).lastActive = some x ∧
        ¬ ((s.cameras x).freeMode = true ∧ (s.cameras x).circling = true)) ∧
    (∀ x, (s.cameras x).locked = true → (s.cameras x).circling = false) ∧
    (∀ x, (∃ s', makeActive x s = some s') ∧ (∃ s', toggleFreeMode x s = some s') ∧
      ∃ s', toggleCircling x s = some s') := by
  have hinv := h.modeInvariant
  refine ⟨?_, ?_, ?_, ?_⟩
  · intro x y hx hy
    have h1 := (hinv x hx).1
    have h2 := (hinv y hy).1
    rw [h1] at h2
    exact Option.some.inj h2
  · intro x hx
    obtain ⟨h1, h2, h3, _⟩ := hinv x hx
    exact ⟨h1, h2, h3⟩
  · intro x hl
    by_cases hc : (s.cameras x).circling = true
    · have := (hinv x (Or.inr hc)).2.2.2 hc
      rw [hl] at this
      cases this
    · simpa using hc
  · intro x
    obtain ⟨t, ht, _⟩ := makeActive_of_invariant x s hinv
    refine ⟨⟨t, ht⟩, ?_, ?_⟩
    · unfold toggleFreeMode toggleFreeModeWith
      by_cases hf : (s.cameras x).freeMode = true
      · exact ⟨_, if_pos hf⟩
      · rw [if_neg hf, ht]
        exact ⟨_, rfl⟩
    · unfold toggleCircling toggleCirclingWith
      by_cases hl : (s.cameras x).locked = true
      · exact ⟨_, if_pos hl⟩
      · rw [if_neg hl]
        by_cases hc : (s.cameras x).circling = true
        · exact ⟨_, if_pos hc⟩
        · rw [if_neg hc, ht]
          exact ⟨_, rfl⟩

end CameraSystem

/-- Witness for C28: after `toggleCircling` on the dynamic camera 0, with the
static camera 1 active before, camera 0 is the only camera in a mode, it is
active and its `lastActive` is itself. -/
theorem modes_of_reachable_witness :
    ∃ s1, CameraSystem.toggleCircling 0 (sampleSystem (some 1)) = some s1 ∧
      CameraSystem.Reachable s1 ∧ (s1.cameras 0).circling = true ∧
      s1.active = some 0 ∧ (s1.cameras 0).lastActive = some 0 ∧
      (s1.cameras 0).freeMode = false ∧
      ∀ y, ((s1.cameras y).freeMode = true ∨ (s1.cameras y).circling = true) → 0 = y := by
  have hinit : CameraSystem.Reachable (sampleSystem (some 1)) :=
    CameraSystem.Reachable.initial _ (fun x => by
      by_cases hx : x = 0 <;> simp [sampleSystem, sampleCamera, hx])
  obtain ⟨s1, hs1, hc⟩ : ∃ s1,
      CameraSystem.toggleCircling 0 (sampleSystem (some 1)) = some s1 ∧
        (s1.cameras 0).circling = true := by
    simp [CameraSystem.toggleCircling, CameraSystem.toggleCirclingWith,
      CameraSystem.makeActive, sampleSystem, sampleCamera]
  have hreach : CameraSystem.Reachable s1 :=
    CameraSystem.Reachable.toggleCircling 0 _ s1 hinit hs1
  obtain ⟨huniq, hact, _, _⟩ := CameraSystem.modes_of_reachable s1 hreach
  obtain ⟨ha, hla, hboth⟩ := hact 0 (Or.inr hc)
  refine ⟨s1, hs1, hreach, hc, ha, hla, ?_, fun y hy => huniq 0 y (Or.inr hc) hy⟩
  by_cases hf : (s1.cameras 0).freeMode = true
  · exact absurd ⟨hf, hc⟩ hboth
  · simpa using hf

/-- C30 at the failing inputs.  First: the dynamic camera 0 is active and
`toggleCircling` is called on it twice; one tick is still pending, camera 0 is
active and not circling, and when the tick fires (at elapsed time `0`) the
position of camera 0 changes from `(0, 10, 0)` to `(0, 20, 40)`.  Second:
`toggleCircling` on camera 0, then `makeActive` on the locked static camera 1;
camera 1 is active, locked and not circling, one tick is pending, and when it
fires the position of camera 1 changes from `(20, 20, 20)` to `(0, 20, 40)`. -/
theorem tick_moves_camera_not_circling :
    (∃ s1 s2 s3, CameraSystem.toggleCircling 0 (sampleSystem (some 0)) = some s1 ∧
      CameraSystem.toggleCircling 0 s1 = some s2 ∧ CameraSystem.Reachable s2 ∧
      CameraSystem.fireCircleTimer unitGlm 0 s2 = some s3 ∧
      s2.active = some 0 ∧ (s2.cameras 0).circling = false ∧ s2.circleTimers = 1 ∧
      (s2.cameras 0).position = ⟨0, 10, 0⟩ ∧ (s3.cameras 0).position = ⟨0, 20, 40⟩) ∧
    (∃ s1 s2 s3, CameraSystem.toggleCircling 0 (sampleSystem (some 0)) = some s1 ∧
      CameraSystem.makeActive 1 s1 = some s2 ∧ CameraSystem.Reachable s2 ∧
      CameraSystem.fireCircleTimer unitGlm 0 s2 = some s3 ∧
      s2.active = some 1 ∧ (s2.cameras 1).circling = false ∧ (s2.cameras 1).locked = true ∧
      s2.circleTimers = 1 ∧
      (s2.cameras 1).position = ⟨20, 20, 20⟩ ∧ (s3.cameras 1).position = ⟨0, 20, 40⟩) := by
  have hinit : CameraSystem.Reachable (sampleSystem (some 0)) :=
    CameraSystem.Reachable.initial _ (fun x => by
      by_cases hx : x = 0 <;> simp [sampleSystem, sampleCamera, hx])
  constructor
  · obtain ⟨s1, s2, s3, h1, h2, h3, rest⟩ : ∃ s1 s2 s3,
        CameraSystem.toggleCircling 0 (sampleSystem (some 0)) = some s1 ∧
        CameraSystem.toggleCircling 0 s1 = some s2 ∧
        CameraSystem.fireCircleTimer unitGlm 0 s2 = some s3 ∧
        s2.active = some 0 ∧ (s2.cameras 0).circling = false ∧ s2.circleTimers = 1 ∧
        (s2.cameras 0).position = ⟨0, 10, 0⟩ ∧ (s3.cameras 0).position = ⟨0, 20, 40⟩ := by
      simp [CameraSystem.toggleCircling, CameraSystem.toggleCirclingWith,
        CameraSystem.makeActive, CameraSystem.fireCircleTimer, CameraSystem.circleTimerCallback,
        sampleSystem, sampleCamera, unitGlm, Vec3.add]
    exact ⟨s1, s2, s3, h1, h2,
      CameraSystem.Reachable.toggleCircling 0 s1 s2
        (CameraSystem.Reachable.toggleCircling 0 _ s1 hinit h1) h2, h3, rest⟩
  · obtain ⟨s1, s2, s3, h1, h2, h3, rest⟩ : ∃ s1 s2 s3,
        CameraSystem.toggleCircling 0 (sampleSystem (some 0)) = some s1 ∧
        CameraSystem.makeActive 1 s1 = some s2 ∧
        CameraSystem.fireCircleTimer unitGlm 0 s2 = some s3 ∧
        s2.active = some 1 ∧ (s2.cameras 1).circling = false ∧ (s2.cameras 1).locked = true ∧
        s2.circleTimers = 1 ∧
        (s2.cameras 1).position = ⟨20, 20, 20⟩ ∧ (s3.cameras 1).position = ⟨0, 20, 40⟩ := by
      simp [CameraSystem.toggleCircling, CameraSystem.toggleCirclingWith,
        CameraSystem.makeActive, CameraSystem.fireCircleTimer, CameraSystem.circleTimerCallback,
        sampleSystem, sampleCamera, unitGlm, Vec3.add]
    exact ⟨s1, s2, s3, h1, h2,
      CameraSystem.Reachable.makeActive 1 s1 s2
        (CameraSystem.Reachable.toggleCircling 0 _ s1 hinit h1) h2, h3, rest⟩

/-! ## Terrain: index range, normal lookups and normals -/

/-- An invariant of the loop body is an invariant of the loop. -/
theorem forLoop_invariant {σ : Type} (P : σ → Prop) (body : Nat → σ → σ)
    (hbody : ∀ i s, P s → P (body i s)) (n : Nat) (s : σ) (hs : P s) :
    P (forLoop n body s) := by
  induction n with
  | zero => exact hs
  | succ n ih =>
    rw [forLoop_succ]
    exact hbody n _ ih

/-- The exact inverse square root on the rational squares is positive. -/
theorem ratInverseSqrt_pos (t : ℚ) : 0 < ratInverseSqrt t := by
  unfold ratInverseSqrt
  split
  · rename_i h
    have h0 : 0 ≤ Rat.sqrt t := Rat.sqrt_nonneg t
    have hne : Rat.sqrt t ≠ 0 := by
      intro hz
      rw [hz, mul_zero] at h
      exact absurd h.2.symm (ne_of_gt h.1)
    exact inv_pos.mpr (lt_of_le_of_ne h0 (Ne.symm hne))
  · exact one_pos

/-- The exact inverse square root at a square `t * t`, `t` positive, is `1 / t`. -/
theorem ratInverseSqrt_sq (t : ℚ) (ht : 0 < t) : ratInverseSqrt (t * t) * t = 1 := by
  unfold ratInverseSqrt
  rw [Rat.sqrt_eq, abs_of_pos ht, if_pos ⟨mul_pos ht ht, rfl⟩]
  exact inv_mul_cancel₀ (ne_of_gt ht)

namespace TerrainMesh

variable {α : Type}

section
variable [Field α]

/-- The normal pushed for a vertex is the normalised cross product. -/
theorem normalAt_eq_normalize (G : Glm α) (perlin : α → α → α) (v : Vec3 α) :
    normalAt G perlin v = G.normalize (crossAt perlin v) := rfl

/-- The cross product for a vertex, component by component. -/
theorem crossAt_eq (perlin : α → α → α) (v : Vec3 α) :
    crossAt perlin v =
      ⟨-((perlin (v.x + 2 / 10) v.z - perlin (v.x - 2 / 10) v.z) * (2 * (2 / 10))),
        (2 * (2 / 10)) * (2 * (2 / 10)),
        -((2 * (2 / 10)) * (perlin v.x (v.z + 2 / 10) - perlin v.x (v.z - 2 / 10)))⟩ := by
  unfold crossAt
  simp only [Vec3.sub, Vec3.cross]
  rw [Vec3.mk.injEq]
  refine ⟨?_, ?_, ?_⟩ <;> ring

/-- Every normal of a mesh that `generate` returns for a fresh mesh was
computed by `normalAt` around some vertex. -/
theorem generate_normals_mem (G : Glm α) (perlin : α → α → α) (W H flags : Nat)
    (m' : TerrainMesh α) (h : generate G perlin (init W H flags) = some m') :
    ∀ n ∈ m'.normals, ∃ v, n = normalAt G perlin v := by
  unfold generate at h
  rw [Option.map_eq_some'] at h
  obtain ⟨m1, h1, rfl⟩ := h
  unfold fillNormals at h1
  split at h1
  · revert m1
    apply forLoop_invariant
      (fun r : Option (TerrainMesh α) =>
        ∀ m2, r = some m2 → ∀ n ∈ (fillTexCoords m2).normals, ∃ v, n = normalAt G perlin v)
    · intro i r hr
      apply forLoop_invariant
        (fun r : Option (TerrainMesh α) =>
          ∀ m2, r = some m2 → ∀ n ∈ (fillTexCoords m2).normals, ∃ v, n = normalAt G perlin v)
      · intro j r2 hr2 m3 h3
        cases r2 with
        | none => simp at h3
        | some m2 =>
          simp only [Option.some_bind, Option.map_eq_some'] at h3
          obtain ⟨v, _, hv⟩ := h3
          subst hv
          intro n hn
          rw [(fillTexCoords_frame _).2.2, List.mem_append, List.mem_singleton] at hn
          rcases hn with hn | hn
          · exact hr2 m2 rfl n (by rw [(fillTexCoords_frame _).2.2]; exact hn)
          · exact ⟨v, hn⟩
      · exact hr
    · intro m2 h2 n hn
      cases h2
      rw [(fillTexCoords_frame _).2.2, (core_fields perlin W H flags).2.2.2] at hn
      cases hn
  · cases h1
    intro n hn
    rw [(fillTexCoords_frame _).2.2, (core_fields perlin W H flags).2.2.2] at hn
    cases hn

/-- C25: for every width `W` and every height `H ≥ 1` (whether or not `W * H`
is below `2 ^ 32`), every index that the index loop of `generate` emits is below the vertex count
`W * H`, so in every mesh that `generate` returns every index refers to a
vertex of the mesh; for `H = 1` the index vector is empty; and `generate` does
return a mesh whenever normals are disabled or the mesh is at least as wide as
it is high. -/
theorem indices_in_range (G : Glm α) (perlin : α → α → α) (W H flags : Nat) (hH : 1 ≤ H) :
    (∀ k ∈ (fillIndices (fillVertices perlin (init W H flags))).indices, k < W * H) ∧
    (∀ m', generate G perlin (init W H flags) = some m' →
      ∀ k ∈ m'.indices, k < m'.vertices.length) ∧
    (H = 1 → (fillIndices (fillVertices perlin (init W H flags))).indices = [] ∧
      ∀ m', generate G perlin (init W H flags) = some m' → m'.indices = []) ∧
    (hasFlag flags NORMAL_BIT = false ∨ H ≤ W →
      ∃ m', generate G perlin (init W H flags) = some m') := by
  have hrange : ∀ k ∈ (fillIndices (fillVertices perlin (init W H flags))).indices,
      k < W * H := by
    intro k hk
    rw [indices_init, u32Sub_one H hH] at hk
    simp only [List.mem_flatMap, List.mem_range, List.mem_cons, List.mem_singleton,
      List.not_mem_nil, or_false] at hk
    obtain ⟨i, hi, j, hj, hk⟩ := hk
    have hb : (i + 1) * W + j < W * H := by
      calc (i + 1) * W + j < (i + 1) * W + W := by omega
        _ = (i + 2) * W := by ring
        _ ≤ H * W := Nat.mul_le_mul_right W (by omega)
        _ = W * H := Nat.mul_comm H W
    have ha : i * W + j < W * H := by
      have : i * W ≤ (i + 1) * W := Nat.mul_le_mul_right W (by omega)
      omega
    rcases hk with hk | hk
    · rw [hk]
      exact lt_of_le_of_lt (Nat.mod_le _ _) ha
    · rw [hk]
      exact lt_of_le_of_lt (Nat.mod_le _ _) hb
  have hempty : H = 1 → (fillIndices (fillVertices perlin (init W H flags))).indices = [] := by
    intro h1
    rw [indices_init, u32Sub_one H hH, h1]
    rfl
  refine ⟨hrange, ?_, ?_, ?_⟩
  · intro m' hm' k hk
    obtain ⟨e1, e2⟩ := generate_frame G perlin _ m' hm'
    rw [e2] at hk
    rw [e1, vertices_length_init]
    exact hrange k hk
  · intro h1
    refine ⟨hempty h1, ?_⟩
    intro m' hm'
    rw [(generate_frame G perlin _ m' hm').2]
    exact hempty h1
  · intro h
    by_cases hflag : hasFlag flags NORMAL_BIT = true
    · rcases h with h | h
      · rw [h] at hflag; cases hflag
      · obtain ⟨m', hm', _⟩ := generate_normals G perlin W H flags hflag
          (fun i j hi hj => normalLookupIndex_lt W H i j h hi hj)
        exact ⟨m', hm'⟩
    · exact generate_some_of_no_normals G perlin W H flags (by simpa using hflag)

end

/-- C26 on the code: for `W ≥ 1` and `W * H < 2 ^ 32`, the vertex
reads `vertices[i * height + j]` of the normal loop are all inside the vertex
array of `W * H` elements exactly when `H ≤ W`; on a mesh that is higher than
wide the read for `i = W`, `j = 0` is at position `W * H`, past the end. -/
theorem normal_lookup_in_range_iff (W H : Nat) (hW : 1 ≤ W) (hfit : W * H < 2 ^ 32) :
    ((∀ i j, i < H → j < W → normalLookupIndex H i j < W * H) ↔ H ≤ W) ∧
    (W < H → normalLookupIndex H W 0 = W * H) := by
  have hout : W < H → normalLookupIndex H W 0 = W * H := by
    intro _
    unfold normalLookupIndex u32
    rw [Nat.add_zero]
    exact Nat.mod_eq_of_lt hfit
  refine ⟨⟨?_, fun h i j hi hj => normalLookupIndex_lt W H i j h hi hj⟩, hout⟩
  intro h
  by_contra hlt
  have hWH : W < H := Nat.not_le.mp hlt
  have := h W 0 hWH hW
  rw [hout hWH] at this
  exact Nat.lt_irrefl _ this

section

variable [LinearOrderedField α]

/-- The squared length of the cross product for a vertex is positive: its `y`
component is not zero. -/
theorem dot_crossAt_pos (perlin : α → α → α) (v : Vec3 α) :
    0 < (crossAt perlin v).dot (crossAt perlin v) := by
  rw [crossAt_eq]
  simp only [Vec3.dot]
  have h1 := mul_self_nonneg
    (-((perlin (v.x + 2 / 10) v.z - perlin (v.x - 2 / 10) v.z) * (2 * (2 / 10))))
  have h2 := mul_self_nonneg
    (-((2 * (2 / 10)) * (perlin v.x (v.z + 2 / 10) - perlin v.x (v.z - 2 / 10))))
  have h3 : (0 : α) < (2 * (2 / 10)) * (2 * (2 / 10)) * ((2 * (2 / 10)) * (2 * (2 / 10))) := by
    norm_num
  linarith

/-- C27: in exact arithmetic the vector `cross(right - left, up - down)` that
`generate` normalises for a vertex has `y` component `4 * 0.2 ^ 2 = 0.16`,
whatever the height function is, so it is never the zero vector; with an
inverse square root that is positive on positive arguments every generated
normal has a positive `y` component; and with an inverse square root that is
exact on squares every normal of a constant height field is `(0, 1, 0)`. -/
theorem normal_y_positive (G : Glm α) (perlin : α → α → α) (vertex : Vec3 α)
    (W H flags : Nat)
    (hpos : ∀ t, 0 < t → 0 < G.inversesqrt t)
    (hsq : ∀ t, 0 < t → G.inversesqrt (t * t) * t = 1) :
    normalAt G perlin vertex = G.normalize (crossAt perlin vertex) ∧
    (crossAt perlin vertex).y = 4 * ((2 / 10) * (2 / 10)) ∧
    (crossAt perlin vertex).y = 16 / 100 ∧
    crossAt perlin vertex ≠ ⟨0, 0, 0⟩ ∧
    0 < (normalAt G perlin vertex).y ∧
    (∀ m', generate G perlin (init W H flags) = some m' → ∀ n ∈ m'.normals, 0 < n.y) ∧
    ((∀ x z x' z', perlin x z = perlin x' z') →
      normalAt G perlin vertex = ⟨0, 1, 0⟩ ∧
      ∀ m', generate G perlin (init W H flags) = some m' →
        ∀ n ∈ m'.normals, n = ⟨0, 1, 0⟩) := by
  have hy : ∀ v : Vec3 α, (crossAt perlin v).y = 16 / 100 := by
    intro v
    rw [crossAt_eq]
    norm_num
  have hpy : ∀ v : Vec3 α, 0 < (normalAt G perlin v).y := by
    intro v
    rw [normalAt_eq_normalize]
    show 0 < (crossAt perlin v).y * G.inversesqrt ((crossAt perlin v).dot (crossAt perlin v))
    rw [hy]
    exact mul_pos (by norm_num) (hpos _ (dot_crossAt_pos perlin v))
  have hconst : (∀ x z x' z', perlin x z = perlin x' z') →
      ∀ v : Vec3 α, normalAt G perlin v = ⟨0, 1, 0⟩ := by
    intro hc v
    rw [normalAt_eq_normalize, crossAt_eq,
      hc (v.x + 2 / 10) v.z (v.x - 2 / 10) v.z, hc v.x (v.z + 2 / 10) v.x (v.z - 2 / 10)]
    have h := hsq ((2 * (2 / 10)) * (2 * (2 / 10))) (by norm_num)
    have hd : (Vec3.mk (-((perlin (v.x - 2 / 10) v.z - perlin (v.x - 2 / 10) v.z) *
          (2 * (2 / 10)))) ((2 * (2 / 10)) * (2 * (2 / 10)))
          (-((2 * (2 / 10)) * (perlin v.x (v.z - 2 / 10) - perlin v.x (v.z - 2 / 10))))).dot
        (Vec3.mk (-((perlin (v.x - 2 / 10) v.z - perlin (v.x - 2 / 10) v.z) *
          (2 * (2 / 10)))) ((2 * (2 / 10)) * (2 * (2 / 10)))
          (-((2 * (2 / 10)) * (perlin v.x (v.z - 2 / 10) - perlin v.x (v.z - 2 / 10))))) =
        (2 * (2 / 10)) * (2 * (2 / 10)) * ((2 * (2 / 10)) * (2 * (2 / 10))) := by
      simp only [Vec3.dot]
      ring
    unfold Glm.normalize
    rw [hd]
    simp only [Vec3.scale, Vec3.mk.injEq]
    refine ⟨by ring, ?_, by ring⟩
    rw [mul_comm]
    exact h
  refine ⟨rfl, ?_, hy vertex, ?_, hpy vertex, ?_, ?_⟩
  · rw [hy]
    norm_num
  · intro h0
    have := hy vertex
    rw [h0] at this
    norm_num at this
  · intro m' hm' n hn
    obtain ⟨v, rfl⟩ := generate_normals_mem G perlin W H flags m' hm' n hn
    exact hpy v
  · intro hc
    refine ⟨hconst hc vertex, ?_⟩
    intro m' hm' n hn
    obtain ⟨v, rfl⟩ := generate_normals_mem G perlin W H flags m' hm' n hn
    exact hconst hc v

end

/-- Witness for C25: a mesh of width 4 and height 3, and one of height 1. -/
theorem indices_in_range_witness :
    1 ≤ 3 ∧
    (∃ m', generate unitGlm ridge (init 4 3 6) = some m' ∧
      ∀ k ∈ m'.indices, k < m'.vertices.length) ∧
    ∃ m', generate unitGlm ridge (init 4 1 6) = some m' ∧ m'.indices = [] := by
  obtain ⟨_, h2, _, h4⟩ := indices_in_range unitGlm ridge 4 3 6 (by decide)
  obtain ⟨_, _, g3, g4⟩ := indices_in_range unitGlm ridge 4 1 6 (by decide)
  obtain ⟨m', hm'⟩ := h4 (Or.inr (by decide))
  obtain ⟨m1, hm1⟩ := g4 (Or.inr (by decide))
  exact ⟨by decide, ⟨m', hm', h2 m' hm'⟩, m1, hm1, (g3 rfl).2 m1 hm1⟩

/-- Witness for C26 on the code, the failing input: on a mesh of width 1 and
height 2 with normals enabled the vertex array has two elements and the read
for `i = 1`, `j = 0` is at position `2`, past the end: `generate` has no defined
result. -/
theorem normal_lookup_in_range_iff_witness :
    (fillIndices (fillVertices ridge (init 1 2 NORMAL_BIT))).vertices.length = 2 ∧
    normalLookupIndex 2 1 0 = 1 * 2 ∧
    ¬ (∀ i j, i < 2 → j < 1 → normalLookupIndex 2 i j < 1 * 2) ∧
    generate unitGlm ridge (init 1 2 NORMAL_BIT) = none := by
  obtain ⟨h1, h2⟩ := normal_lookup_in_range_iff 1 2 (by decide) (by decide)
  refine ⟨vertices_length_init ridge 1 2 NORMAL_BIT, h2 (by decide),
    fun h => absurd (h1.mp h) (by decide), ?_⟩
  simp [generate, fillNormals, fillIndices, fillVertices, init, forLoop, hasFlag, NORMAL_BIT,
    u32Sub, List.range_succ, normalLookupIndex, u32]

/-- Witness for C27: the exact inverse square root over `ℚ`; the mesh of width
and height 2 over the ridge, and a vertex of a level field. -/
theorem normal_y_positive_witness :
    (∀ t : ℚ, 0 < t → 0 < exactGlm.inversesqrt t) ∧
    (∀ t : ℚ, 0 < t → exactGlm.inversesqrt (t * t) * t = 1) ∧
    (crossAt ridge ⟨-1, 1, -1⟩).y = 16 / 100 ∧
    normalAt exactGlm (fun _ _ => 3) ⟨-1, 3, -1⟩ = ⟨0, 1, 0⟩ ∧
    ∃ m', generate exactGlm ridge (init 2 2 NORMAL_BIT) = some m' ∧
      m'.normals[0 * 2 + 0]? = some (normalAt exactGlm ridge ⟨-1, 1, -1⟩) ∧
      ∀ n ∈ m'.normals, 0 < n.y := by
  have hpos : ∀ t : ℚ, 0 < t → 0 < exactGlm.inversesqrt t := fun t _ => ratInverseSqrt_pos t
  have hsq : ∀ t : ℚ, 0 < t → exactGlm.inversesqrt (t * t) * t = 1 := ratInverseSqrt_sq
  obtain ⟨_, _, h3, _, _, h6, _⟩ := normal_y_positive exactGlm ridge ⟨-1, 1, -1⟩ 2 2 NORMAL_BIT
    hpos hsq
  obtain ⟨_, _, _, _, _, _, h7⟩ := normal_y_positive exactGlm (fun _ _ => (3 : ℚ)) ⟨-1, 3, -1⟩
    2 2 NORMAL_BIT hpos hsq
  obtain ⟨m', hm', hn⟩ := generate_normals exactGlm ridge 2 2 NORMAL_BIT (by decide)
    (fun i j hi hj => normalLookupIndex_lt 2 2 i j (by decide) hi hj)
  have h0 := hn 0 0 (by decide) (by decide)
  have hidx : normalLookupIndex 2 0 0 = 0 * 2 + 0 := by decide
  rw [hidx, vertices_getElem?_init ridge 2 2 NORMAL_BIT 0 0 (by decide) (by decide)] at h0
  refine ⟨hpos, hsq, h3, (h7 (fun _ _ _ _ => rfl)).1, m', hm', ?_, h6 m' hm'⟩
  rw [h0]
  norm_num [vertexAt, ridge]

end TerrainMesh

/-! ## Terrain: the normal of a zero cross product -/

/-- In binary32 the dot product of the zero vector with itself is zero. -/
theorem Vec3.dotF32_zero : (⟨0, 0, 0⟩ : Vec3 ℚ).dotF32 ⟨0, 0, 0⟩ = 0 := by
  simp [Vec3.dotF32, f32_zero]

/-- In binary32 the cross product with the zero vector is the zero vector. -/
theorem Vec3.crossF32_zero (a : Vec3 ℚ) : a.crossF32 ⟨0, 0, 0⟩ = ⟨0, 0, 0⟩ := by
  simp [Vec3.crossF32, f32_zero]

namespace TerrainMesh

section
variable {α : Type} [LinearOrderedField α]

/-- C5, as amended: `generate` has no test of the cross product: the normal it
stores for a vertex is always `normalize(cross(right - left, up - down))`, in
exact arithmetic and in binary32, and so is every normal of a mesh it returns.
In exact arithmetic the cross product is never the zero vector, so no normal
is obtained by normalising a zero-length vector.  In binary32, whenever the
cross product is the zero vector the stored normal is the result of
normalising it, which is no vector of numbers (`0 * inf`), not `(0, 1, 0)`. -/
theorem normal_of_zero_cross (G : Glm α) (perlin : α → α → α) (vertex : Vec3 α)
    (W H flags : Nat) (G1 : Glm ℚ) (perlin1 : ℚ → ℚ → ℚ) (vertex1 : Vec3 ℚ) :
    normalAt G perlin vertex = G.normalize (crossAt perlin vertex) ∧
    crossAt perlin vertex ≠ ⟨0, 0, 0⟩ ∧
    (∀ m', generate G perlin (init W H flags) = some m' →
      ∀ n ∈ m'.normals, ∃ v, n = G.normalize (crossAt perlin v) ∧ crossAt perlin v ≠ ⟨0, 0, 0⟩) ∧
    normalAtF32 G1 perlin1 vertex1 = G1.normalizeF32 (crossAtF32 perlin1 vertex1) ∧
    (crossAtF32 perlin1 vertex1 = ⟨0, 0, 0⟩ →
      normalAtF32 G1 perlin1 vertex1 = none ∧
        normalAtF32 G1 perlin1 vertex1 ≠ some ⟨0, 1, 0⟩) := by
  have hne : ∀ v : Vec3 α, crossAt perlin v ≠ ⟨0, 0, 0⟩ := by
    intro v h0
    have hy : (crossAt perlin v).y = 16 / 100 := by
      rw [crossAt_eq]
      norm_num
    rw [h0] at hy
    norm_num at hy
  refine ⟨rfl, hne vertex, ?_, rfl, ?_⟩
  · intro m' hm' n hn
    obtain ⟨v, hv⟩ := generate_normals_mem G perlin W H flags m' hm' n hn
    exact ⟨v, hv, hne v⟩
  · intro h0
    have hnone : normalAtF32 G1 perlin1 vertex1 = none := by
      unfold normalAtF32 Glm.normalizeF32
      rw [h0, if_pos Vec3.dotF32_zero]
    refine ⟨hnone, ?_⟩
    rw [hnone]
    exact fun h => Option.noConfusion h

end

end TerrainMesh

/-- Counterexample to C5 as stated: on a level field, the first vertex of a mesh
of width 8388610 and height 1 is `(-4194305, 0, -0.5)`.  In binary32 both
`x + 0.2f` and `x - 0.2f` round to `x`, so `up = down`, the cross product is the
zero vector, and the normal stored is the result of normalising it, which is no
vector of numbers, not `(0, 1, 0)`. -/
theorem zero_cross_is_normalised :
    TerrainMesh.vertexAt (fun _ _ => (0 : ℚ)) 8388610 1 0 0 = ⟨-4194305, 0, -(1 / 2)⟩ ∧
    f32 (-4194305 + f32 (2 / 10)) = -4194305 ∧ f32 (-4194305 - f32 (2 / 10)) = -4194305 ∧
    TerrainMesh.crossAtF32 (fun _ _ => 0) ⟨-4194305, 0, -(1 / 2)⟩ = ⟨0, 0, 0⟩ ∧
    TerrainMesh.normalAtF32 unitGlm (fun _ _ => 0) ⟨-4194305, 0, -(1 / 2)⟩ = none := by
  have hu : f32 (-4194305 + f32 (2 / 10)) = -4194305 := by
    rw [f32_fifth, f32_eq_neg _ 22 (-8388610) (by norm_num) (by norm_num) (by norm_num)
      (by norm_num [abs_lt])]
    norm_num
  have hd : f32 (-4194305 - f32 (2 / 10)) = -4194305 := by
    rw [f32_fifth, f32_eq_neg _ 22 (-8388610) (by norm_num) (by norm_num) (by norm_num)
      (by norm_num [abs_lt])]
    norm_num
  have hc : TerrainMesh.crossAtF32 (fun _ _ => 0) ⟨-4194305, 0, -(1 / 2)⟩ = ⟨0, 0, 0⟩ := by
    unfold TerrainMesh.crossAtF32
    simp only [hu, hd, Vec3.subF32, sub_self, f32_zero]
    exact Vec3.crossF32_zero _
  refine ⟨?_, hu, hd, hc, ?_⟩
  · norm_num [TerrainMesh.vertexAt]
  · unfold TerrainMesh.normalAtF32 Glm.normalizeF32
    rw [hc, if_pos Vec3.dotF32_zero]

end Succuland
